import Mathlib

/-!
Verification of the VIC-absence normalization & reconciliation engine.

Strings are modelled as lists of characters (`Str`); the ledger worksheet is a
list of rows, each row a list of cell strings, exactly as returned by the
sheet transport's `get_all_values`.  All functions below are shallow
embeddings of the Python sources in `src/scraper.py` and `src/sheets.py`.
-/

/-- Strings are modelled as lists of characters. -/
abbrev Str := List Char

/-- Association-list lookup by key (first match), modelling Python `dict` reads. -/
def alookup {α : Type} (k : Str) : List (Str × α) → Option α
  | [] => none
  | (k₂, v) :: t => if k₂ = k then some v else alookup k t

/-- Association-list insert-or-replace, modelling Python `dict` assignment
(insertion order is preserved; a repeated key is overwritten in place). -/
def upsert {α : Type} (k : Str) (v : α) : List (Str × α) → List (Str × α)
  | [] => [(k, v)]
  | (k₂, v₂) :: t => if k₂ = k then (k, v) :: t else (k₂, v₂) :: upsert k v t

/-- Python's `str.strip()`: drop leading and trailing whitespace. -/
def strip (s : Str) : Str :=
  ((s.dropWhile Char.isWhitespace).reverse.dropWhile Char.isWhitespace).reverse

/-- Numeric value of a run of decimal digit characters (`int(n)` on a digit run). -/
def valOfRun (cs : Str) : Nat :=
  cs.foldl (fun a c => 10 * a + (c.toNat - 48)) 0

/-- Base-10 digits of `n`, least significant first, on structural fuel
(`natDigitsLE fuel n = Nat.digits 10 n` whenever `n ≤ fuel`). -/
def natDigitsLE : Nat → Nat → List Nat
  | _, 0 => []
  | 0, _ + 1 => []
  | fuel + 1, n + 1 => (n + 1) % 10 :: natDigitsLE fuel ((n + 1) / 10)

/-- Decimal rendering of a natural number, as Python's `str` does. -/
def natDigitChars (n : Nat) : Str :=
  if n = 0 then ['0']
  else ((natDigitsLE n n).reverse.map (fun d => Char.ofNat (48 + d)))

/-- Decimal rendering of an integer, as Python's `str` does. -/
def intToStr (z : Int) : Str :=
  if z < 0 then '-' :: natDigitChars z.natAbs else natDigitChars z.toNat

/-- Python's `int(str)`: optional sign after stripping whitespace, then a
non-empty all-digit body; everything else raises `ValueError` (here `none`). -/
def parseInt (s : Str) : Option Int :=
  let t := strip s
  if t = [] then none
  else if t.headD ' ' = '-' then
    if t.tail ≠ [] ∧ t.tail.all Char.isDigit then some (-(valOfRun t.tail : Int)) else none
  else if t.headD ' ' = '+' then
    if t.tail ≠ [] ∧ t.tail.all Char.isDigit then some ((valOfRun t.tail : Int)) else none
  else if t.all Char.isDigit then some ((valOfRun t : Int)) else none

/-- The literal "교시" (period-unit suffix) used by the source. -/
def gyosi : Str := ['교', '시']

/-- The literal "morning". -/
def morningStr : Str := ['m', 'o', 'r', 'n', 'i', 'n', 'g']

/-- Python's `text.split('교시')[0]`: the prefix of the string before the
first occurrence of the substring "교시" (the whole string if absent). -/
def takeUntilGyosi : Str → Str
  | [] => []
  | c :: t => if c = '교' ∧ t.headD ' ' = '시' then [] else c :: takeUntilGyosi t

/-- Worker for `re.findall(r'\d+', ·)`: `acc` holds the current digit run, reversed. -/
def findallDigitsAux : Str → Str → List Str
  | [], acc => if acc = [] then [] else [acc.reverse]
  | c :: t, acc =>
    if c.isDigit then findallDigitsAux t (c :: acc)
    else if acc = [] then findallDigitsAux t []
    else acc.reverse :: findallDigitsAux t []

/-- `re.findall(r'\d+', s)`: the maximal runs of decimal digits in `s`, in order. -/
def findallDigits (s : Str) : List Str := findallDigitsAux s []

/-- `",".join(pieces)`. -/
def joinComma : List Str → Str
  | [] => []
  | [x] => x
  | x :: y :: t => x ++ ',' :: joinComma (y :: t)

/-- `scraper.parse_periods`: all digit runs before the first "교시", as numbers.
The same parsing is used inline by `sheets.merge_periods`. -/
def parse_periods (period_text : Str) : List Nat :=
  (findallDigits (takeUntilGyosi period_text)).map valOfRun

/-- Python's `sorted` on a set of naturals: the ascending enumeration of a
`Finset Nat` (filter the range up to the maximum element). -/
def ascElems (s : Finset Nat) : List Nat :=
  (List.range (s.sup id + 1)).filter (fun n => n ∈ s)

/-- `sheets.format_periods`: empty list gives the empty string, otherwise the
numbers joined with commas and suffixed with "교시". -/
def format_periods (periods : List Nat) : Str :=
  if periods = [] then [] else joinComma (periods.map natDigitChars) ++ gyosi

/-- `sheets.merge_periods`: parse the existing periods text (if non-empty) into
a set, union the new periods, and re-render as ascending unique numbers joined
by commas plus the "교시" suffix.  Note: the join of an empty set still gets
the suffix, so merging empty with empty yields "교시". -/
def merge_periods (existing_periods : Str) (new_periods : List Nat) : Str :=
  let existing : Finset Nat :=
    if existing_periods = [] then ∅ else (parse_periods existing_periods).toFinset
  let merged : Finset Nat := existing ∪ new_periods.toFinset
  let sorted_periods : List Nat := ascElems merged
  joinComma (sorted_periods.map natDigitChars) ++ gyosi

/-- Does the text start with the literal "학년"? -/
def startsHaknyeon : Str → Prop
  | '학' :: '년' :: _ => True
  | _ => False

instance : DecidablePred startsHaknyeon := by
  intro s
  unfold startsHaknyeon
  split <;> infer_instance

/-- Remainder of matching `\+?(\d)?학년` after the leading `[digit`, following
the regex engine's greedy-with-backtracking order: (+, digit), (+, ε),
(ε, digit), (ε, ε).  Returns the matched grade (0 when a second digit makes the
scope common). -/
def gradeTail (d₁ : Int) (rest : Str) : Option Int :=
  (match rest with
   | '+' :: r₂ =>
     ((match r₂ with
      | c₂ :: r₃ => if c₂.isDigit ∧ startsHaknyeon r₃ then some 0 else none
      | [] => none : Option Int)).orElse
     (fun _ => if startsHaknyeon r₂ then some d₁ else none)
   | _ => (none : Option Int)).orElse
  (fun _ =>
    ((match rest with
     | c₂ :: r₃ => if c₂.isDigit ∧ startsHaknyeon r₃ then some 0 else none
     | [] => none : Option Int)).orElse
    (fun _ => if startsHaknyeon rest then some d₁ else none))

/-- Try to match `\[(\d)\+?(\d)?학년` at the start of the text. -/
def gradeMatchAt : Str → Option Int
  | '[' :: c₁ :: rest => if c₁.isDigit then gradeTail ((c₁.toNat : Int) - 48) rest else none
  | _ => none

/-- `re.search` scan for the grade marker: first position with a match wins. -/
def searchGrade : Str → Option Int
  | [] => none
  | c :: t =>
    match gradeMatchAt (c :: t) with
    | some g => some g
    | none => searchGrade t

/-- `scraper.parse_grade`: `[N학년 ...]` gives N, `[N+M학년 ...]` gives 0
(common scope), no recognizable marker gives 0. -/
def parse_grade (course_info : Str) : Int :=
  (searchGrade course_info).getD 0

/-- Does the text start with the literal "교시]"? -/
def startsGyosiBracket : Str → Prop
  | '교' :: '시' :: ']' :: _ => True
  | _ => False

instance : DecidablePred startsGyosiBracket := by
  intro s
  unfold startsGyosiBracket
  split <;> infer_instance

/-- Candidate matches for `(?:,\d+)*` starting at the text, as (runs, rest)
pairs listed from zero iterations upward.  Structural fuel: every iteration
consumes at least two characters, so fuel = length of the text suffices and
the fuel-exhausted base case is never reached on the wrapper below. -/
def starRunsAux : Nat → Str → List (List Str × Str)
  | 0, s => [([], s)]
  | _ + 1, [] => [([], [])]
  | fuel + 1, c :: t =>
    if c = ',' then
      if t.takeWhile Char.isDigit = [] then [([], c :: t)]
      else ([], c :: t) ::
        (starRunsAux fuel (t.dropWhile Char.isDigit)).map
          (fun p => (t.takeWhile Char.isDigit :: p.1, p.2))
    else [([], c :: t)]

/-- Candidate matches for `(?:,\d+)*` starting at the text. -/
def starRuns (s : Str) : List (List Str × Str) := starRunsAux s.length s

/-- Try to match `(\d+(?:,\d+)*)교시\]` at the start of the text: a maximal
digit run, then comma-separated runs (the star backtracks from most to fewest
iterations), then the literal "교시]".  Returns the numbers of the group. -/
def periodsMatchAt (s : Str) : Option (List Nat) :=
  if s.takeWhile Char.isDigit = [] then none
  else
    (((starRuns (s.dropWhile Char.isDigit)).reverse.find?
        (fun p => decide (startsGyosiBracket p.2))).map
      (fun p => (s.takeWhile Char.isDigit :: p.1).map valOfRun))

/-- `re.search` scan for the period group: first matching position wins;
no match means no period clause. -/
def searchPeriods : Str → Option (List Nat)
  | [] => none
  | c :: t =>
    match periodsMatchAt (c :: t) with
    | some ns => some ns
    | none => searchPeriods t

/-- `scraper.parse_period_from_course`: periods from the trailing bracketed
clause `...N,M교시]`; empty list when absent. -/
def parse_period_from_course (course_info : Str) : List Nat :=
  (searchPeriods course_info).getD []

/-- Is the character a Hangul syllable (the `[가-힣]` character class)? -/
def isHangul (c : Char) : Bool :=
  0xAC00 ≤ c.toNat ∧ c.toNat ≤ 0xD7A3

/-- Try to match `([가-힣]+)\((\d{5})\)` at the start of the text, returning
((student id, name), rest-after-the-match). -/
def matchStudentAt (cs : Str) : Option ((Str × Str) × Str) :=
  if cs.takeWhile isHangul = [] then none
  else if (cs.dropWhile isHangul).headD ' ' = '(' then
    if (((cs.dropWhile isHangul).tail.takeWhile Char.isDigit)).length = 5 then
      if ((cs.dropWhile isHangul).tail.dropWhile Char.isDigit).headD ' ' = ')' then
        some (((cs.dropWhile isHangul).tail.takeWhile Char.isDigit,
               cs.takeWhile isHangul),
              ((cs.dropWhile isHangul).tail.dropWhile Char.isDigit).tail)
      else none
    else none
  else none

/-- `re.findall` scan of the student pattern on structural fuel: a successful
match consumes at least eight characters and a failure advances one, so fuel =
length of the text suffices and the fuel base case is never reached on the
wrapper below. -/
def parse_studentsAux : Nat → Str → List (Str × Str)
  | 0, _ => []
  | _ + 1, [] => []
  | fuel + 1, c :: t =>
    match matchStudentAt (c :: t) with
    | some (p, rest) => p :: parse_studentsAux fuel rest
    | none => parse_studentsAux fuel t

/-- `scraper.parse_students`: `re.findall` of the name(5-digit-id) pattern,
left to right, non-overlapping, silently skipping text that does not match. -/
def parse_students (student_text : Str) : List (Str × Str) :=
  parse_studentsAux student_text.length student_text

/-- `scraper.AbsenceRecord`. -/
structure AbsenceRecord where
  student_id : Str
  name : Str
  grade : Int
  periods : List Nat
deriving DecidableEq, Repr

/-- Accumulated per-student state inside `scrape_absence_data`
(`student_periods[sid]`). -/
structure StudentEntry where
  name : Str
  grade : Int
  periods : Finset Nat
deriving DecidableEq

/-- `1 if student_id.startswith('1') else 2`: the grade resolved from the id
prefix inside `scrape_absence_data`. -/
def actual_grade (student_id : Str) : Int :=
  if student_id.headD ' ' = '1' then 1 else 2

/-- The active period window: `{1,2,3,4}` for "morning", `{5,6,7,8}` otherwise. -/
def validOf (time_slot : Str) : Finset Nat :=
  if time_slot = morningStr then {1, 2, 3, 4} else {5, 6, 7, 8}

/-- The inner student loop of `scrape_absence_data`: for each parsed
(id, name) pair, drop it unless the course scope is common (0) or matches the
id-resolved grade, then create the entry on first sighting and union in the
filtered periods. -/
def processStudents (grade : Int) (filtered_periods : List Nat)
    (sp : List (Str × StudentEntry)) :
    List (Str × Str) → List (Str × StudentEntry)
  | [] => sp
  | (student_id, name) :: rest =>
    if grade ≠ 0 ∧ grade ≠ actual_grade student_id then
      processStudents grade filtered_periods sp rest
    else
      let entry := (alookup student_id sp).getD
        ⟨name, actual_grade student_id, ∅⟩
      processStudents grade filtered_periods
        (upsert student_id
          { entry with periods := entry.periods ∪ filtered_periods.toFinset } sp)
        rest

/-- One roster row of `scrape_absence_data`'s table loop: rows with fewer than
6 cells, an empty course descriptor, an empty student list, or no period in
the active window are skipped. -/
def processRow (valid_periods : Finset Nat) (sp : List (Str × StudentEntry))
    (cells : List Str) : List (Str × StudentEntry) :=
  if cells.length < 6 then sp
  else
    let course_info := strip (cells.getD 3 [])
    let student_text := strip (cells.getD 5 [])
    if course_info = [] ∨ student_text = [] then sp
    else
      let grade := parse_grade course_info
      let periods := parse_period_from_course course_info
      let filtered_periods := periods.filter (· ∈ valid_periods)
      if filtered_periods = [] then sp
      else processStudents grade filtered_periods sp (parse_students student_text)

/-- `scraper.scrape_absence_data` on the extracted table rows (each row the
list of its cell texts): fold the rows into the per-student map, then emit one
`AbsenceRecord` per student in insertion order, periods sorted ascending. -/
def scrape_absence_data (rows : List (List Str)) (time_slot : Str) :
    List AbsenceRecord :=
  let valid_periods := validOf time_slot
  let student_periods := rows.foldl (processRow valid_periods) []
  student_periods.map (fun p =>
    { student_id := p.1, name := p.2.name, grade := p.2.grade
      periods := ascElems p.2.periods })

/-- One indexed entry of `get_today_existing_data`: the 1-based row number and
the current periods text of a student already logged today. -/
structure ExistRec where
  row : Nat
  periods : Str
deriving DecidableEq

/-- The result of `sheets.get_today_existing_data`. -/
structure ExistingData where
  grade1 : List (Str × ExistRec)
  grade2 : List (Str × ExistRec)
  max_seq : Int
  last_row : Nat
deriving DecidableEq

/-- One iteration of the `get_today_existing_data` row loop, on the pair
(0-based index, row): skip the header, track the last row whose column A is
non-empty, and on rows matching the target date track the maximal parseable
sequence number and index the track-1 (column C, periods F) and track-2
(column G, periods J) student ids. -/
def gtedStep (today_date : Str) (acc : ExistingData) (p : Nat × List Str) :
    ExistingData :=
  let row := p.2
  let row_num := p.1 + 1
  if p.1 = 0 then acc
  else
    let acc := if 1 ≤ row.length ∧ row.getD 0 [] ≠ [] then
        { acc with last_row := row_num } else acc
    if 2 ≤ row.length ∧ row.getD 0 [] = today_date then
      let acc :=
        match parseInt (row.getD 1 []) with
        | some seq => { acc with max_seq := max acc.max_seq seq }
        | none => acc
      let acc := if 6 ≤ row.length ∧ row.getD 2 [] ≠ [] then
          { acc with
            grade1 := upsert (row.getD 2 []) ⟨row_num, row.getD 5 []⟩ acc.grade1 }
        else acc
      let acc := if 10 ≤ row.length ∧ row.getD 6 [] ≠ [] then
          { acc with
            grade2 := upsert (row.getD 6 []) ⟨row_num, row.getD 9 []⟩ acc.grade2 }
        else acc
      acc
    else acc

/-- `sheets.get_today_existing_data` over the full cell matrix returned by
`get_all_values` (1-based row numbers, header row skipped, `last_row`
defaulting to the header row 1). -/
def get_today_existing_data (all_values : List (List Str)) (today_date : Str) :
    ExistingData :=
  all_values.enum.foldl (gtedStep today_date) ⟨[], [], 0, 1⟩

/-- `sheets.get_cancelled_students`: the first column of the cancellation
sheet minus its header, keeping ids whose stripped text is non-empty; any
exception while reading gives the empty set (fail-open). -/
def get_cancelled_students (col1 : Except Str (List Str)) : Finset Str :=
  match col1 with
  | Except.ok vals => ((vals.drop 1).filter (fun sid => strip sid ≠ [])).toFinset
  | Except.error _ => ∅

/-- Write a value into position `i` of a row, padding with empty cells if the
row is shorter (a sheet write always lands in its cell). -/
def setAt (row : List Str) (i : Nat) (v : Str) : List Str :=
  if i < row.length then row.set i v
  else row ++ List.replicate (i - row.length) [] ++ [v]

/-- Write one cell of the worksheet, addressed by 1-based row number and
0-based column index (`worksheet.update` of a single cell).  A row number
beyond the sheet is a no-op, mirroring that the transport would fail there;
the reconciler only ever writes rows it has just read. -/
def setCell (ws : List (List Str)) (row_num : Nat) (col : Nat) (v : Str) :
    List (List Str) :=
  ws.set (row_num - 1) (setAt (ws.getD (row_num - 1) []) col v)

/-- Block write `A{start}:J{...}` (`worksheet.update` of a row range): rows
`start_row, start_row+1, ...` (1-based) are replaced by the given rows,
extending the sheet as needed. -/
def writeBlock (ws : List (List Str)) (start_row : Nat)
    (rows : List (List Str)) : List (List Str) :=
  let padded := ws ++ List.replicate (start_row - 1 - ws.length) []
  padded.take (start_row - 1) ++ rows ++ padded.drop (start_row - 1 + rows.length)

/-- Cell of the worksheet at 0-based row index `i` and column `c` (empty when
absent). -/
def cellAt (ws : List (List Str)) (i : Nat) (c : Nat) : Str :=
  (ws.getD i []).getD c []

/-- `grade_data.get(student_id, {}).get("type", "")`: the boarding/commute
type from the student roster data, defaulting to the empty string. -/
def lookupType (grade_data : List (Str × Str)) (student_id : Str) : Str :=
  (alookup student_id grade_data).getD []

/-- Row `i` of the synthesized new-row block of `write_absence_records`:
date in A, sequence `next_seq + i` in B, the `i`-th new track-1 record (if
any) in C–F and the `i`-th new track-2 record (if any) in G–J. -/
def build_new_row (date_str : Str) (next_seq : Int)
    (grade1_data grade2_data : List (Str × Str))
    (grade1_new grade2_new : List AbsenceRecord) (i : Nat) : List Str :=
  let row : List Str := List.replicate 10 []
  let row := (row.set 0 date_str).set 1 (intToStr (next_seq + i))
  let row :=
    match grade1_new.get? i with
    | some r =>
        (((row.set 2 r.student_id).set 3 r.name).set 4
          (lookupType grade1_data r.student_id)).set 5 (format_periods r.periods)
    | none => row
  match grade2_new.get? i with
  | some r =>
      (((row.set 6 r.student_id).set 7 r.name).set 8
        (lookupType grade2_data r.student_id)).set 9 (format_periods r.periods)
  | none => row

/-- The records surviving the cancellation filter, in order. -/
def filteredRecords (cancel_col : Except Str (List Str))
    (records : List AbsenceRecord) : List AbsenceRecord :=
  records.filter (fun r => r.student_id ∉ get_cancelled_students cancel_col)

/-- The update bucket of a track: records whose id is indexed for today. -/
def updateBucket (index : List (Str × ExistRec)) (records : List AbsenceRecord) :
    List AbsenceRecord :=
  records.filter (fun r => (alookup r.student_id index).isSome)

/-- The new bucket of a track: records whose id is not indexed for today. -/
def newBucket (index : List (Str × ExistRec)) (records : List AbsenceRecord) :
    List AbsenceRecord :=
  records.filter (fun r => (alookup r.student_id index).isNone)

/-- The merge phase of one track: for each update-bucket record, write the
merged periods text into the periods column (`col`) of the row indexed for
its id.  The merged value is computed from the snapshot, as in the source. -/
def applyUpdates (index : List (Str × ExistRec)) (col : Nat)
    (updates : List AbsenceRecord) (ws : List (List Str)) : List (List Str) :=
  updates.foldl (fun w r =>
    match alookup r.student_id index with
    | some e => setCell w e.row col (merge_periods e.periods r.periods)
    | none => w) ws

/-- Outcome of one `write_absence_records` run: the worksheet afterwards, the
two counters the source maintains, the student count pushed to the
notification cell (when a time slot was given and the run reached that step),
and the function's return value. -/
structure RunResult where
  ws : List (List Str)
  updated_count : Nat
  new_rows_count : Nat
  notified : Option Nat
  retval : Nat
deriving DecidableEq

/-- `sheets.write_absence_records` as a pure transformer of the worksheet:
filter out cancelled students, split by the record's grade field, partition
each track against today's index, merge the periods of already-present
students in place (F for track 1, J for track 2), then append
`max(new₁, new₂)` packed rows right after the last occupied row with
sequence numbers continuing from today's maximum, and finally report the
processed-student count for the notification message.  The credential /
client plumbing, the student-roster file load and the target-date resolution
to "today" are external inputs here (`grade1_data`, `grade2_data`,
`date_str`); `time_slot = []` models `None`.  The unused deprecated
`start_row` parameter is omitted. -/
def write_absence_records (ws : List (List Str)) (records : List AbsenceRecord)
    (cancel_col : Except Str (List Str))
    (grade1_data grade2_data : List (Str × Str))
    (date_str : Str) (time_slot : Str) : RunResult :=
  if records = [] then ⟨ws, 0, 0, none, 0⟩
  else
    let frs := filteredRecords cancel_col records
    if frs = [] then ⟨ws, 0, 0, none, 0⟩
    else
      let existing_data := get_today_existing_data ws date_str
      let grade1_records := frs.filter (fun r => r.grade = 1)
      let grade2_records := frs.filter (fun r => r.grade = 2)
      let grade1_update := updateBucket existing_data.grade1 grade1_records
      let grade1_new := newBucket existing_data.grade1 grade1_records
      let grade2_update := updateBucket existing_data.grade2 grade2_records
      let grade2_new := newBucket existing_data.grade2 grade2_records
      let ws₁ := applyUpdates existing_data.grade1 5 grade1_update ws
      let ws₂ := applyUpdates existing_data.grade2 9 grade2_update ws₁
      let updated_count := grade1_update.length + grade2_update.length
      let max_new_rows := max grade1_new.length grade2_new.length
      let next_seq := existing_data.max_seq + 1
      let next_row := existing_data.last_row + 1
      let rows_to_write := (List.range max_new_rows).map
        (build_new_row date_str next_seq grade1_data grade2_data
          grade1_new grade2_new)
      let ws₃ := if max_new_rows = 0 then ws₂
        else writeBlock ws₂ next_row rows_to_write
      let new_rows_count := if max_new_rows = 0 then 0 else rows_to_write.length
      let notified := if time_slot ≠ [] then
          some (grade1_records.length + grade2_records.length)
        else none
      ⟨ws₃, updated_count, new_rows_count, notified, new_rows_count⟩

/-- `sheets.WEEKDAYS`: Korean weekday names, Monday first. -/
def WEEKDAYS : List Str :=
  [['월'], ['화'], ['수'], ['목'], ['금'], ['토'], ['일']]

/-- Gregorian leap year. -/
def isLeap (y : Nat) : Bool := decide ((y % 4 = 0 ∧ y % 100 ≠ 0) ∨ y % 400 = 0)

/-- Days in the months preceding month `m` of year `y`. -/
def daysBeforeMonth (y m : Nat) : Nat :=
  [0, 31, 59, 90, 120, 151, 181, 212, 243, 273, 304, 334].getD (m - 1) 0
    + (if 3 ≤ m ∧ isLeap y then 1 else 0)

/-- Length of month `m` of year `y`. -/
def daysInMonth (y m : Nat) : Nat :=
  [31, if isLeap y then 29 else 28, 31, 30, 31, 30, 31, 31, 30, 31, 30,
    31].getD (m - 1) 0

/-- `datetime.strptime(s, "%Y-%m-%d")`: three dash-separated numeric fields
forming a valid proleptic-Gregorian date. -/
def parseDate (s : Str) : Option (Nat × Nat × Nat) :=
  match s.splitOn '-' with
  | [ys, ms, ds] =>
    if ys ≠ [] ∧ ys.all Char.isDigit ∧ ms ≠ [] ∧ ms.all Char.isDigit
        ∧ ds ≠ [] ∧ ds.all Char.isDigit then
      let y := valOfRun ys
      let m := valOfRun ms
      let d := valOfRun ds
      if 1 ≤ y ∧ 1 ≤ m ∧ m ≤ 12 ∧ 1 ≤ d ∧ d ≤ daysInMonth y m then
        some (y, m, d) else none
    else none
  | _ => none

/-- Rata-die day number of a proleptic-Gregorian date (0001-01-01 is day 1). -/
def rataDie (y m d : Nat) : Nat :=
  365 * (y - 1) + (y - 1) / 4 + (y - 1) / 400 + daysBeforeMonth y m + d
    - (y - 1) / 100

/-- `date.weekday()`: 0 for Monday through 6 for Sunday. -/
def weekdayIdx (y m d : Nat) : Nat := (rataDie y m d - 1) % 7

/-- The message template of `sheets.update_notification_message`. -/
def compose_message (student_count : Nat) (time_slot : Str)
    (y m d : Nat) : Str :=
  let time_label : Str := if time_slot = morningStr then ['오', '전'] else ['오', '후']
  "안녕하세요, 이현경 부장님.\n".data
    ++ natDigitChars m ++ "월 ".data ++ natDigitChars d ++ "일(".data
    ++ WEEKDAYS.getD (weekdayIdx y m d) [] ++ ") 겨울방학 방과후 출결결과 보내드립니다.\n\n총 ".data
    ++ natDigitChars student_count
    ++ "명의 학생 및 학부모님께 ".data ++ time_label
    ++ " 알림 발송 완료했습니다.\n\n[VIC 강의 출결 현황 스프레드시트] https://docs.google.com/spreadsheets/d/1Gi2Qu_5nTba-pHfdRy6S_iyxXnhEiogxoxNFz7n37DY/edit?usp=sharing".data

/-- The sheet name and cell the notification composer writes: always the
sheet "알림 문구" and the cell "B4", for every date and time slot
(`notify_sheet.update(range_name="B4", ...)` in the source). -/
def notification_write_target (target_date : Str) (time_slot : Str) :
    Str × Str :=
  (['알', '림', ' ', '문', '구'], ['B', '4'])

/-- `sheets.update_notification_message` on the notification sheet modelled
as a cell-address/content association list: parse the date, compose the
message and overwrite the one target cell; a date that fails to parse raises
inside the `try`, is caught, and leaves the sheet unchanged. -/
def update_notification_message (sheet : List (Str × Str))
    (student_count : Nat) (time_slot : Str) (target_date : Str) :
    List (Str × Str) :=
  match parseDate target_date with
  | some (y, m, d) =>
    upsert (notification_write_target target_date time_slot).2
      (compose_message student_count time_slot y m d) sheet
  | none => sheet

/-- Is a ledger row "occupied" in the sense of `last_row` tracking: at least
one cell, with a non-empty column A? -/
def occRow (row : List Str) : Bool :=
  decide (1 ≤ row.length ∧ row.getD 0 [] ≠ [])

/-- Would `get_today_existing_data` index this row for `id` on track 1? -/
def match1 (d id : Str) (row : List Str) : Bool :=
  decide (2 ≤ row.length ∧ row.getD 0 [] = d ∧ 6 ≤ row.length
    ∧ row.getD 2 [] = id ∧ id ≠ [])

/-- Would `get_today_existing_data` index this row for `id` on track 2? -/
def match2 (d id : Str) (row : List Str) : Bool :=
  decide (2 ≤ row.length ∧ row.getD 0 [] = d ∧ 10 ≤ row.length
    ∧ row.getD 6 [] = id ∧ id ≠ [])

/-- The last (0-based) position of a list of rows satisfying `p`, together
with that row. -/
def lastMatch (p : List Str → Bool) : List (List Str) → Option (Nat × List Str)
  | [] => none
  | row :: rest =>
    match lastMatch p rest with
    | some (j, r) => some (j + 1, r)
    | none => if p row then some (0, row) else none

/-- The maximum-sequence fold of `get_today_existing_data`, isolated. -/
def msFold (d : Str) (a : Int) (rows : List (List Str)) : Int :=
  rows.foldl (fun s row =>
    if 2 ≤ row.length ∧ row.getD 0 [] = d then
      match parseInt (row.getD 1 []) with
      | some q => max s q
      | none => s
    else s) a

/-- Canonical rendering of a period set: ascending unique numbers joined by
commas, plus the "교시" suffix.  Every merged cell has this shape. -/
def fmtFinset (s : Finset Nat) : Str :=
  joinComma ((ascElems s).map natDigitChars) ++ gyosi

/-- The LedgerRow invariants of the specification, on a snapshot as read:
a header row exists; every row has the ten columns A–J; data rows (non-empty
column A, header excluded) carry a parseable positive sequence number; within
one date the sequence numbers are pairwise distinct and 1 occurs; and a
non-blank student id appears on at most one row of a date per track
(column C for track 1, column G for track 2). -/
structure LedgerInv (ws : List (List Str)) : Prop where
  header : ws ≠ []
  width : ∀ row ∈ ws, row.length = 10
  seqPos : ∀ row ∈ ws.drop 1, row.getD 0 [] ≠ [] →
    ∃ n : Nat, 1 ≤ n ∧ parseInt (row.getD 1 []) = some (n : Int)
  seqUnique : ∀ i j, i < (ws.drop 1).length → j < (ws.drop 1).length → i ≠ j →
    ((ws.drop 1).getD i []).getD 0 [] ≠ [] →
    ((ws.drop 1).getD i []).getD 0 [] = ((ws.drop 1).getD j []).getD 0 [] →
    ∀ a b : Int, parseInt (((ws.drop 1).getD i []).getD 1 []) = some a →
      parseInt (((ws.drop 1).getD j []).getD 1 []) = some b → a ≠ b
  seqOne : ∀ row ∈ ws.drop 1, row.getD 0 [] ≠ [] →
    ∃ row₂ ∈ ws.drop 1, row₂.getD 0 [] = row.getD 0 []
      ∧ parseInt (row₂.getD 1 []) = some 1
  idUnique1 : ∀ i j, i < (ws.drop 1).length → j < (ws.drop 1).length → i ≠ j →
    ((ws.drop 1).getD i []).getD 0 [] ≠ [] →
    ((ws.drop 1).getD i []).getD 0 [] = ((ws.drop 1).getD j []).getD 0 [] →
    ((ws.drop 1).getD i []).getD 2 [] = ((ws.drop 1).getD j []).getD 2 [] →
    ((ws.drop 1).getD i []).getD 2 [] = []
  idUnique2 : ∀ i j, i < (ws.drop 1).length → j < (ws.drop 1).length → i ≠ j →
    ((ws.drop 1).getD i []).getD 0 [] ≠ [] →
    ((ws.drop 1).getD i []).getD 0 [] = ((ws.drop 1).getD j []).getD 0 [] →
    ((ws.drop 1).getD i []).getD 6 [] = ((ws.drop 1).getD j []).getD 6 [] →
    ((ws.drop 1).getD i []).getD 6 [] = []

/-- Spec-side: the roster-row guards of the scrape loop together with a
non-empty in-window period list. -/
def rowSurvives (valid : Finset Nat) (cells : List Str) : Prop :=
  6 ≤ cells.length ∧ strip (cells.getD 3 []) ≠ [] ∧ strip (cells.getD 5 []) ≠ []
    ∧ (parse_period_from_course (strip (cells.getD 3 []))).filter
        (fun p => p ∈ valid) ≠ []

instance (valid : Finset Nat) (cells : List Str) :
    Decidable (rowSurvives valid cells) := by
  unfold rowSurvives; infer_instance

/-- Spec-side: the grade gate of the student loop, for a given student id. -/
def gradeOK (cells : List Str) (sid : Str) : Prop :=
  parse_grade (strip (cells.getD 3 [])) = 0
    ∨ parse_grade (strip (cells.getD 3 [])) = actual_grade sid

instance (cells : List Str) (sid : Str) : Decidable (gradeOK cells sid) := by
  unfold gradeOK; infer_instance

/-- Spec-side: does the roster row contain a pairing for this student id? -/
def pairingFor (cells : List Str) (sid : Str) : Bool :=
  (parse_students (strip (cells.getD 5 []))).any (fun p => decide (p.1 = sid))

/-- Spec-side: does the (course, student) pairing of this roster row survive
both the window filter and the grade gate? -/
def contributes (valid : Finset Nat) (cells : List Str) (sid : Str) : Bool :=
  decide (rowSurvives valid cells) && pairingFor cells sid
    && decide (gradeOK cells sid)

/-- Spec-side: the period set a roster row contributes to a student id. -/
def rowContribution (valid : Finset Nat) (cells : List Str) (sid : Str) :
    Finset Nat :=
  if contributes valid cells sid then
    ((parse_period_from_course (strip (cells.getD 3 []))).filter
      (fun p => p ∈ valid)).toFinset
  else ∅

/-- Spec-side: the union of all per-row contributions for a student id. -/
def totalContribution (valid : Finset Nat) (rows : List (List Str))
    (sid : Str) : Finset Nat :=
  rows.foldl (fun s cells => s ∪ rowContribution valid cells sid) ∅

/-- Spec-side: the (id, name) pairings of a roster row that survive the
window filter and the grade gate, in parse order. -/
def survivingPairs (valid : Finset Nat) (cells : List Str) :
    List (Str × Str) :=
  if rowSurvives valid cells then
    (parse_students (strip (cells.getD 5 []))).filter
      (fun p => decide (gradeOK cells p.1))
  else []

/-- Spec-side: the name of the first surviving pairing for a student id
across the run, in roster order. -/
def firstNameFor (valid : Finset Nat) (rows : List (List Str)) (sid : Str) :
    Option Str :=
  (((rows.map (survivingPairs valid)).flatten).find?
    (fun p => decide (p.1 = sid))).map (fun p => p.2)

/-- The accumulated period set of a student id in the scrape map. -/
def periodsOf (sp : List (Str × StudentEntry)) (sid : Str) : Finset Nat :=
  match alookup sid sp with
  | some e => e.periods
  | none => ∅

/-- Is the student id present in the scrape map? -/
def memberOf (sp : List (Str × StudentEntry)) (sid : Str) : Bool :=
  (alookup sid sp).isSome

/-- The recorded name of a student id in the scrape map, if any. -/
def nameOf (sp : List (Str × StudentEntry)) (sid : Str) : Option Str :=
  (alookup sid sp).map (fun e => e.name)

/-- A minimal ledger snapshot: just the ten-column header row. -/
def sampleWs : List (List Str) := [List.replicate 10 []]

/-- A sample target date. -/
def sampleDate : Str := "2026-01-09".data

/-- Two sample absence records, one per track. -/
def sampleRecs : List AbsenceRecord :=
  [⟨"10911".data, "김지몽".data, 1, [1, 2]⟩,
   ⟨"21202".data, "김민서".data, 2, [1, 2]⟩]

/-- A sample record with the common grade value 0. -/
def oddRec : AbsenceRecord := ⟨"00000".data, "공통".data, 0, [3]⟩

/-- Packing example: three new track-1 records and one new track-2 record. -/
def packRecs : List AbsenceRecord :=
  [⟨"10911".data, "가".data, 1, [1, 2]⟩,
   ⟨"10912".data, "나".data, 1, [1]⟩,
   ⟨"10913".data, "다".data, 1, [2]⟩,
   ⟨"21202".data, "라".data, 2, [1, 2]⟩]

/-- Two roster rows for the same student: in-window periods {1,2} and {3,4}. -/
def aggRows : List (List Str) :=
  [[[], [], [], "[1학년 국어과 매일 1,2교시]".data, [], "강민준(10101)".data],
   [[], [], [], "[1학년 수학과 매일 3,4교시]".data, [], "강민준(10101)".data]]

-- ======================================================================
-- Theorems.  Everything below is proof; no further model definitions.
-- ======================================================================

theorem natDigitsLE_eq_digits :
    ∀ fuel n, n ≤ fuel → natDigitsLE fuel n = Nat.digits 10 n := by
  intro fuel
  induction fuel with
  | zero =>
    intro n hn
    interval_cases n
    simp [natDigitsLE]
  | succ fuel ih =>
    intro n hn
    match n with
    | 0 => simp [natDigitsLE]
    | m + 1 =>
      rw [natDigitsLE, ih ((m + 1) / 10)
        (by
          have := Nat.div_lt_self (Nat.succ_pos m) (by norm_num : 1 < 10)
          omega),
        Nat.digits_def' (by norm_num : 1 < 10) (Nat.succ_pos m)]

theorem dc_toNat {d : Nat} (h : d < 10) : (Char.ofNat (48 + d)).toNat = 48 + d := by
  interval_cases d <;> decide

theorem dc_isDigit {d : Nat} (h : d < 10) : (Char.ofNat (48 + d)).isDigit = true := by
  interval_cases d <;> decide

theorem valOfRun_eq_ofDigits : ∀ L : List Nat, (∀ d ∈ L, d < 10) →
    valOfRun ((L.reverse).map (fun d => Char.ofNat (48 + d)))
      = Nat.ofDigits 10 L := by
  intro L
  induction L with
  | nil => intro _; simp [valOfRun, Nat.ofDigits]
  | cons d L ih =>
    intro h
    have hd : d < 10 := h d (List.mem_cons_self _ _)
    have hL : ∀ x ∈ L, x < 10 := fun x hx => h x (List.mem_cons_of_mem _ hx)
    simp only [List.reverse_cons, List.map_append, List.map_cons, List.map_nil]
    unfold valOfRun
    rw [List.foldl_append]
    simp only [List.foldl_cons, List.foldl_nil]
    rw [show List.foldl (fun a c => 10 * a + (c.toNat - 48)) 0
        (L.reverse.map (fun d => Char.ofNat (48 + d)))
        = valOfRun (L.reverse.map (fun d => Char.ofNat (48 + d))) from rfl,
      ih hL, dc_toNat hd, Nat.ofDigits_cons]
    omega

theorem valOfRun_natDigitChars (n : Nat) : valOfRun (natDigitChars n) = n := by
  by_cases h : n = 0
  · subst h; decide
  · unfold natDigitChars
    rw [if_neg h, natDigitsLE_eq_digits n n le_rfl,
      valOfRun_eq_ofDigits _ (fun d hd => Nat.digits_lt_base (by norm_num) hd),
      Nat.ofDigits_digits 10 n]

theorem natDigitChars_ne_nil (n : Nat) : natDigitChars n ≠ [] := by
  unfold natDigitChars
  by_cases h : n = 0
  · simp [h]
  · rw [if_neg h, natDigitsLE_eq_digits n n le_rfl]
    simp [Nat.digits_ne_nil_iff_ne_zero.mpr h]

theorem natDigitChars_all_digit (n : Nat) :
    ∀ c ∈ natDigitChars n, c.isDigit = true := by
  unfold natDigitChars
  by_cases h : n = 0
  · rw [if_pos h]
    intro c hc
    simp only [List.mem_singleton] at hc
    subst hc; decide
  · rw [if_neg h, natDigitsLE_eq_digits n n le_rfl]
    intro c hc
    simp only [List.mem_map, List.mem_reverse] at hc
    obtain ⟨d, hd, rfl⟩ := hc
    exact dc_isDigit (Nat.digits_lt_base (by norm_num) hd)

theorem digit_ne_gyo {c : Char} (h : c.isDigit = true) : c ≠ '교' := by
  intro he; subst he; simp at h

theorem digit_ne_comma {c : Char} (h : c.isDigit = true) : c ≠ ',' := by
  intro he; subst he; simp at h

theorem mem_joinComma {c : Char} : ∀ {runs : List Str},
    c ∈ joinComma runs → c = ',' ∨ ∃ r ∈ runs, c ∈ r := by
  intro runs
  induction runs with
  | nil => intro h; simp [joinComma] at h
  | cons x t ih =>
    match t with
    | [] =>
      intro h
      right
      exact ⟨x, List.mem_cons_self _ _, by simpa [joinComma] using h⟩
    | y :: t₂ =>
      intro h
      rw [show joinComma (x :: y :: t₂) = x ++ ',' :: joinComma (y :: t₂) from rfl]
        at h
      rcases List.mem_append.mp h with hx | hc
      · exact Or.inr ⟨x, List.mem_cons_self _ _, hx⟩
      · rcases List.mem_cons.mp hc with hcc | hrest
        · exact Or.inl hcc
        · rcases ih hrest with hcc | ⟨r, hr, hcr⟩
          · exact Or.inl hcc
          · exact Or.inr ⟨r, List.mem_cons_of_mem _ hr, hcr⟩

theorem takeUntilGyosi_append {cs : Str} (h : '교' ∉ cs) :
    ∀ rest, takeUntilGyosi (cs ++ '교' :: '시' :: rest) = cs := by
  induction cs with
  | nil => intro rest; simp [takeUntilGyosi]
  | cons c t ih =>
    intro rest
    have hc : c ≠ '교' := fun he => h (he ▸ List.mem_cons_self _ _)
    have ht : '교' ∉ t := fun hm => h (List.mem_cons_of_mem _ hm)
    simp only [List.cons_append, takeUntilGyosi]
    rw [if_neg (by simp [hc])]
    exact congrArg (c :: ·) (ih ht rest)

theorem findallDigitsAux_run {run : Str} (hne : run ≠ [])
    (hdig : ∀ c ∈ run, c.isDigit = true) :
    ∀ rest acc, findallDigitsAux (run ++ rest) acc
      = findallDigitsAux rest (run.reverse ++ acc) := by
  induction run with
  | nil => exact absurd rfl hne
  | cons c t ih =>
    intro rest acc
    have hc : c.isDigit = true := hdig c (List.mem_cons_self _ _)
    simp only [List.cons_append, findallDigitsAux, hc, if_pos]
    by_cases hte : t = []
    · subst hte; simp [findallDigitsAux]
    · have := ih hte (fun x hx => hdig x (List.mem_cons_of_mem _ hx)) rest (c :: acc)
      simpa using this

theorem findallDigitsAux_comma {acc : Str} (hne : acc ≠ []) (rest : Str) :
    findallDigitsAux (',' :: rest) acc = acc.reverse :: findallDigitsAux rest [] := by
  simp [findallDigitsAux, hne]

theorem findallDigits_joinComma : ∀ runs : List Str,
    (∀ r ∈ runs, r ≠ [] ∧ ∀ c ∈ r, c.isDigit = true) →
    findallDigits (joinComma runs) = runs := by
  intro runs
  induction runs with
  | nil => intro _; rfl
  | cons x t ih =>
    intro h
    obtain ⟨hxne, hxdig⟩ := h x (List.mem_cons_self _ _)
    match t with
    | [] =>
      show findallDigitsAux x [] = [x]
      have hx := findallDigitsAux_run hxne hxdig [] []
      rw [List.append_nil, List.append_nil] at hx
      rw [hx]
      simp [findallDigitsAux, hxne]
    | y :: t₂ =>
      show findallDigitsAux (x ++ ',' :: joinComma (y :: t₂)) [] = x :: y :: t₂
      rw [findallDigitsAux_run hxne hxdig _ [],
        findallDigitsAux_comma (by simpa using hxne)]
      simp only [List.append_nil, List.reverse_reverse]
      rw [show findallDigitsAux (joinComma (y :: t₂)) [] =
        findallDigits (joinComma (y :: t₂)) from rfl,
        ih (fun r hr => h r (List.mem_cons_of_mem _ hr))]

theorem parse_periods_join (ps : List Nat) :
    parse_periods (joinComma (ps.map natDigitChars) ++ gyosi) = ps := by
  unfold parse_periods gyosi
  have hno : '교' ∉ joinComma (ps.map natDigitChars) := by
    intro hmem
    rcases mem_joinComma hmem with hc | ⟨r, hr, hcr⟩
    · exact absurd hc (by decide)
    · rcases List.mem_map.mp hr with ⟨n, _, rfl⟩
      exact absurd rfl (digit_ne_gyo (natDigitChars_all_digit n _ hcr))
  rw [show (['교', '시'] : Str) = '교' :: '시' :: [] from rfl,
    takeUntilGyosi_append hno [],
    findallDigits_joinComma _ (by
      intro r hr
      rcases List.mem_map.mp hr with ⟨n, _, rfl⟩
      exact ⟨natDigitChars_ne_nil n, natDigitChars_all_digit n⟩)]
  rw [List.map_map]
  have : (valOfRun ∘ natDigitChars) = id := by
    funext n
    exact valOfRun_natDigitChars n
  rw [this, List.map_id]

theorem ascElems_toFinset (s : Finset Nat) : (ascElems s).toFinset = s := by
  ext n
  simp only [ascElems, List.mem_toFinset, List.mem_filter, List.mem_range,
    decide_eq_true_eq]
  constructor
  · exact fun h => h.2
  · intro hn
    refine ⟨?_, hn⟩
    have : n ≤ s.sup id := Finset.le_sup (f := id) hn
    omega

theorem ascElems_pairwise (s : Finset Nat) :
    (ascElems s).Pairwise (· < ·) := by
  exact List.Pairwise.sublist (List.filter_sublist _) (List.pairwise_lt_range _)

theorem asc_unique {l₁ l₂ : List Nat} (h₁ : l₁.Pairwise (· < ·))
    (h₂ : l₂.Pairwise (· < ·)) (he : l₁.toFinset = l₂.toFinset) : l₁ = l₂ := by
  have hn₁ : l₁.Nodup := h₁.imp Nat.ne_of_lt
  have hn₂ : l₂.Nodup := h₂.imp Nat.ne_of_lt
  exact List.eq_of_perm_of_sorted
    (List.perm_of_nodup_nodup_toFinset_eq hn₁ hn₂ he)
    (List.Pairwise.imp Nat.le_of_lt h₁) (List.Pairwise.imp Nat.le_of_lt h₂)

theorem ascElems_of_pairwise {l : List Nat} (h : l.Pairwise (· < ·)) :
    ascElems l.toFinset = l :=
  asc_unique (ascElems_pairwise _) h (ascElems_toFinset _)

theorem parse_fmtFinset (s : Finset Nat) :
    parse_periods (fmtFinset s) = ascElems s :=
  parse_periods_join (ascElems s)

theorem parseSet_fmtFinset (s : Finset Nat) :
    (parse_periods (fmtFinset s)).toFinset = s := by
  rw [parse_fmtFinset, ascElems_toFinset]

theorem fmtFinset_ne_nil (s : Finset Nat) : fmtFinset s ≠ [] := by
  unfold fmtFinset
  intro h
  have := congrArg List.length h
  simp [gyosi] at this

theorem merge_periods_eq_fmtFinset (t : Str) (P : List Nat) :
    merge_periods t P = fmtFinset ((parse_periods t).toFinset ∪ P.toFinset) := by
  unfold merge_periods fmtFinset
  by_cases h : t = []
  · subst h
    simp [parse_periods, findallDigits, findallDigitsAux, takeUntilGyosi]
  · rw [if_neg h]

theorem merge_fmtFinset (s : Finset Nat) (P : List Nat) :
    merge_periods (fmtFinset s) P = fmtFinset (s ∪ P.toFinset) := by
  rw [merge_periods_eq_fmtFinset, parseSet_fmtFinset]

theorem merge_periods_idem (t : Str) (P : List Nat) :
    merge_periods (merge_periods t P) P = merge_periods t P := by
  rw [merge_periods_eq_fmtFinset t P, merge_fmtFinset, Finset.union_assoc,
    Finset.union_self]

theorem merge_absorb {s : Finset Nat} {P : List Nat} (h : P.toFinset ⊆ s) :
    merge_periods (fmtFinset s) P = fmtFinset s := by
  rw [merge_fmtFinset, Finset.union_eq_left.mpr h]

theorem format_eq_fmtFinset {P : List Nat} (hne : P ≠ [])
    (hsort : P.Pairwise (· < ·)) :
    format_periods P = fmtFinset P.toFinset := by
  unfold format_periods fmtFinset
  rw [if_neg hne, ascElems_of_pairwise hsort]


theorem upsert_upsert {α : Type} (k : Str) (v₁ v₂ : α) :
    ∀ l : List (Str × α), upsert k v₂ (upsert k v₁ l) = upsert k v₂ l := by
  intro l
  induction l with
  | nil => simp [upsert]
  | cons p t ih =>
    match p with
    | (k₂, v) =>
      by_cases h : k₂ = k
      · simp [upsert, h]
      · simp [upsert, h, ih]

theorem bucket_partition (index : List (Str × ExistRec))
    (G : List AbsenceRecord) :
    (updateBucket index G).length + (newBucket index G).length = G.length := by
  induction G with
  | nil => rfl
  | cons r t ih =>
    cases h : alookup r.student_id index <;>
      simp [updateBucket, newBucket, List.filter_cons, h] <;>
      simp [updateBucket, newBucket] at ih <;> omega

/-- C6: for every period set represented canonically as a strictly ascending
list of naturals (including the empty list), `parse_periods` applied to
`format_periods` of the list reproduces it exactly. -/
theorem c6_round_trip (P : List Nat) (hasc : List.Chain' (· < ·) P) :
    parse_periods (format_periods P) = P := by
  by_cases h : P = []
  · subst h; rfl
  · unfold format_periods
    rw [if_neg h]
    exact parse_periods_join P

theorem c6_round_trip_witness :
    List.Chain' (· < ·) [1, 2, 5]
      ∧ parse_periods (format_periods [1, 2, 5]) = [1, 2, 5] :=
  ⟨by norm_num [List.chain'_cons], c6_round_trip [1, 2, 5]
    (by norm_num [List.chain'_cons])⟩

/-- C8: if reading the cancellation source raises, `get_cancelled_students`
returns the empty set, the cancellation filter excludes no record, and the
run behaves exactly as a run with an empty cancellation list (it proceeds
rather than aborting). -/
theorem c8_fail_open (e : Str) (records : List AbsenceRecord)
    (ws : List (List Str)) (g1d g2d : List (Str × Str)) (d ts : Str) :
    get_cancelled_students (Except.error e) = ∅
    ∧ filteredRecords (Except.error e) records = records
    ∧ write_absence_records ws records (Except.error e) g1d g2d d ts
      = write_absence_records ws records (Except.ok []) g1d g2d d ts := by
  have hf : ∀ cc : Except Str (List Str), get_cancelled_students cc = ∅ →
      filteredRecords cc records = records := by
    intro cc hcc
    unfold filteredRecords
    rw [List.filter_eq_self]
    intro r _
    simp [hcc]
  have he : get_cancelled_students (Except.error e) = ∅ := rfl
  have ho : get_cancelled_students (Except.ok []) = ∅ := rfl
  refine ⟨he, hf _ he, ?_⟩
  unfold write_absence_records
  rw [hf _ he, hf _ ho]

theorem c8_fail_open_witness :
    get_cancelled_students (Except.error "boom".data) = ∅
    ∧ filteredRecords (Except.error "boom".data)
        [⟨"10911".data, "김지몽".data, 1, [1, 2]⟩]
      = [⟨"10911".data, "김지몽".data, 1, [1, 2]⟩]
    ∧ write_absence_records [List.replicate 10 []]
        [⟨"10911".data, "김지몽".data, 1, [1, 2]⟩]
        (Except.error "boom".data) [] [] "2026-01-09".data morningStr
      = write_absence_records [List.replicate 10 []]
        [⟨"10911".data, "김지몽".data, 1, [1, 2]⟩]
        (Except.ok []) [] [] "2026-01-09".data morningStr :=
  c8_fail_open "boom".data [⟨"10911".data, "김지몽".data, 1, [1, 2]⟩]
    [List.replicate 10 []] [] [] "2026-01-09".data morningStr

/-- C9 counterexample: two different (date, time-slot) contexts address the
very same notification cell — the sheet "알림 문구" and the cell "B4" — so a
(date, timeSlot) pair does not have its own message cell. -/
theorem c9_counterexample :
    notification_write_target "2026-01-09".data morningStr
      = notification_write_target "2026-01-10".data "afternoon".data
    ∧ ("2026-01-09".data : Str) ≠ "2026-01-10".data := by
  exact ⟨rfl, by decide⟩

/-- C9 amended: on every run the composer overwrites — never appends to — one
single fixed notification cell (sheet "알림 문구", cell "B4"), shared by all
(date, timeSlot) contexts; any later successful write replaces the earlier
message regardless of its date or time slot. -/
theorem c9_amended (d t d₂ t₂ : Str) (sheet : List (Str × Str)) (c c₂ : Nat)
    (h : (parseDate d₂).isSome) :
    notification_write_target d t = (['알', '림', ' ', '문', '구'], ['B', '4'])
    ∧ update_notification_message (update_notification_message sheet c t d)
        c₂ t₂ d₂
      = update_notification_message sheet c₂ t₂ d₂ := by
  refine ⟨rfl, ?_⟩
  unfold update_notification_message
  cases hd : parseDate d with
  | none => rfl
  | some ymd =>
    cases hd₂ : parseDate d₂ with
    | none => rw [hd₂] at h; simp at h
    | some ymd₂ =>
      match ymd, ymd₂ with
      | (y, m, dd), (y₂, m₂, dd₂) =>
        exact upsert_upsert _ _ _ sheet

theorem c9_amended_witness :
    notification_write_target "2026-01-09".data morningStr
      = (['알', '림', ' ', '문', '구'], ['B', '4'])
    ∧ update_notification_message
        (update_notification_message [] 3 morningStr "2026-01-09".data)
        5 "afternoon".data "2026-01-10".data
      = update_notification_message [] 5 "afternoon".data "2026-01-10".data :=
  c9_amended "2026-01-09".data morningStr "2026-01-10".data "afternoon".data
    [] 3 5 (by decide)

theorem run_unfold (ws : List (List Str)) (records : List AbsenceRecord)
    (cc : Except Str (List Str)) (g1d g2d : List (Str × Str)) (d ts : Str)
    (ed : ExistingData) (G1 G2 U1 N1 U2 N2 : List AbsenceRecord) (kmax : Nat)
    (ws₂ : List (List Str))
    (hr : records ≠ []) (hf : filteredRecords cc records ≠ [])
    (hed : ed = get_today_existing_data ws d)
    (hG1 : G1 = (filteredRecords cc records).filter (fun r => r.grade = 1))
    (hG2 : G2 = (filteredRecords cc records).filter (fun r => r.grade = 2))
    (hU1 : U1 = updateBucket ed.grade1 G1) (hN1 : N1 = newBucket ed.grade1 G1)
    (hU2 : U2 = updateBucket ed.grade2 G2) (hN2 : N2 = newBucket ed.grade2 G2)
    (hk : kmax = max N1.length N2.length)
    (hw : ws₂ = applyUpdates ed.grade2 9 U2 (applyUpdates ed.grade1 5 U1 ws)) :
    write_absence_records ws records cc g1d g2d d ts
      = ⟨if kmax = 0 then ws₂ else writeBlock ws₂ (ed.last_row + 1)
            ((List.range kmax).map
              (build_new_row d (ed.max_seq + 1) g1d g2d N1 N2)),
         U1.length + U2.length,
         if kmax = 0 then 0 else kmax,
         if ts ≠ [] then some (G1.length + G2.length) else none,
         if kmax = 0 then 0 else kmax⟩ := by
  subst hed hG1 hG2 hU1 hN1 hU2 hN2 hk hw
  unfold write_absence_records
  rw [if_neg hr, if_neg hf]
  simp only [List.length_map, List.length_range]

/-- C7: when a time slot is given and the run reaches the write phase, the
student count pushed to the notification message equals the sum of the four
reconciliation buckets after cancellation filtering: track-1 updates +
track-2 updates + track-1 new + track-2 new. -/
theorem c7_notification_count (ws : List (List Str))
    (records : List AbsenceRecord) (cc : Except Str (List Str))
    (g1d g2d : List (Str × Str)) (d ts : Str) (ed : ExistingData)
    (G1 G2 : List AbsenceRecord)
    (hr : records ≠ []) (hf : filteredRecords cc records ≠ [])
    (hts : ts ≠ [])
    (hed : ed = get_today_existing_data ws d)
    (hG1 : G1 = (filteredRecords cc records).filter (fun r => r.grade = 1))
    (hG2 : G2 = (filteredRecords cc records).filter (fun r => r.grade = 2)) :
    (write_absence_records ws records cc g1d g2d d ts).notified
      = some ((updateBucket ed.grade1 G1).length
          + (updateBucket ed.grade2 G2).length
          + (newBucket ed.grade1 G1).length
          + (newBucket ed.grade2 G2).length) := by
  rw [run_unfold ws records cc g1d g2d d ts ed G1 G2
    (updateBucket ed.grade1 G1) (newBucket ed.grade1 G1)
    (updateBucket ed.grade2 G2) (newBucket ed.grade2 G2)
    (max (newBucket ed.grade1 G1).length (newBucket ed.grade2 G2).length)
    (applyUpdates ed.grade2 9 (updateBucket ed.grade2 G2)
      (applyUpdates ed.grade1 5 (updateBucket ed.grade1 G1) ws))
    hr hf hed hG1 hG2 rfl rfl rfl rfl rfl rfl]
  simp only [if_pos hts]
  have p1 := bucket_partition ed.grade1 G1
  have p2 := bucket_partition ed.grade2 G2
  congr 1
  omega

theorem c7_notification_count_witness :
    (write_absence_records sampleWs sampleRecs
      (Except.ok []) [] [] sampleDate morningStr).notified
    = some ((updateBucket (get_today_existing_data sampleWs sampleDate).grade1
          ((filteredRecords (Except.ok []) sampleRecs).filter
            (fun r => r.grade = 1))).length
        + (updateBucket (get_today_existing_data sampleWs sampleDate).grade2
          ((filteredRecords (Except.ok []) sampleRecs).filter
            (fun r => r.grade = 2))).length
        + (newBucket (get_today_existing_data sampleWs sampleDate).grade1
          ((filteredRecords (Except.ok []) sampleRecs).filter
            (fun r => r.grade = 1))).length
        + (newBucket (get_today_existing_data sampleWs sampleDate).grade2
          ((filteredRecords (Except.ok []) sampleRecs).filter
            (fun r => r.grade = 2))).length) :=
  c7_notification_count sampleWs sampleRecs (Except.ok []) [] []
    sampleDate morningStr
    (get_today_existing_data sampleWs sampleDate)
    ((filteredRecords (Except.ok []) sampleRecs).filter (fun r => r.grade = 1))
    ((filteredRecords (Except.ok []) sampleRecs).filter (fun r => r.grade = 2))
    (by decide) (by decide) (by decide) rfl rfl rfl

theorem grade_filter_middle (cc : Except Str (List Str))
    (l1 l2 : List AbsenceRecord) (r : AbsenceRecord) (g : Int)
    (hg : r.grade ≠ g) :
    (filteredRecords cc (l1 ++ r :: l2)).filter (fun x => x.grade = g)
      = (filteredRecords cc (l1 ++ l2)).filter (fun x => x.grade = g) := by
  unfold filteredRecords
  by_cases hq : r.student_id ∉ get_cancelled_students cc <;>
    simp [List.filter_append, List.filter_cons, hq, hg]

theorem filtered_middle_nil {cc : Except Str (List Str)}
    {l1 l2 : List AbsenceRecord} {r : AbsenceRecord}
    (hw : filteredRecords cc (l1 ++ r :: l2) = []) :
    filteredRecords cc (l1 ++ l2) = [] := by
  unfold filteredRecords at hw ⊢
  rw [List.filter_append] at hw ⊢
  rcases List.append_eq_nil.mp hw with ⟨ha, hb⟩
  rw [List.filter_cons] at hb
  split at hb
  · exact absurd hb (by simp)
  · rw [ha, hb]
    rfl

/-- C10: a record whose grade field is neither 1 nor 2 (for instance the
common value 0 the data model permits) is silently ignored by
`write_absence_records`: it lands in none of the four buckets, the run's
worksheet and all counters are those of the same run without the record, and
any notification count written never includes it. -/
theorem c10_odd_grade_ignored (l1 l2 : List AbsenceRecord) (r : AbsenceRecord)
    (ws : List (List Str)) (cc : Except Str (List Str))
    (g1d g2d : List (Str × Str)) (d ts : Str)
    (h1 : r.grade ≠ 1) (h2 : r.grade ≠ 2) :
    (r ∉ updateBucket (get_today_existing_data ws d).grade1
        ((filteredRecords cc (l1 ++ r :: l2)).filter (fun x => x.grade = 1))
     ∧ r ∉ newBucket (get_today_existing_data ws d).grade1
        ((filteredRecords cc (l1 ++ r :: l2)).filter (fun x => x.grade = 1))
     ∧ r ∉ updateBucket (get_today_existing_data ws d).grade2
        ((filteredRecords cc (l1 ++ r :: l2)).filter (fun x => x.grade = 2))
     ∧ r ∉ newBucket (get_today_existing_data ws d).grade2
        ((filteredRecords cc (l1 ++ r :: l2)).filter (fun x => x.grade = 2)))
    ∧ (write_absence_records ws (l1 ++ r :: l2) cc g1d g2d d ts).ws
        = (write_absence_records ws (l1 ++ l2) cc g1d g2d d ts).ws
    ∧ (write_absence_records ws (l1 ++ r :: l2) cc g1d g2d d ts).updated_count
        = (write_absence_records ws (l1 ++ l2) cc g1d g2d d ts).updated_count
    ∧ (write_absence_records ws (l1 ++ r :: l2) cc g1d g2d d ts).new_rows_count
        = (write_absence_records ws (l1 ++ l2) cc g1d g2d d ts).new_rows_count
    ∧ (write_absence_records ws (l1 ++ r :: l2) cc g1d g2d d ts).retval
        = (write_absence_records ws (l1 ++ l2) cc g1d g2d d ts).retval
    ∧ ∀ c, (write_absence_records ws (l1 ++ r :: l2) cc g1d g2d d ts).notified
          = some c →
        c = ((filteredRecords cc (l1 ++ l2)).filter
              (fun x => x.grade = 1)).length
          + ((filteredRecords cc (l1 ++ l2)).filter
              (fun x => x.grade = 2)).length := by
  have hG1 := grade_filter_middle cc l1 l2 r 1 h1
  have hG2 := grade_filter_middle cc l1 l2 r 2 h2
  have hmem1 : r ∉ (filteredRecords cc (l1 ++ r :: l2)).filter
      (fun x => x.grade = 1) := by
    intro hm
    have := (List.mem_filter.mp hm).2
    simp [h1] at this
  have hmem2 : r ∉ (filteredRecords cc (l1 ++ r :: l2)).filter
      (fun x => x.grade = 2) := by
    intro hm
    have := (List.mem_filter.mp hm).2
    simp [h2] at this
  refine ⟨⟨fun hm => hmem1 (List.mem_filter.mp hm).1,
    fun hm => hmem1 (List.mem_filter.mp hm).1,
    fun hm => hmem2 (List.mem_filter.mp hm).1,
    fun hm => hmem2 (List.mem_filter.mp hm).1⟩, ?_⟩
  have hrne : l1 ++ r :: l2 ≠ [] := by simp
  by_cases hw : filteredRecords cc (l1 ++ r :: l2) = []
  · have hro := filtered_middle_nil hw
    have e1 : write_absence_records ws (l1 ++ r :: l2) cc g1d g2d d ts
        = ⟨ws, 0, 0, none, 0⟩ := by
      unfold write_absence_records
      rw [if_neg hrne, if_pos hw]
    have e2 : write_absence_records ws (l1 ++ l2) cc g1d g2d d ts
        = ⟨ws, 0, 0, none, 0⟩ := by
      unfold write_absence_records
      by_cases hnil : l1 ++ l2 = []
      · rw [if_pos hnil]
      · rw [if_neg hnil, if_pos hro]
    rw [e1, e2]
    simp
  · by_cases hwo : filteredRecords cc (l1 ++ l2) = []
    · -- the run carries only the odd-grade record: both tracks are empty
      have hG1e : (filteredRecords cc (l1 ++ r :: l2)).filter
          (fun x => x.grade = 1) = [] := by
        rw [hG1, hwo]; rfl
      have hG2e : (filteredRecords cc (l1 ++ r :: l2)).filter
          (fun x => x.grade = 2) = [] := by
        rw [hG2, hwo]; rfl
      have e2 : write_absence_records ws (l1 ++ l2) cc g1d g2d d ts
          = ⟨ws, 0, 0, none, 0⟩ := by
        unfold write_absence_records
        by_cases hnil : l1 ++ l2 = []
        · rw [if_pos hnil]
        · rw [if_neg hnil, if_pos hwo]
      rw [run_unfold ws (l1 ++ r :: l2) cc g1d g2d d ts
        (get_today_existing_data ws d) _ _ _ _ _ _ _ _
        hrne hw rfl rfl rfl rfl rfl rfl rfl rfl rfl, e2]
      rw [hG1e, hG2e]
      refine ⟨rfl, rfl, rfl, rfl, ?_⟩
      intro c hc
      by_cases hts : ts ≠ [] <;> simp [hts] at hc
      rw [hwo]
      simp [hc]
    · have hrne2 : l1 ++ l2 ≠ [] := by
        intro h
        apply hwo
        rw [h]
        rfl
      rw [run_unfold ws (l1 ++ r :: l2) cc g1d g2d d ts
        (get_today_existing_data ws d) _ _ _ _ _ _ _ _
        hrne hw rfl rfl rfl rfl rfl rfl rfl rfl rfl,
        run_unfold ws (l1 ++ l2) cc g1d g2d d ts
        (get_today_existing_data ws d) _ _ _ _ _ _ _ _
        hrne2 hwo rfl rfl rfl rfl rfl rfl rfl rfl rfl]
      rw [hG1, hG2]
      refine ⟨rfl, rfl, rfl, rfl, ?_⟩
      intro c hc
      by_cases hts : ts ≠ [] <;> simp [hts] at hc
      omega

theorem c10_odd_grade_ignored_witness :
    (oddRec ∉ updateBucket (get_today_existing_data sampleWs sampleDate).grade1
        ((filteredRecords (Except.ok []) ([] ++ oddRec :: [])).filter
          (fun x => x.grade = 1))
     ∧ oddRec ∉ newBucket (get_today_existing_data sampleWs sampleDate).grade1
        ((filteredRecords (Except.ok []) ([] ++ oddRec :: [])).filter
          (fun x => x.grade = 1))
     ∧ oddRec ∉ updateBucket (get_today_existing_data sampleWs sampleDate).grade2
        ((filteredRecords (Except.ok []) ([] ++ oddRec :: [])).filter
          (fun x => x.grade = 2))
     ∧ oddRec ∉ newBucket (get_today_existing_data sampleWs sampleDate).grade2
        ((filteredRecords (Except.ok []) ([] ++ oddRec :: [])).filter
          (fun x => x.grade = 2)))
    ∧ (write_absence_records sampleWs ([] ++ oddRec :: []) (Except.ok [])
        [] [] sampleDate morningStr).ws
      = (write_absence_records sampleWs ([] ++ []) (Except.ok [])
        [] [] sampleDate morningStr).ws
    ∧ (write_absence_records sampleWs ([] ++ oddRec :: []) (Except.ok [])
        [] [] sampleDate morningStr).updated_count
      = (write_absence_records sampleWs ([] ++ []) (Except.ok [])
        [] [] sampleDate morningStr).updated_count
    ∧ (write_absence_records sampleWs ([] ++ oddRec :: []) (Except.ok [])
        [] [] sampleDate morningStr).new_rows_count
      = (write_absence_records sampleWs ([] ++ []) (Except.ok [])
        [] [] sampleDate morningStr).new_rows_count
    ∧ (write_absence_records sampleWs ([] ++ oddRec :: []) (Except.ok [])
        [] [] sampleDate morningStr).retval
      = (write_absence_records sampleWs ([] ++ []) (Except.ok [])
        [] [] sampleDate morningStr).retval
    ∧ ∀ c, (write_absence_records sampleWs ([] ++ oddRec :: []) (Except.ok [])
        [] [] sampleDate morningStr).notified = some c →
        c = ((filteredRecords (Except.ok []) ([] ++ [])).filter
              (fun x => x.grade = 1)).length
          + ((filteredRecords (Except.ok []) ([] ++ [])).filter
              (fun x => x.grade = 2)).length :=
  c10_odd_grade_ignored [] [] oddRec sampleWs (Except.ok []) [] []
    sampleDate morningStr (by decide) (by decide)

theorem alookup_upsert_self {α : Type} (k : Str) (v : α) :
    ∀ l : List (Str × α), alookup k (upsert k v l) = some v := by
  intro l
  induction l with
  | nil => simp [alookup, upsert]
  | cons p t ih =>
    match p with
    | (k₂, v₂) =>
      by_cases h : k₂ = k
      · simp [alookup, upsert, h]
      · simp [alookup, upsert, h, ih]

theorem alookup_upsert_ne {α : Type} {k k₂ : Str} (v : α) (h : k₂ ≠ k) :
    ∀ l : List (Str × α), alookup k (upsert k₂ v l) = alookup k l := by
  intro l
  induction l with
  | nil => simp [alookup, upsert, h]
  | cons p t ih =>
    match p with
    | (k₃, v₃) =>
      by_cases h₂ : k₃ = k₂
      · subst h₂
        simp [alookup, upsert, h]
      · by_cases h₃ : k₃ = k <;> simp [alookup, upsert, h₂, h₃, ih, Ne.symm h]

theorem gtedStep_zero (d : Str) (acc : ExistingData) (row : List Str) :
    gtedStep d acc (0, row) = acc := rfl

theorem gtedStep_grade1 (d : Str) (acc : ExistingData) (m : Nat)
    (row : List Str) (hm : m ≠ 0) :
    (gtedStep d acc (m, row)).grade1
      = if 2 ≤ row.length ∧ row.getD 0 [] = d then
          (if 6 ≤ row.length ∧ row.getD 2 [] ≠ [] then
            upsert (row.getD 2 []) ⟨m + 1, row.getD 5 []⟩ acc.grade1
          else acc.grade1)
        else acc.grade1 := by
  unfold gtedStep
  rw [if_neg hm]
  cases hp : parseInt (row.getD 1 []) <;> split_ifs <;> rfl

theorem gtedStep_grade2 (d : Str) (acc : ExistingData) (m : Nat)
    (row : List Str) (hm : m ≠ 0) :
    (gtedStep d acc (m, row)).grade2
      = if 2 ≤ row.length ∧ row.getD 0 [] = d then
          (if 10 ≤ row.length ∧ row.getD 6 [] ≠ [] then
            upsert (row.getD 6 []) ⟨m + 1, row.getD 9 []⟩ acc.grade2
          else acc.grade2)
        else acc.grade2 := by
  unfold gtedStep
  rw [if_neg hm]
  cases hp : parseInt (row.getD 1 []) <;> split_ifs <;> rfl

theorem gtedStep_last_row (d : Str) (acc : ExistingData) (m : Nat)
    (row : List Str) (hm : m ≠ 0) :
    (gtedStep d acc (m, row)).last_row
      = if 1 ≤ row.length ∧ row.getD 0 [] ≠ [] then m + 1
        else acc.last_row := by
  unfold gtedStep
  rw [if_neg hm]
  cases hp : parseInt (row.getD 1 []) <;> split_ifs <;> rfl

theorem gtedStep_max_seq (d : Str) (acc : ExistingData) (m : Nat)
    (row : List Str) (hm : m ≠ 0) :
    (gtedStep d acc (m, row)).max_seq
      = if 2 ≤ row.length ∧ row.getD 0 [] = d then
          (match parseInt (row.getD 1 []) with
           | some q => max acc.max_seq q
           | none => acc.max_seq)
        else acc.max_seq := by
  unfold gtedStep
  rw [if_neg hm]
  cases hp : parseInt (row.getD 1 []) <;> split_ifs <;> rfl

theorem match1_iff {d id : Str} {row : List Str} :
    match1 d id row = true
      ↔ (2 ≤ row.length ∧ row.getD 0 [] = d ∧ 6 ≤ row.length
          ∧ row.getD 2 [] = id ∧ id ≠ []) := by
  simp [match1]

theorem match2_iff {d id : Str} {row : List Str} :
    match2 d id row = true
      ↔ (2 ≤ row.length ∧ row.getD 0 [] = d ∧ 10 ≤ row.length
          ∧ row.getD 6 [] = id ∧ id ≠ []) := by
  simp [match2]

theorem occRow_iff {row : List Str} :
    occRow row = true ↔ (1 ≤ row.length ∧ row.getD 0 [] ≠ []) := by
  simp [occRow]

theorem gted_fold_grade1 (d id : Str) :
    ∀ (rows : List (List Str)) (m : Nat) (acc : ExistingData), m ≠ 0 →
    alookup id ((List.enumFrom m rows).foldl (gtedStep d) acc).grade1
      = (match lastMatch (match1 d id) rows with
         | some (j, r) => some ⟨m + j + 1, r.getD 5 []⟩
         | none => alookup id acc.grade1) := by
  intro rows
  induction rows with
  | nil => intro m acc hm; rfl
  | cons row rest ih =>
    intro m acc hm
    rw [List.enumFrom_cons, List.foldl_cons, ih (m + 1) _ (by omega)]
    cases hl : lastMatch (match1 d id) rest with
    | some jr =>
      obtain ⟨j, r⟩ := jr
      simp only [lastMatch, hl]
      have : m + 1 + j + 1 = m + (j + 1) + 1 := by omega
      rw [this]
    | none =>
      simp only [lastMatch, hl]
      rw [gtedStep_grade1 d acc m row hm]
      by_cases hm1 : match1 d id row = true
      · rw [if_pos hm1]
        rw [match1_iff] at hm1
        obtain ⟨h2, hd, h6, hC, hid⟩ := hm1
        rw [if_pos ⟨h2, hd⟩, if_pos ⟨h6, by rw [hC]; exact hid⟩, hC,
          alookup_upsert_self]
      · rw [if_neg hm1]
        by_cases hc1 : 2 ≤ row.length ∧ row.getD 0 [] = d
        · rw [if_pos hc1]
          by_cases hc2 : 6 ≤ row.length ∧ row.getD 2 [] ≠ []
          · rw [if_pos hc2]
            have hk : row.getD 2 [] ≠ id := by
              intro he
              apply hm1
              rw [match1_iff]
              exact ⟨hc1.1, hc1.2, hc2.1, he, by rw [← he]; exact hc2.2⟩
            exact alookup_upsert_ne _ hk _
          · rw [if_neg hc2]
        · rw [if_neg hc1]

theorem gted_fold_grade2 (d id : Str) :
    ∀ (rows : List (List Str)) (m : Nat) (acc : ExistingData), m ≠ 0 →
    alookup id ((List.enumFrom m rows).foldl (gtedStep d) acc).grade2
      = (match lastMatch (match2 d id) rows with
         | some (j, r) => some ⟨m + j + 1, r.getD 9 []⟩
         | none => alookup id acc.grade2) := by
  intro rows
  induction rows with
  | nil => intro m acc hm; rfl
  | cons row rest ih =>
    intro m acc hm
    rw [List.enumFrom_cons, List.foldl_cons, ih (m + 1) _ (by omega)]
    cases hl : lastMatch (match2 d id) rest with
    | some jr =>
      obtain ⟨j, r⟩ := jr
      simp only [lastMatch, hl]
      have : m + 1 + j + 1 = m + (j + 1) + 1 := by omega
      rw [this]
    | none =>
      simp only [lastMatch, hl]
      rw [gtedStep_grade2 d acc m row hm]
      by_cases hm1 : match2 d id row = true
      · rw [if_pos hm1]
        rw [match2_iff] at hm1
        obtain ⟨h2, hd, h6, hC, hid⟩ := hm1
        rw [if_pos ⟨h2, hd⟩, if_pos ⟨h6, by rw [hC]; exact hid⟩, hC,
          alookup_upsert_self]
      · rw [if_neg hm1]
        by_cases hc1 : 2 ≤ row.length ∧ row.getD 0 [] = d
        · rw [if_pos hc1]
          by_cases hc2 : 10 ≤ row.length ∧ row.getD 6 [] ≠ []
          · rw [if_pos hc2]
            have hk : row.getD 6 [] ≠ id := by
              intro he
              apply hm1
              rw [match2_iff]
              exact ⟨hc1.1, hc1.2, hc2.1, he, by rw [← he]; exact hc2.2⟩
            exact alookup_upsert_ne _ hk _
          · rw [if_neg hc2]
        · rw [if_neg hc1]

theorem gted_fold_last (d : Str) :
    ∀ (rows : List (List Str)) (m : Nat) (acc : ExistingData), m ≠ 0 →
    ((List.enumFrom m rows).foldl (gtedStep d) acc).last_row
      = (match lastMatch occRow rows with
         | some (j, _) => m + j + 1
         | none => acc.last_row) := by
  intro rows
  induction rows with
  | nil => intro m acc hm; rfl
  | cons row rest ih =>
    intro m acc hm
    rw [List.enumFrom_cons, List.foldl_cons, ih (m + 1) _ (by omega)]
    cases hl : lastMatch occRow rest with
    | some jr =>
      obtain ⟨j, r⟩ := jr
      simp only [lastMatch, hl]
      have he : m + 1 + j + 1 = m + (j + 1) + 1 := by omega
      rw [he]
    | none =>
      simp only [lastMatch, hl]
      rw [gtedStep_last_row d acc m row hm]
      by_cases ho : occRow row = true
      · rw [if_pos ho, if_pos (occRow_iff.mp ho)]
      · rw [if_neg ho, if_neg (fun hh => ho (occRow_iff.mpr hh))]

theorem gted_fold_max (d : Str) :
    ∀ (rows : List (List Str)) (m : Nat) (acc : ExistingData), m ≠ 0 →
    ((List.enumFrom m rows).foldl (gtedStep d) acc).max_seq
      = msFold d acc.max_seq rows := by
  intro rows
  induction rows with
  | nil => intro m acc hm; rfl
  | cons row rest ih =>
    intro m acc hm
    rw [List.enumFrom_cons, List.foldl_cons, ih (m + 1) _ (by omega)]
    rw [show msFold d acc.max_seq (row :: rest)
        = msFold d (if 2 ≤ row.length ∧ row.getD 0 [] = d then
            (match parseInt (row.getD 1 []) with
             | some q => max acc.max_seq q
             | none => acc.max_seq)
          else acc.max_seq) rest from rfl,
      gtedStep_max_seq d acc m row hm]

theorem gted_grade1 (ws : List (List Str)) (d id : Str) :
    alookup id (get_today_existing_data ws d).grade1
      = (match lastMatch (match1 d id) (ws.drop 1) with
         | some (j, r) => some ⟨j + 2, r.getD 5 []⟩
         | none => none) := by
  cases ws with
  | nil => rfl
  | cons h t =>
    unfold get_today_existing_data
    rw [show (h :: t).enum = (0, h) :: List.enumFrom 1 t from rfl,
      List.foldl_cons, gtedStep_zero,
      gted_fold_grade1 d id t 1 _ one_ne_zero,
      show List.drop 1 (h :: t) = t from rfl]
    cases hl : lastMatch (match1 d id) t with
    | some jr =>
      obtain ⟨j, r⟩ := jr
      show some (⟨1 + j + 1, r.getD 5 []⟩ : ExistRec)
        = some (⟨j + 2, r.getD 5 []⟩ : ExistRec)
      have he : 1 + j + 1 = j + 2 := by omega
      rw [he]
    | none => rfl

theorem gted_grade2 (ws : List (List Str)) (d id : Str) :
    alookup id (get_today_existing_data ws d).grade2
      = (match lastMatch (match2 d id) (ws.drop 1) with
         | some (j, r) => some ⟨j + 2, r.getD 9 []⟩
         | none => none) := by
  cases ws with
  | nil => rfl
  | cons h t =>
    unfold get_today_existing_data
    rw [show (h :: t).enum = (0, h) :: List.enumFrom 1 t from rfl,
      List.foldl_cons, gtedStep_zero,
      gted_fold_grade2 d id t 1 _ one_ne_zero,
      show List.drop 1 (h :: t) = t from rfl]
    cases hl : lastMatch (match2 d id) t with
    | some jr =>
      obtain ⟨j, r⟩ := jr
      show some (⟨1 + j + 1, r.getD 9 []⟩ : ExistRec)
        = some (⟨j + 2, r.getD 9 []⟩ : ExistRec)
      have he : 1 + j + 1 = j + 2 := by omega
      rw [he]
    | none => rfl

theorem gted_last (ws : List (List Str)) (d : Str) :
    (get_today_existing_data ws d).last_row
      = (match lastMatch occRow (ws.drop 1) with
         | some (j, _) => j + 2
         | none => 1) := by
  cases ws with
  | nil => rfl
  | cons h t =>
    unfold get_today_existing_data
    rw [show (h :: t).enum = (0, h) :: List.enumFrom 1 t from rfl,
      List.foldl_cons, gtedStep_zero, gted_fold_last d t 1 _ one_ne_zero,
      show List.drop 1 (h :: t) = t from rfl]
    cases hl : lastMatch occRow t with
    | some jr =>
      obtain ⟨j, r⟩ := jr
      show 1 + j + 1 = j + 2
      omega
    | none => rfl

theorem gted_max (ws : List (List Str)) (d : Str) :
    (get_today_existing_data ws d).max_seq = msFold d 0 (ws.drop 1) := by
  cases ws with
  | nil => rfl
  | cons h t =>
    unfold get_today_existing_data
    rw [show (h :: t).enum = (0, h) :: List.enumFrom 1 t from rfl,
      List.foldl_cons, gtedStep_zero, gted_fold_max d t 1 _ one_ne_zero]
    rfl

theorem lastMatch_none_iff (p : List Str → Bool) :
    ∀ l : List (List Str), lastMatch p l = none ↔ ∀ r ∈ l, p r = false := by
  intro l
  induction l with
  | nil => simp [lastMatch]
  | cons row rest ih =>
    simp only [lastMatch]
    cases hl : lastMatch p rest with
    | some jr =>
      obtain ⟨j, r⟩ := jr
      constructor
      · intro habs; exact absurd habs (by simp)
      · intro hall
        have h0 : lastMatch p rest = none :=
          ih.mpr (fun r₂ hr => hall r₂ (List.mem_cons_of_mem _ hr))
        rw [h0] at hl
        exact absurd hl (by simp)
    | none =>
      by_cases hp : p row = true
      · rw [if_pos hp]
        constructor
        · intro habs; exact absurd habs (by simp)
        · intro hall
          have := hall row (List.mem_cons_self _ _)
          rw [hp] at this
          exact absurd this (by simp)
      · rw [if_neg hp]
        constructor
        · intro _ r₂ hr
          rcases List.mem_cons.mp hr with he | hm
          · subst he
            exact Bool.eq_false_iff.mpr (fun hc => hp hc)
          · exact ih.mp hl r₂ hm
        · intro _; rfl

theorem lastMatch_some (p : List Str → Bool) :
    ∀ (l : List (List Str)) (j : Nat) (r : List Str),
    lastMatch p l = some (j, r) →
    j < l.length ∧ l.getD j [] = r ∧ p r = true := by
  intro l
  induction l with
  | nil => intro j r h; simp [lastMatch] at h
  | cons row rest ih =>
    intro j r h
    simp only [lastMatch] at h
    cases hl : lastMatch p rest with
    | some jr =>
      obtain ⟨j₂, r₂⟩ := jr
      rw [hl] at h
      simp only [Option.some.injEq, Prod.mk.injEq] at h
      obtain ⟨hj, hr⟩ := h
      obtain ⟨hlt, hget, hp⟩ := ih j₂ r₂ hl
      subst hj
      subst hr
      refine ⟨by simp only [List.length_cons]; omega, ?_, hp⟩
      simpa [List.getD_cons_succ] using hget
    | none =>
      rw [hl] at h
      by_cases hp : p row = true
      · rw [if_pos hp] at h
        simp only [Option.some.injEq, Prod.mk.injEq] at h
        obtain ⟨hj, hr⟩ := h
        subst hj
        subst hr
        exact ⟨by simp, by simp, hp⟩
      · rw [if_neg hp] at h
        exact absurd h (by simp)

theorem getD_mem_of_lt {α : Type} {l : List α} {i : Nat} (h : i < l.length)
    (d : α) : l.getD i d ∈ l := by
  rw [List.getD_eq_getElem l d h]
  exact List.getElem_mem h

theorem lastMatch_after (p : List Str → Bool) :
    ∀ (l : List (List Str)) (j : Nat) (r : List Str),
    lastMatch p l = some (j, r) →
    ∀ i, j < i → i < l.length → p (l.getD i []) = false := by
  intro l
  induction l with
  | nil => intro j r h; simp [lastMatch] at h
  | cons row rest ih =>
    intro j r h i hji hil
    simp only [lastMatch] at h
    cases hl : lastMatch p rest with
    | some jr =>
      obtain ⟨j₂, r₂⟩ := jr
      rw [hl] at h
      simp only [Option.some.injEq, Prod.mk.injEq] at h
      obtain ⟨hj, hr⟩ := h
      subst hj
      match i, hji with
      | i₂ + 1, _ =>
        rw [List.getD_cons_succ]
        exact ih j₂ r₂ hl i₂ (by omega)
          (by simp only [List.length_cons] at hil; omega)
    | none =>
      rw [hl] at h
      by_cases hp : p row = true
      · rw [if_pos hp] at h
        simp only [Option.some.injEq, Prod.mk.injEq] at h
        obtain ⟨hj, hr⟩ := h
        subst hj
        match i, hji with
        | i₂ + 1, _ =>
          rw [List.getD_cons_succ]
          have hmem : rest.getD i₂ [] ∈ rest := by
            apply getD_mem_of_lt
            simp only [List.length_cons] at hil
            omega
          exact (lastMatch_none_iff p rest).mp hl _ hmem
      · rw [if_neg hp] at h
        exact absurd h (by simp)

theorem lastMatch_mono (p : List Str → Bool) :
    ∀ (l : List (List Str)) (i : Nat), i < l.length →
    p (l.getD i []) = true →
    ∃ j r, lastMatch p l = some (j, r) ∧ i ≤ j := by
  intro l
  induction l with
  | nil => intro i hi; simp at hi
  | cons row rest ih =>
    intro i hi hp
    simp only [lastMatch]
    match i with
    | 0 =>
      cases hl : lastMatch p rest with
      | some jr =>
        obtain ⟨j₂, r₂⟩ := jr
        exact ⟨j₂ + 1, r₂, rfl, by omega⟩
      | none =>
        rw [List.getD_cons_zero] at hp
        exact ⟨0, row, by rw [if_pos hp], le_rfl⟩
    | i₂ + 1 =>
      rw [List.getD_cons_succ] at hp
      obtain ⟨j₂, r₂, hl, hij⟩ := ih i₂
        (by simp only [List.length_cons] at hi; omega) hp
      rw [hl]
      exact ⟨j₂ + 1, r₂, rfl, by omega⟩

theorem lastMatch_determined (p : List Str → Bool) (l : List (List Str))
    (j : Nat) (hj : j < l.length) (hp : p (l.getD j []) = true)
    (hafter : ∀ i, j < i → i < l.length → p (l.getD i []) = false) :
    lastMatch p l = some (j, l.getD j []) := by
  obtain ⟨j₂, r₂, hl, hij⟩ := lastMatch_mono p l j hj hp
  obtain ⟨hj₂, hget, hp₂⟩ := lastMatch_some p l j₂ r₂ hl
  rcases Nat.eq_or_lt_of_le hij with he | hlt
  · subst he
    rw [hl, hget]
  · have := hafter j₂ hlt hj₂
    rw [hget, hp₂] at this
    exact absurd this (by simp)

theorem msFold_base_mono (d : Str) :
    ∀ (rows : List (List Str)) (a b : Int), a ≤ b →
    msFold d a rows ≤ msFold d b rows := by
  intro rows
  induction rows with
  | nil => intro a b h; exact h
  | cons row rest ih =>
    intro a b h
    show msFold d _ rest ≤ msFold d _ rest
    apply ih
    beta_reduce
    by_cases hc : 2 ≤ row.length ∧ row.getD 0 [] = d
    · rw [if_pos hc, if_pos hc]
      cases hp : parseInt (row.getD 1 [])
      · exact h
      · exact max_le_max h le_rfl
    · rw [if_neg hc, if_neg hc]
      exact h

theorem msFold_le_base (d : Str) :
    ∀ (rows : List (List Str)) (a : Int), a ≤ msFold d a rows := by
  intro rows
  induction rows with
  | nil => intro a; exact le_rfl
  | cons row rest ih =>
    intro a
    show a ≤ msFold d _ rest
    refine le_trans ?_ (ih _)
    beta_reduce
    by_cases hc : 2 ≤ row.length ∧ row.getD 0 [] = d
    · rw [if_pos hc]
      cases hp : parseInt (row.getD 1 [])
      · exact le_rfl
      · exact le_max_left _ _
    · rw [if_neg hc]

theorem msFold_mem (d : Str) :
    ∀ (rows : List (List Str)) (a : Int) (row : List Str) (q : Int),
    row ∈ rows → 2 ≤ row.length → row.getD 0 [] = d →
    parseInt (row.getD 1 []) = some q → q ≤ msFold d a rows := by
  intro rows
  induction rows with
  | nil => intro a row q h; simp at h
  | cons row₂ rest ih =>
    intro a row q hmem h2 hd hp
    rcases List.mem_cons.mp hmem with he | hm
    · subst he
      show q ≤ msFold d _ rest
      refine le_trans ?_ (msFold_le_base d rest _)
      beta_reduce
      rw [if_pos ⟨h2, hd⟩, hp]
      exact le_max_right _ _
    · exact ih _ row q hm h2 hd hp

theorem msFold_absent (d : Str) :
    ∀ (rows : List (List Str)) (a : Int),
    (∀ row ∈ rows, ¬(2 ≤ row.length ∧ row.getD 0 [] = d)) →
    msFold d a rows = a := by
  intro rows
  induction rows with
  | nil => intro a _; rfl
  | cons row rest ih =>
    intro a hall
    show msFold d _ rest = a
    beta_reduce
    rw [if_neg (hall row (List.mem_cons_self _ _))]
    exact ih a (fun r hr => hall r (List.mem_cons_of_mem _ hr))

theorem getD_set' {α : Type} (d : α) :
    ∀ (l : List α) (j i : Nat) (v : α),
    (l.set j v).getD i d = if i = j ∧ j < l.length then v else l.getD i d := by
  intro l
  induction l with
  | nil => intro j i v; simp
  | cons a t ih =>
    intro j i v
    match j, i with
    | 0, 0 => simp
    | 0, i + 1 => simp
    | j + 1, 0 => simp
    | j + 1, i + 1 =>
      simp only [List.set_cons_succ, List.getD_cons_succ]
      rw [ih j i v]
      by_cases h : i = j ∧ j < t.length
      · rw [if_pos h, if_pos (by simp only [List.length_cons]; omega)]
      · rw [if_neg h, if_neg (by simp only [List.length_cons]; omega)]

theorem set_getD_self {α : Type} (d : α) :
    ∀ (l : List α) (i : Nat), i < l.length → l.set i (l.getD i d) = l := by
  intro l
  induction l with
  | nil => intro i h; simp at h
  | cons a t ih =>
    intro i h
    match i with
    | 0 => simp
    | i + 1 =>
      simp only [List.getD_cons_succ, List.set_cons_succ]
      rw [ih i (by simp only [List.length_cons] at h; omega)]

theorem getD_big {α : Type} (d : α) :
    ∀ (l : List α) (i : Nat), l.length ≤ i → l.getD i d = d := by
  intro l
  induction l with
  | nil => intro i _; simp
  | cons a t ih =>
    intro i h
    match i with
    | 0 => simp at h
    | i + 1 =>
      rw [List.getD_cons_succ]
      exact ih i (by simp only [List.length_cons] at h; omega)

theorem getD_append' {α : Type} (d : α) :
    ∀ (l₁ l₂ : List α) (i : Nat),
    (l₁ ++ l₂).getD i d
      = if i < l₁.length then l₁.getD i d else l₂.getD (i - l₁.length) d := by
  intro l₁
  induction l₁ with
  | nil => intro l₂ i; simp
  | cons a t ih =>
    intro l₂ i
    match i with
    | 0 => simp
    | i + 1 =>
      simp only [List.cons_append, List.getD_cons_succ, ih l₂ i,
        List.length_cons]
      by_cases h : i < t.length
      · rw [if_pos h, if_pos (by omega)]
      · rw [if_neg h, if_neg (by omega)]
        congr 1
        omega

theorem getD_replicate' {α : Type} (d v : α) :
    ∀ (n i : Nat), (List.replicate n v).getD i d = if i < n then v else d := by
  intro n
  induction n with
  | zero => intro i; simp
  | succ n ih =>
    intro i
    match i with
    | 0 => simp
    | i + 1 =>
      rw [List.replicate_succ, List.getD_cons_succ, ih i]
      by_cases h : i < n
      · rw [if_pos h, if_pos (by omega)]
      · rw [if_neg h, if_neg (by omega)]

theorem getD_take' {α : Type} (d : α) :
    ∀ (l : List α) (n i : Nat), i < n → (l.take n).getD i d = l.getD i d := by
  intro l
  induction l with
  | nil => intro n i _; simp
  | cons a t ih =>
    intro n i h
    match n, i with
    | n + 1, 0 => simp
    | n + 1, i + 1 =>
      simp only [List.take_succ_cons, List.getD_cons_succ]
      exact ih n i (by omega)

theorem getD_drop' {α : Type} (d : α) :
    ∀ (l : List α) (n i : Nat), (l.drop n).getD i d = l.getD (n + i) d := by
  intro l
  induction l with
  | nil => intro n i; simp
  | cons a t ih =>
    intro n i
    match n with
    | 0 => simp
    | n + 1 =>
      rw [List.drop_succ_cons, ih n i, show n + 1 + i = (n + i) + 1 by omega,
        List.getD_cons_succ]

theorem setAt_getD (row : List Str) (i c : Nat) (v : Str) :
    (setAt row i v).getD c [] = if c = i then v else row.getD c [] := by
  unfold setAt
  by_cases hi : i < row.length
  · rw [if_pos hi, getD_set' [] row i c v]
    by_cases h : c = i
    · rw [if_pos h, if_pos ⟨h, hi⟩]
    · rw [if_neg h, if_neg (by tauto)]
  · rw [if_neg hi]
    rw [getD_append' []
      (row ++ List.replicate (i - row.length) ([] : Str)) [v] c,
      List.length_append, List.length_replicate]
    by_cases hc : c < row.length
    · rw [if_pos (show c < row.length + (i - row.length) by omega),
        getD_append' [] row _ c, if_pos hc,
        if_neg (show ¬c = i by omega)]
    · by_cases he : c = i
      · subst he
        rw [if_neg (show ¬c < row.length + (c - row.length) by omega),
          if_pos rfl]
        have h0 : c - (row.length + (c - row.length)) = 0 := by omega
        rw [h0]
        rfl
      · rw [if_neg he, getD_big [] row c (by omega)]
        by_cases hlt : c < row.length + (i - row.length)
        · rw [if_pos hlt, getD_append' [] row _ c,
            if_neg (show ¬c < row.length by omega), getD_replicate',
            if_pos (show c - row.length < i - row.length by omega)]
        · rw [if_neg hlt,
            getD_big [] [v] _
              (by simp only [List.length_singleton]; omega)]

theorem setAt_length {row : List Str} {i : Nat} (h : i < row.length)
    (v : Str) : (setAt row i v).length = row.length := by
  unfold setAt
  rw [if_pos h, List.length_set]

theorem setCell_length (ws : List (List Str)) (rn c : Nat) (v : Str) :
    (setCell ws rn c v).length = ws.length := by
  unfold setCell
  rw [List.length_set]

theorem setCell_getD (ws : List (List Str)) (rn c : Nat) (v : Str) (i : Nat) :
    (setCell ws rn c v).getD i []
      = if i = rn - 1 ∧ rn - 1 < ws.length then setAt (ws.getD (rn - 1) []) c v
        else ws.getD i [] := by
  unfold setCell
  rw [getD_set' [] ws (rn - 1) i _]

theorem cellAt_setCell (ws : List (List Str)) (rn c : Nat) (v : Str)
    (i c₂ : Nat) :
    cellAt (setCell ws rn c v) i c₂
      = if i = rn - 1 ∧ rn - 1 < ws.length ∧ c₂ = c then v
        else cellAt ws i c₂ := by
  unfold cellAt
  rw [setCell_getD]
  by_cases h : i = rn - 1 ∧ rn - 1 < ws.length
  · rw [if_pos h, setAt_getD]
    by_cases hc : c₂ = c
    · rw [if_pos hc, if_pos ⟨h.1, h.2, hc⟩]
    · rw [if_neg hc, if_neg (by tauto), h.1]
  · rw [if_neg h, if_neg (by tauto)]

theorem setCell_self {ws : List (List Str)} {rn c : Nat}
    (h₁ : rn - 1 < ws.length) (h₂ : c < (ws.getD (rn - 1) []).length) :
    setCell ws rn c (cellAt ws (rn - 1) c) = ws := by
  unfold setCell cellAt
  rw [show setAt (ws.getD (rn - 1) []) c ((ws.getD (rn - 1) []).getD c [])
      = ws.getD (rn - 1) [] from ?_]
  · exact set_getD_self [] ws (rn - 1) h₁
  · unfold setAt
    rw [if_pos h₂]
    exact set_getD_self [] _ c h₂

theorem writeBlock_length (ws : List (List Str)) (s : Nat)
    (rows : List (List Str)) :
    (writeBlock ws s rows).length
      = max (max ws.length (s - 1)) (s - 1 + rows.length) := by
  unfold writeBlock
  simp only [List.length_append, List.length_take, List.length_drop,
    List.length_replicate]
  omega

theorem writeBlock_getD_before (ws : List (List Str)) (s : Nat)
    (rows : List (List Str)) (i : Nat) (h : i < s - 1) :
    (writeBlock ws s rows).getD i [] = ws.getD i [] := by
  unfold writeBlock
  rw [getD_append' [] _ _ i, List.length_append, List.length_take,
    List.length_append, List.length_replicate, if_pos (by omega),
    getD_append' [] _ rows i, List.length_take, List.length_append,
    List.length_replicate, if_pos (by omega),
    getD_take' [] _ _ _ (show i < s - 1 by omega),
    getD_append' [] ws _ i, getD_replicate']
  by_cases hc : i < ws.length
  · rw [if_pos hc]
  · rw [if_neg hc,
      if_pos (show i - ws.length < s - 1 - ws.length by omega),
      getD_big [] ws i (by omega)]

theorem writeBlock_getD_block (ws : List (List Str)) (s : Nat)
    (rows : List (List Str)) (i : Nat) (hi : i < rows.length) :
    (writeBlock ws s rows).getD (s - 1 + i) [] = rows.getD i [] := by
  unfold writeBlock
  rw [getD_append' [] _ _ _, List.length_append, List.length_take,
    List.length_append, List.length_replicate, if_pos (by omega),
    getD_append' [] _ rows _, List.length_take, List.length_append,
    List.length_replicate, if_neg (by omega)]
  congr 1
  omega

theorem writeBlock_getD_after (ws : List (List Str)) (s : Nat)
    (rows : List (List Str)) (i : Nat) (hi : s - 1 + rows.length ≤ i) :
    (writeBlock ws s rows).getD i [] = ws.getD i [] := by
  unfold writeBlock
  rw [getD_append' [] _ _ i, List.length_append, List.length_take,
    List.length_append, List.length_replicate, if_neg (by omega),
    getD_drop',
    show s - 1 + rows.length
        + (i - (min (s - 1) (ws.length + (s - 1 - ws.length)) + rows.length))
      = i by omega,
    getD_append' [] ws _ i, getD_replicate']
  by_cases hc : i < ws.length
  · rw [if_pos hc]
  · rw [if_neg hc, getD_big [] ws i (by omega)]
    by_cases hr : i - ws.length < s - 1 - ws.length
    · rw [if_pos hr]
    · rw [if_neg hr]

theorem applyUpdates_cons (idx : List (Str × ExistRec)) (col : Nat)
    (r : AbsenceRecord) (t : List AbsenceRecord) (ws : List (List Str)) :
    applyUpdates idx col (r :: t) ws
      = applyUpdates idx col t
          (match alookup r.student_id idx with
           | some e => setCell ws e.row col (merge_periods e.periods r.periods)
           | none => ws) := rfl

theorem applyUpdates_length (idx : List (Str × ExistRec)) (col : Nat) :
    ∀ (l : List AbsenceRecord) (ws : List (List Str)),
    (applyUpdates idx col l ws).length = ws.length := by
  intro l
  induction l with
  | nil => intro ws; rfl
  | cons r t ih =>
    intro ws
    rw [applyUpdates_cons]
    cases h : alookup r.student_id idx with
    | none => exact ih ws
    | some e => rw [ih _, setCell_length]

theorem applyUpdates_frame_col (idx : List (Str × ExistRec)) (col : Nat) :
    ∀ (l : List AbsenceRecord) (ws : List (List Str)) (i c₂ : Nat),
    c₂ ≠ col →
    cellAt (applyUpdates idx col l ws) i c₂ = cellAt ws i c₂ := by
  intro l
  induction l with
  | nil => intro ws i c₂ _; rfl
  | cons r t ih =>
    intro ws i c₂ hc
    rw [applyUpdates_cons]
    cases h : alookup r.student_id idx with
    | none => exact ih ws i c₂ hc
    | some e =>
      rw [ih _ i c₂ hc, cellAt_setCell, if_neg (by tauto)]

theorem applyUpdates_frame_row (idx : List (Str × ExistRec)) (col : Nat) :
    ∀ (l : List AbsenceRecord) (ws : List (List Str)) (i : Nat),
    (∀ r ∈ l, ∀ e, alookup r.student_id idx = some e → e.row - 1 ≠ i) →
    ∀ c, cellAt (applyUpdates idx col l ws) i c = cellAt ws i c := by
  intro l
  induction l with
  | nil => intro ws i _ c; rfl
  | cons r t ih =>
    intro ws i hno c
    rw [applyUpdates_cons]
    cases h : alookup r.student_id idx with
    | none =>
      exact ih ws i (fun r₂ h₂ e₂ he₂ =>
        hno r₂ (List.mem_cons_of_mem _ h₂) e₂ he₂) c
    | some e =>
      rw [ih _ i (fun r₂ h₂ e₂ he₂ =>
        hno r₂ (List.mem_cons_of_mem _ h₂) e₂ he₂) c,
        cellAt_setCell,
        if_neg (by
          intro habs
          exact hno r (List.mem_cons_self _ _) e h habs.1.symm)]

theorem applyUpdates_written (idx : List (Str × ExistRec)) (col : Nat) :
    ∀ (l : List AbsenceRecord) (ws : List (List Str)) (r : AbsenceRecord)
      (e : ExistRec),
    r ∈ l → alookup r.student_id idx = some e → e.row - 1 < ws.length →
    (∀ r₂ ∈ l, ∀ e₂, alookup r₂.student_id idx = some e₂ →
      e₂.row - 1 = e.row - 1 → r₂ = r) →
    cellAt (applyUpdates idx col l ws) (e.row - 1) col
      = merge_periods e.periods r.periods := by
  intro l
  induction l with
  | nil => intro ws r e hmem; simp at hmem
  | cons r₂ t ih =>
    intro ws r e hmem hlook hbound huniq
    rw [applyUpdates_cons]
    by_cases hmt : r ∈ t
    · cases hl₂ : alookup r₂.student_id idx with
      | none =>
        exact ih ws r e hmt hlook hbound (fun r₃ h₃ e₃ he₃ hr₃ =>
          huniq r₃ (List.mem_cons_of_mem _ h₃) e₃ he₃ hr₃)
      | some e₂ =>
        apply ih _ r e hmt hlook
        · rw [setCell_length]; exact hbound
        · exact fun r₃ h₃ e₃ he₃ hr₃ =>
            huniq r₃ (List.mem_cons_of_mem _ h₃) e₃ he₃ hr₃
    · have he₂ : r₂ = r := by
        rcases List.mem_cons.mp hmem with h | h
        · exact h.symm
        · exact absurd h hmt
      subst he₂
      rw [hlook]
      rw [applyUpdates_frame_row idx col t _ (e.row - 1) ?_ col]
      · rw [cellAt_setCell, if_pos ⟨rfl, hbound, rfl⟩]
      · intro r₃ hr₃ e₃ hl₃ habs
        have := huniq r₃ (List.mem_cons_of_mem _ hr₃) e₃ hl₃ habs
        subst this
        exact hmt hr₃

theorem applyUpdates_id (idx : List (Str × ExistRec)) (col : Nat) :
    ∀ (l : List AbsenceRecord) (ws : List (List Str)),
    (∀ r ∈ l, ∀ e, alookup r.student_id idx = some e →
      e.row - 1 < ws.length ∧ col < (ws.getD (e.row - 1) []).length ∧
      merge_periods e.periods r.periods = cellAt ws (e.row - 1) col) →
    applyUpdates idx col l ws = ws := by
  intro l
  induction l with
  | nil => intro ws _; rfl
  | cons r t ih =>
    intro ws hall
    rw [applyUpdates_cons]
    cases h : alookup r.student_id idx with
    | none => exact ih ws (fun r₂ h₂ => hall r₂ (List.mem_cons_of_mem _ h₂))
    | some e =>
      obtain ⟨hb, hcol, hv⟩ := hall r (List.mem_cons_self _ _) e h
      show applyUpdates idx col t
        (setCell ws e.row col (merge_periods e.periods r.periods)) = ws
      rw [hv, setCell_self hb hcol]
      exact ih ws (fun r₂ h₂ => hall r₂ (List.mem_cons_of_mem _ h₂))

theorem map_getD {α : Type} (f : α → Str) :
    ∀ (l : List α) (i : Nat),
    (l.map f).getD i []
      = (match l.get? i with | some r => f r | none => []) := by
  intro l
  induction l with
  | nil => intro i; cases i <;> rfl
  | cons a t ih =>
    intro i
    match i with
    | 0 => rfl
    | i + 1 =>
      simp only [List.map_cons, List.getD_cons_succ, List.get?_cons_succ]
      exact ih i

theorem build_new_row_eq (d : Str) (q : Int) (g1d g2d : List (Str × Str))
    (N1 N2 : List AbsenceRecord) (i : Nat) :
    build_new_row d q g1d g2d N1 N2 i
      = [d, intToStr (q + i),
         (N1.map (fun r => r.student_id)).getD i [],
         (N1.map (fun r => r.name)).getD i [],
         (N1.map (fun r => lookupType g1d r.student_id)).getD i [],
         (N1.map (fun r => format_periods r.periods)).getD i [],
         (N2.map (fun r => r.student_id)).getD i [],
         (N2.map (fun r => r.name)).getD i [],
         (N2.map (fun r => lookupType g2d r.student_id)).getD i [],
         (N2.map (fun r => format_periods r.periods)).getD i []] := by
  unfold build_new_row
  rw [map_getD _ N1 i, map_getD _ N1 i, map_getD _ N1 i, map_getD _ N1 i,
    map_getD _ N2 i, map_getD _ N2 i, map_getD _ N2 i, map_getD _ N2 i]
  cases h1 : N1.get? i <;> cases h2 : N2.get? i <;> rfl

theorem get?_range_lt {n i : Nat} (h : i < n) :
    (List.range n).get? i = some i := by
  rw [List.get?_eq_getElem?]
  simp [List.getElem?_range h]

/-- C2: the append phase of `write_absence_records` writes exactly
max(new₁, new₂) synthesized rows (none when both new buckets are empty) as a
contiguous block right after the highest occupied row; row `i` of the block
carries the target date, the sequence number (max observed for the date,
or 0) + 1 + i, the columns of the i-th new track-1 record when `i < new₁`
(else blanks) and, independently, those of the i-th new track-2 record when
`i < new₂` (else blanks). -/
theorem c2_append_phase (ws : List (List Str)) (records : List AbsenceRecord)
    (cc : Except Str (List Str)) (g1d g2d : List (Str × Str)) (d ts : Str)
    (ed : ExistingData) (G1 G2 N1 N2 : List AbsenceRecord) (kmax : Nat)
    (hr : records ≠ []) (hf : filteredRecords cc records ≠ [])
    (hed : ed = get_today_existing_data ws d)
    (hG1 : G1 = (filteredRecords cc records).filter (fun r => r.grade = 1))
    (hG2 : G2 = (filteredRecords cc records).filter (fun r => r.grade = 2))
    (hN1 : N1 = newBucket ed.grade1 G1) (hN2 : N2 = newBucket ed.grade2 G2)
    (hk : kmax = max N1.length N2.length) :
    (write_absence_records ws records cc g1d g2d d ts).new_rows_count = kmax
    ∧ ∀ i, i < kmax →
      ((write_absence_records ws records cc g1d g2d d ts).ws).getD
          (ed.last_row + i) []
        = [d, intToStr (ed.max_seq + 1 + i),
           (N1.map (fun r => r.student_id)).getD i [],
           (N1.map (fun r => r.name)).getD i [],
           (N1.map (fun r => lookupType g1d r.student_id)).getD i [],
           (N1.map (fun r => format_periods r.periods)).getD i [],
           (N2.map (fun r => r.student_id)).getD i [],
           (N2.map (fun r => r.name)).getD i [],
           (N2.map (fun r => lookupType g2d r.student_id)).getD i [],
           (N2.map (fun r => format_periods r.periods)).getD i []] := by
  rw [run_unfold ws records cc g1d g2d d ts ed G1 G2
    (updateBucket ed.grade1 G1) N1 (updateBucket ed.grade2 G2) N2 kmax
    (applyUpdates ed.grade2 9 (updateBucket ed.grade2 G2)
      (applyUpdates ed.grade1 5 (updateBucket ed.grade1 G1) ws))
    hr hf hed hG1 hG2 rfl hN1 rfl hN2 hk rfl]
  constructor
  · by_cases hz : kmax = 0
    · simp [hz]
    · simp [hz]
  · intro i hi
    have hz : kmax ≠ 0 := by omega
    show (if kmax = 0 then _ else writeBlock _ (ed.last_row + 1) _).getD
        (ed.last_row + i) [] = _
    rw [if_neg hz]
    have hlen : i < ((List.range kmax).map
        (build_new_row d (ed.max_seq + 1) g1d g2d N1 N2)).length := by
      rw [List.length_map, List.length_range]
      omega
    have hidx : ed.last_row + i = (ed.last_row + 1) - 1 + i := by omega
    rw [hidx, writeBlock_getD_block _ _ _ i hlen,
      List.getD_eq_getElem _ _ hlen, List.getElem_map, List.getElem_range]
    exact build_new_row_eq d (ed.max_seq + 1) g1d g2d N1 N2 i

theorem c2_append_phase_witness :
    (write_absence_records sampleWs packRecs (Except.ok []) [] []
        sampleDate morningStr).new_rows_count = 3
    ∧ ((write_absence_records sampleWs packRecs (Except.ok []) [] []
        sampleDate morningStr).ws).getD
        ((get_today_existing_data sampleWs sampleDate).last_row + 0) []
      = ["2026-01-09".data, "1".data, "10911".data, "가".data, [],
         "1,2교시".data, "21202".data, "라".data, [], "1,2교시".data]
    ∧ ((write_absence_records sampleWs packRecs (Except.ok []) [] []
        sampleDate morningStr).ws).getD
        ((get_today_existing_data sampleWs sampleDate).last_row + 2) []
      = ["2026-01-09".data, "3".data, "10913".data, "다".data, [],
         "2교시".data, [], [], [], []] := by
  have h := c2_append_phase sampleWs packRecs (Except.ok []) [] []
    sampleDate morningStr
    (get_today_existing_data sampleWs sampleDate)
    ((filteredRecords (Except.ok []) packRecs).filter (fun r => r.grade = 1))
    ((filteredRecords (Except.ok []) packRecs).filter (fun r => r.grade = 2))
    (newBucket (get_today_existing_data sampleWs sampleDate).grade1
      ((filteredRecords (Except.ok []) packRecs).filter (fun r => r.grade = 1)))
    (newBucket (get_today_existing_data sampleWs sampleDate).grade2
      ((filteredRecords (Except.ok []) packRecs).filter (fun r => r.grade = 2)))
    3 (by decide) (by decide) rfl rfl rfl rfl rfl (by decide)
  exact ⟨h.1, (h.2 0 (by decide)).trans (by decide),
    (h.2 2 (by decide)).trans (by decide)⟩

theorem memberOf_upsert_self (sp : List (Str × StudentEntry)) (sid : Str)
    (e : StudentEntry) : memberOf (upsert sid e sp) sid = true := by
  unfold memberOf
  rw [alookup_upsert_self]
  rfl

theorem memberOf_upsert_ne (sp : List (Str × StudentEntry)) {sid id : Str}
    (e : StudentEntry) (h : id ≠ sid) :
    memberOf (upsert id e sp) sid = memberOf sp sid := by
  unfold memberOf
  rw [alookup_upsert_ne _ h]

theorem periodsOf_upsert_self (sp : List (Str × StudentEntry)) (sid : Str)
    (e : StudentEntry) : periodsOf (upsert sid e sp) sid = e.periods := by
  unfold periodsOf
  rw [alookup_upsert_self]

theorem periodsOf_upsert_ne (sp : List (Str × StudentEntry)) {sid id : Str}
    (e : StudentEntry) (h : id ≠ sid) :
    periodsOf (upsert id e sp) sid = periodsOf sp sid := by
  unfold periodsOf
  rw [alookup_upsert_ne _ h]

theorem nameOf_upsert_self (sp : List (Str × StudentEntry)) (sid : Str)
    (e : StudentEntry) : nameOf (upsert sid e sp) sid = some e.name := by
  unfold nameOf
  rw [alookup_upsert_self]
  rfl

theorem nameOf_upsert_ne (sp : List (Str × StudentEntry)) {sid id : Str}
    (e : StudentEntry) (h : id ≠ sid) :
    nameOf (upsert id e sp) sid = nameOf sp sid := by
  unfold nameOf
  rw [alookup_upsert_ne _ h]

theorem ps_cons_gate (g : Int) (fp : List Nat) (sp : List (Str × StudentEntry))
    (id nm : Str) (tl : List (Str × Str)) (h : g ≠ 0 ∧ g ≠ actual_grade id) :
    processStudents g fp sp ((id, nm) :: tl) = processStudents g fp sp tl := by
  show (if g ≠ 0 ∧ g ≠ actual_grade id then processStudents g fp sp tl
    else processStudents g fp
      (upsert id
        ⟨((alookup id sp).getD ⟨nm, actual_grade id, ∅⟩).name,
         ((alookup id sp).getD ⟨nm, actual_grade id, ∅⟩).grade,
         ((alookup id sp).getD ⟨nm, actual_grade id, ∅⟩).periods
           ∪ fp.toFinset⟩ sp) tl)
    = processStudents g fp sp tl
  rw [if_pos h]

theorem ps_cons_pass (g : Int) (fp : List Nat) (sp : List (Str × StudentEntry))
    (id nm : Str) (tl : List (Str × Str)) (h : ¬(g ≠ 0 ∧ g ≠ actual_grade id)) :
    processStudents g fp sp ((id, nm) :: tl)
      = processStudents g fp
          (upsert id
            ⟨((alookup id sp).getD ⟨nm, actual_grade id, ∅⟩).name,
             ((alookup id sp).getD ⟨nm, actual_grade id, ∅⟩).grade,
             ((alookup id sp).getD ⟨nm, actual_grade id, ∅⟩).periods
               ∪ fp.toFinset⟩ sp) tl := by
  show (if g ≠ 0 ∧ g ≠ actual_grade id then processStudents g fp sp tl
    else processStudents g fp
      (upsert id
        ⟨((alookup id sp).getD ⟨nm, actual_grade id, ∅⟩).name,
         ((alookup id sp).getD ⟨nm, actual_grade id, ∅⟩).grade,
         ((alookup id sp).getD ⟨nm, actual_grade id, ∅⟩).periods
           ∪ fp.toFinset⟩ sp) tl) = _
  rw [if_neg h]

theorem gate_false {g : Int} {sid : Str} (h : g ≠ 0 ∧ g ≠ actual_grade sid) :
    decide (g = 0 ∨ g = actual_grade sid) = false := by
  simp only [decide_eq_false_iff_not]
  push_neg
  exact h

theorem gate_true {g : Int} {sid : Str} (h : ¬(g ≠ 0 ∧ g ≠ actual_grade sid)) :
    decide (g = 0 ∨ g = actual_grade sid) = true := by
  simp only [decide_eq_true_eq]
  by_cases h0 : g = 0
  · exact Or.inl h0
  · right
    by_contra hne
    exact h ⟨h0, hne⟩

theorem ps_member (g : Int) (fp : List Nat) (sid : Str) :
    ∀ (l : List (Str × Str)) (sp : List (Str × StudentEntry)),
    memberOf (processStudents g fp sp l) sid
      = (memberOf sp sid
         || (l.any (fun p => decide (p.1 = sid))
              && decide (g = 0 ∨ g = actual_grade sid))) := by
  intro l
  induction l with
  | nil =>
    intro sp
    show memberOf sp sid = _
    simp
  | cons hd tl ih =>
    intro sp
    rcases hd with ⟨id, nm⟩
    by_cases hgate : g ≠ 0 ∧ g ≠ actual_grade id
    · rw [ps_cons_gate g fp sp id nm tl hgate, ih]
      by_cases hid : id = sid
      · subst hid
        simp [gate_false hgate]
      · simp [hid]
    · rw [ps_cons_pass g fp sp id nm tl hgate, ih]
      by_cases hid : id = sid
      · subst hid
        rw [memberOf_upsert_self]
        simp [gate_true hgate]
      · rw [memberOf_upsert_ne _ _ hid]
        simp [hid]

theorem ps_periods (g : Int) (fp : List Nat) (sid : Str) :
    ∀ (l : List (Str × Str)) (sp : List (Str × StudentEntry)),
    periodsOf (processStudents g fp sp l) sid
      = periodsOf sp sid
        ∪ (if (l.any (fun p => decide (p.1 = sid))
                && decide (g = 0 ∨ g = actual_grade sid)) = true
           then fp.toFinset else ∅) := by
  intro l
  induction l with
  | nil =>
    intro sp
    show periodsOf sp sid = _
    simp
  | cons hd tl ih =>
    intro sp
    rcases hd with ⟨id, nm⟩
    by_cases hgate : g ≠ 0 ∧ g ≠ actual_grade id
    · rw [ps_cons_gate g fp sp id nm tl hgate, ih]
      by_cases hid : id = sid
      · subst hid
        simp [List.any_cons, gate_false hgate]
      · simp only [List.any_cons]
        have h0 : decide (id = sid) = false := by simp [hid]
        simp only [h0, Bool.false_or]
    · rw [ps_cons_pass g fp sp id nm tl hgate, ih]
      by_cases hid : id = sid
      · subst hid
        rw [periodsOf_upsert_self]
        show (((alookup id sp).getD ⟨nm, actual_grade id, ∅⟩).periods
            ∪ fp.toFinset) ∪ _ = _
        have hper : ((alookup id sp).getD ⟨nm, actual_grade id, ∅⟩).periods
            = periodsOf sp id := by
          unfold periodsOf
          cases alookup id sp <;> rfl
        rw [hper]
        simp only [gate_true hgate, List.any_cons, Bool.and_true, decide_True,
          Bool.true_or, if_pos rfl]
        by_cases htl : tl.any (fun p => decide (p.1 = id)) = true <;>
          simp [htl, Finset.union_assoc]
      · rw [periodsOf_upsert_ne _ _ hid]
        simp only [List.any_cons]
        have h0 : decide (id = sid) = false := by simp [hid]
        simp only [h0, Bool.false_or]

theorem ps_name (g : Int) (fp : List Nat) (sid : Str) :
    ∀ (l : List (Str × Str)) (sp : List (Str × StudentEntry)),
    nameOf (processStudents g fp sp l) sid
      = (nameOf sp sid).or
          (((l.filter (fun p => decide (g = 0 ∨ g = actual_grade p.1))).find?
              (fun p => decide (p.1 = sid))).map (fun p => p.2)) := by
  intro l
  induction l with
  | nil =>
    intro sp
    show nameOf sp sid = _
    simp
  | cons hd tl ih =>
    intro sp
    rcases hd with ⟨id, nm⟩
    by_cases hgate : g ≠ 0 ∧ g ≠ actual_grade id
    · rw [ps_cons_gate g fp sp id nm tl hgate, ih]
      simp only [List.filter_cons]
      simp only [gate_false hgate]
      simp
    · rw [ps_cons_pass g fp sp id nm tl hgate, ih]
      simp only [List.filter_cons]
      simp only [gate_true hgate]
      simp only [if_true]
      by_cases hid : id = sid
      · subst hid
        rw [List.find?_cons_of_pos _ (by simp)]
        rw [nameOf_upsert_self]
        cases halk : alookup id sp with
        | none =>
          have h1 : nameOf sp id = none := by
            unfold nameOf
            rw [halk]
            rfl
          rw [h1]
          simp
        | some v =>
          have h1 : nameOf sp id = some v.name := by
            unfold nameOf
            rw [halk]
            rfl
          rw [h1]
          simp
      · rw [List.find?_cons_of_neg _ (by simp [hid])]
        rw [nameOf_upsert_ne _ _ hid]

theorem processRow_short {valid : Finset Nat} {sp : List (Str × StudentEntry)}
    {cells : List Str} (h : cells.length < 6) :
    processRow valid sp cells = sp := by
  unfold processRow
  rw [if_pos h]

theorem processRow_empty {valid : Finset Nat} {sp : List (Str × StudentEntry)}
    {cells : List Str} (h6 : ¬ cells.length < 6)
    (h : strip (cells.getD 3 []) = [] ∨ strip (cells.getD 5 []) = []) :
    processRow valid sp cells = sp := by
  unfold processRow
  rw [if_neg h6, if_pos h]

theorem processRow_nowin {valid : Finset Nat} {sp : List (Str × StudentEntry)}
    {cells : List Str} (h6 : ¬ cells.length < 6)
    (hne : ¬(strip (cells.getD 3 []) = [] ∨ strip (cells.getD 5 []) = []))
    (h : (parse_period_from_course (strip (cells.getD 3 []))).filter
        (fun p => p ∈ valid) = []) :
    processRow valid sp cells = sp := by
  unfold processRow
  rw [if_neg h6, if_neg hne, if_pos h]

theorem processRow_go {valid : Finset Nat} {sp : List (Str × StudentEntry)}
    {cells : List Str} (h6 : ¬ cells.length < 6)
    (hne : ¬(strip (cells.getD 3 []) = [] ∨ strip (cells.getD 5 []) = []))
    (h : (parse_period_from_course (strip (cells.getD 3 []))).filter
        (fun p => p ∈ valid) ≠ []) :
    processRow valid sp cells
      = processStudents (parse_grade (strip (cells.getD 3 [])))
          ((parse_period_from_course (strip (cells.getD 3 []))).filter
            (fun p => p ∈ valid))
          sp (parse_students (strip (cells.getD 5 []))) := by
  unfold processRow
  rw [if_neg h6, if_neg hne, if_neg h]

theorem c4_skip {valid : Finset Nat} {sp : List (Str × StudentEntry)}
    {cells : List Str} {sid : Str}
    (hpr : processRow valid sp cells = sp) (hns : ¬ rowSurvives valid cells) :
    memberOf (processRow valid sp cells) sid
      = (memberOf sp sid || contributes valid cells sid)
    ∧ periodsOf (processRow valid sp cells) sid
      = periodsOf sp sid ∪ rowContribution valid cells sid
    ∧ (contributes valid cells sid = true
        ↔ rowSurvives valid cells ∧ pairingFor cells sid = true
          ∧ (parse_grade (strip (cells.getD 3 [])) = 0
             ∨ parse_grade (strip (cells.getD 3 [])) = actual_grade sid)) := by
  have hc : contributes valid cells sid = false := by
    unfold contributes
    simp [hns]
  refine ⟨?_, ?_, ?_⟩
  · rw [hpr, hc]
    simp
  · rw [hpr]
    unfold rowContribution
    simp [hc]
  · rw [hc]
    simp [hns]

/-- C4: the normalizer's filtering rule.  Processing one roster row changes a
student id's membership and period set in the scrape map exactly according to
`contributes`: the id is added iff the row survives the guards (≥ 6 cells,
non-empty course descriptor and student list, and the parsed period list
meeting the active window, i.e. its in-window filter non-empty), the row's
student text contains a pairing for the id, and the parsed grade scope is 0
(common) or equals the id-resolved actual grade (1 iff the id starts with
'1', else 2); the periods gained are exactly the row's in-window periods when
it contributes, and nothing otherwise. -/
theorem c4_filtering_rule (valid : Finset Nat) (sp : List (Str × StudentEntry))
    (cells : List Str) (sid : Str) :
    memberOf (processRow valid sp cells) sid
      = (memberOf sp sid || contributes valid cells sid)
    ∧ periodsOf (processRow valid sp cells) sid
      = periodsOf sp sid ∪ rowContribution valid cells sid
    ∧ (contributes valid cells sid = true
        ↔ rowSurvives valid cells ∧ pairingFor cells sid = true
          ∧ (parse_grade (strip (cells.getD 3 [])) = 0
             ∨ parse_grade (strip (cells.getD 3 [])) = actual_grade sid)) := by
  by_cases h6 : cells.length < 6
  · exact c4_skip (processRow_short h6) (fun hs => by have := hs.1; omega)
  · by_cases hg2 : strip (cells.getD 3 []) = [] ∨ strip (cells.getD 5 []) = []
    · refine c4_skip (processRow_empty h6 hg2) (fun hs => ?_)
      rcases hg2 with h | h
      · exact hs.2.1 h
      · exact hs.2.2.1 h
    · by_cases hg3 : (parse_period_from_course (strip (cells.getD 3 []))).filter
          (fun p => p ∈ valid) = []
      · exact c4_skip (processRow_nowin h6 hg2 hg3) (fun hs => hs.2.2.2 hg3)
      · have hs : rowSurvives valid cells :=
          ⟨by omega, (not_or.mp hg2).1, (not_or.mp hg2).2, hg3⟩
        have hpr := @processRow_go valid sp cells h6 hg2 hg3
        have hc : contributes valid cells sid
            = (pairingFor cells sid
                && decide (parse_grade (strip (cells.getD 3 [])) = 0
                   ∨ parse_grade (strip (cells.getD 3 [])) = actual_grade sid)) := by
          unfold contributes
          have h1 : decide (rowSurvives valid cells) = true := by simp [hs]
          rw [h1, Bool.true_and]
          congr 1
        refine ⟨?_, ?_, ?_⟩
        · rw [hpr, ps_member, hc]
          rfl
        · rw [hpr, ps_periods]
          unfold rowContribution
          rw [hc]
          rfl
        · rw [hc]
          simp [hs, Bool.and_eq_true, decide_eq_true_eq]

theorem option_map_or {α β : Type} (f : α → β) (o o₂ : Option α) :
    (o.or o₂).map f = (o.map f).or (o₂.map f) := by
  cases o <;> rfl

theorem option_or_assoc {α : Type} (a b c : Option α) :
    (a.or b).or c = a.or (b.or c) := by
  cases a <;> rfl

theorem find?_append' {α : Type} (p : α → Bool) :
    ∀ (l₁ l₂ : List α), (l₁ ++ l₂).find? p = (l₁.find? p).or (l₂.find? p) := by
  intro l₁
  induction l₁ with
  | nil => intro l₂; rfl
  | cons a t ih =>
    intro l₂
    by_cases h : p a = true
    · rw [List.cons_append, List.find?_cons_of_pos _ h,
        List.find?_cons_of_pos _ h]
      rfl
    · rw [List.cons_append,
        List.find?_cons_of_neg _ (by simpa using h),
        List.find?_cons_of_neg _ (by simpa using h), ih]

theorem mem_upsert {α : Type} (k : Str) (v : α) :
    ∀ (l : List (Str × α)) (q : Str × α), q ∈ upsert k v l → q ∈ l ∨ q = (k, v) := by
  intro l
  induction l with
  | nil =>
    intro q hq
    simp [upsert] at hq
    right
    exact hq
  | cons p t ih =>
    intro q hq
    rcases p with ⟨k₂, v₂⟩
    by_cases h : k₂ = k
    · simp only [upsert, if_pos h] at hq
      rcases List.mem_cons.mp hq with h1 | h1
      · right; exact h1
      · left; exact List.mem_cons_of_mem _ h1
    · simp only [upsert, if_neg h] at hq
      rcases List.mem_cons.mp hq with h1 | h1
      · left; rw [h1]; exact List.mem_cons_self _ _
      · rcases ih q h1 with h2 | h2
        · left; exact List.mem_cons_of_mem _ h2
        · right; exact h2

theorem alookup_mem {α : Type} (k : Str) :
    ∀ (l : List (Str × α)) {v : α}, alookup k l = some v → (k, v) ∈ l := by
  intro l
  induction l with
  | nil => intro v h; cases h
  | cons p t ih =>
    intro v h
    rcases p with ⟨k₂, v₂⟩
    by_cases h2 : k₂ = k
    · simp only [alookup, if_pos h2] at h
      subst h2
      rw [Option.some_inj.mp h]
      exact List.mem_cons_self _ _
    · simp only [alookup, if_neg h2] at h
      exact List.mem_cons_of_mem _ (ih h)

theorem upsert_keys {α : Type} (k : Str) (v : α) :
    ∀ l : List (Str × α),
    (upsert k v l).map Prod.fst
      = if k ∈ l.map Prod.fst then l.map Prod.fst
        else l.map Prod.fst ++ [k] := by
  intro l
  induction l with
  | nil => simp [upsert]
  | cons p t ih =>
    rcases p with ⟨k₂, v₂⟩
    by_cases h : k₂ = k
    · have e : upsert k v ((k₂, v₂) :: t) = (k, v) :: t := by
        show (if k₂ = k then (k, v) :: t else (k₂, v₂) :: upsert k v t)
          = (k, v) :: t
        rw [if_pos h]
      rw [e, List.map_cons, List.map_cons, h,
        if_pos (List.mem_cons_self _ _)]
    · have e : upsert k v ((k₂, v₂) :: t) = (k₂, v₂) :: upsert k v t := by
        show (if k₂ = k then (k, v) :: t else (k₂, v₂) :: upsert k v t)
          = (k₂, v₂) :: upsert k v t
        rw [if_neg h]
      rw [e, List.map_cons, List.map_cons, ih]
      by_cases hm : k ∈ t.map Prod.fst
      · rw [if_pos hm, if_pos (List.mem_cons_of_mem _ hm)]
      · rw [if_neg hm, if_neg (fun hc => by
          rcases List.mem_cons.mp hc with h1 | h1
          · exact h h1.symm
          · exact hm h1)]
        rfl

theorem upsert_keys_nodup {α : Type} {k : Str} {v : α} {l : List (Str × α)}
    (h : (l.map Prod.fst).Nodup) : ((upsert k v l).map Prod.fst).Nodup := by
  rw [upsert_keys]
  by_cases hm : k ∈ l.map Prod.fst
  · rw [if_pos hm]
    exact h
  · rw [if_neg hm]
    simp [List.nodup_append, h, hm]

theorem alookup_isSome_iff {α : Type} (k : Str) :
    ∀ l : List (Str × α), (alookup k l).isSome = true ↔ k ∈ l.map Prod.fst := by
  intro l
  induction l with
  | nil => simp [alookup]
  | cons p t ih =>
    rcases p with ⟨k₂, v₂⟩
    by_cases h : k₂ = k
    · show (if k₂ = k then some v₂ else alookup k t).isSome = true ↔ _
      rw [if_pos h, List.map_cons, h]
      exact ⟨fun _ => List.mem_cons_self _ _, fun _ => rfl⟩
    · show (if k₂ = k then some v₂ else alookup k t).isSome = true ↔ _
      rw [if_neg h, List.map_cons, ih, List.mem_cons]
      constructor
      · exact Or.inr
      · rintro (hc | hc)
        · exact absurd hc.symm h
        · exact hc

theorem alookup_of_mem_nodup {α : Type} :
    ∀ {l : List (Str × α)}, (l.map Prod.fst).Nodup → ∀ {q : Str × α}, q ∈ l →
    alookup q.1 l = some q.2 := by
  intro l
  induction l with
  | nil =>
    intro _ q hq
    cases hq
  | cons p t ih =>
    intro hnd q hq
    rcases List.mem_cons.mp hq with h1 | h1
    · subst h1
      show alookup q.1 ((q.1, q.2) :: t) = some q.2
      simp [alookup]
    · have hne : p.1 ≠ q.1 := by
        intro he
        have : q.1 ∈ t.map Prod.fst := List.mem_map.mpr ⟨q, h1, rfl⟩
        rw [List.map_cons, List.nodup_cons] at hnd
        exact hnd.1 (he ▸ this)
      show alookup q.1 (p :: t) = some q.2
      rcases p with ⟨k₂, v₂⟩
      simp only [alookup, if_neg hne]
      exact ih (by rw [List.map_cons, List.nodup_cons] at hnd; exact hnd.2) h1

theorem ps_grade_inv (g : Int) (fp : List Nat) :
    ∀ (l : List (Str × Str)) (sp : List (Str × StudentEntry)),
    (∀ q ∈ sp, q.2.grade = actual_grade q.1) →
    ∀ q ∈ processStudents g fp sp l, q.2.grade = actual_grade q.1 := by
  intro l
  induction l with
  | nil => intro sp hinv; exact hinv
  | cons hd tl ih =>
    intro sp hinv
    rcases hd with ⟨id, nm⟩
    by_cases hgate : g ≠ 0 ∧ g ≠ actual_grade id
    · rw [ps_cons_gate g fp sp id nm tl hgate]
      exact ih sp hinv
    · rw [ps_cons_pass g fp sp id nm tl hgate]
      apply ih
      intro q hq
      rcases mem_upsert _ _ sp q hq with h1 | h1
      · exact hinv q h1
      · rw [h1]
        show ((alookup id sp).getD ⟨nm, actual_grade id, ∅⟩).grade
          = actual_grade id
        cases halk : alookup id sp with
        | none => rfl
        | some v =>
          have hm := alookup_mem id sp halk
          simpa using hinv (id, v) hm

theorem ps_keys_nodup (g : Int) (fp : List Nat) :
    ∀ (l : List (Str × Str)) (sp : List (Str × StudentEntry)),
    (sp.map Prod.fst).Nodup →
    ((processStudents g fp sp l).map Prod.fst).Nodup := by
  intro l
  induction l with
  | nil => intro sp h; exact h
  | cons hd tl ih =>
    intro sp h
    rcases hd with ⟨id, nm⟩
    by_cases hgate : g ≠ 0 ∧ g ≠ actual_grade id
    · rw [ps_cons_gate g fp sp id nm tl hgate]
      exact ih sp h
    · rw [ps_cons_pass g fp sp id nm tl hgate]
      exact ih _ (upsert_keys_nodup h)

theorem processRow_grade_inv (valid : Finset Nat)
    (sp : List (Str × StudentEntry)) (cells : List Str)
    (hinv : ∀ q ∈ sp, q.2.grade = actual_grade q.1) :
    ∀ q ∈ processRow valid sp cells, q.2.grade = actual_grade q.1 := by
  by_cases h6 : cells.length < 6
  · rw [processRow_short h6]; exact hinv
  · by_cases hg2 : strip (cells.getD 3 []) = [] ∨ strip (cells.getD 5 []) = []
    · rw [processRow_empty h6 hg2]; exact hinv
    · by_cases hg3 : (parse_period_from_course (strip (cells.getD 3 []))).filter
          (fun p => p ∈ valid) = []
      · rw [processRow_nowin h6 hg2 hg3]; exact hinv
      · rw [@processRow_go valid sp cells h6 hg2 hg3]
        exact ps_grade_inv _ _ _ sp hinv

theorem processRow_keys_nodup (valid : Finset Nat)
    (sp : List (Str × StudentEntry)) (cells : List Str)
    (h : (sp.map Prod.fst).Nodup) :
    ((processRow valid sp cells).map Prod.fst).Nodup := by
  by_cases h6 : cells.length < 6
  · rw [processRow_short h6]; exact h
  · by_cases hg2 : strip (cells.getD 3 []) = [] ∨ strip (cells.getD 5 []) = []
    · rw [processRow_empty h6 hg2]; exact h
    · by_cases hg3 : (parse_period_from_course (strip (cells.getD 3 []))).filter
          (fun p => p ∈ valid) = []
      · rw [processRow_nowin h6 hg2 hg3]; exact h
      · rw [@processRow_go valid sp cells h6 hg2 hg3]
        exact ps_keys_nodup _ _ _ sp h

theorem fold_grade_inv (valid : Finset Nat) :
    ∀ (rows : List (List Str)) (sp : List (Str × StudentEntry)),
    (∀ q ∈ sp, q.2.grade = actual_grade q.1) →
    ∀ q ∈ rows.foldl (processRow valid) sp, q.2.grade = actual_grade q.1 := by
  intro rows
  induction rows with
  | nil => intro sp h; exact h
  | cons c t ih =>
    intro sp h
    simp only [List.foldl_cons]
    exact ih _ (processRow_grade_inv valid sp c h)

theorem fold_keys_nodup (valid : Finset Nat) :
    ∀ (rows : List (List Str)) (sp : List (Str × StudentEntry)),
    (sp.map Prod.fst).Nodup →
    ((rows.foldl (processRow valid) sp).map Prod.fst).Nodup := by
  intro rows
  induction rows with
  | nil => intro sp h; exact h
  | cons c t ih =>
    intro sp h
    simp only [List.foldl_cons]
    exact ih _ (processRow_keys_nodup valid sp c h)

theorem foldl_union_shift {α : Type} (f : α → Finset Nat) :
    ∀ (rows : List α) (a : Finset Nat),
    rows.foldl (fun s c => s ∪ f c) a
      = a ∪ rows.foldl (fun s c => s ∪ f c) ∅ := by
  intro rows
  induction rows with
  | nil => intro a; simp
  | cons c t ih =>
    intro a
    simp only [List.foldl_cons]
    rw [ih (a ∪ f c), ih (∅ ∪ f c)]
    rw [Finset.empty_union, Finset.union_assoc]

theorem totalContribution_cons (valid : Finset Nat) (c : List Str)
    (rows : List (List Str)) (sid : Str) :
    totalContribution valid (c :: rows) sid
      = rowContribution valid c sid ∪ totalContribution valid rows sid := by
  unfold totalContribution
  simp only [List.foldl_cons]
  rw [foldl_union_shift, Finset.empty_union]

theorem scrape_member_fold (valid : Finset Nat) (sid : Str) :
    ∀ (rows : List (List Str)) (sp : List (Str × StudentEntry)),
    memberOf (rows.foldl (processRow valid) sp) sid
      = (memberOf sp sid
          || rows.any (fun cells => contributes valid cells sid)) := by
  intro rows
  induction rows with
  | nil => intro sp; simp
  | cons c t ih =>
    intro sp
    simp only [List.foldl_cons, List.any_cons]
    rw [ih, (c4_filtering_rule valid sp c sid).1, Bool.or_assoc]

theorem scrape_periods_fold (valid : Finset Nat) (sid : Str) :
    ∀ (rows : List (List Str)) (sp : List (Str × StudentEntry)),
    periodsOf (rows.foldl (processRow valid) sp) sid
      = periodsOf sp sid ∪ totalContribution valid rows sid := by
  intro rows
  induction rows with
  | nil =>
    intro sp
    show periodsOf sp sid = _
    unfold totalContribution
    simp
  | cons c t ih =>
    intro sp
    simp only [List.foldl_cons]
    rw [ih, (c4_filtering_rule valid sp c sid).2.1, totalContribution_cons,
      Finset.union_assoc]

theorem processRow_name_skip {valid : Finset Nat}
    {sp : List (Str × StudentEntry)} {cells : List Str} {sid : Str}
    (hpr : processRow valid sp cells = sp) (hns : ¬ rowSurvives valid cells) :
    nameOf (processRow valid sp cells) sid
      = (nameOf sp sid).or
          (((survivingPairs valid cells).find?
              (fun p => decide (p.1 = sid))).map (fun p => p.2)) := by
  rw [hpr]
  unfold survivingPairs
  rw [if_neg hns]
  simp

theorem processRow_name (valid : Finset Nat) (sp : List (Str × StudentEntry))
    (cells : List Str) (sid : Str) :
    nameOf (processRow valid sp cells) sid
      = (nameOf sp sid).or
          (((survivingPairs valid cells).find?
              (fun p => decide (p.1 = sid))).map (fun p => p.2)) := by
  by_cases h6 : cells.length < 6
  · exact processRow_name_skip (processRow_short h6)
      (fun hs => by have := hs.1; omega)
  · by_cases hg2 : strip (cells.getD 3 []) = [] ∨ strip (cells.getD 5 []) = []
    · refine processRow_name_skip (processRow_empty h6 hg2) (fun hs => ?_)
      rcases hg2 with h | h
      · exact hs.2.1 h
      · exact hs.2.2.1 h
    · by_cases hg3 : (parse_period_from_course (strip (cells.getD 3 []))).filter
          (fun p => p ∈ valid) = []
      · exact processRow_name_skip (processRow_nowin h6 hg2 hg3)
          (fun hs => hs.2.2.2 hg3)
      · have hs : rowSurvives valid cells :=
          ⟨by omega, (not_or.mp hg2).1, (not_or.mp hg2).2, hg3⟩
        rw [@processRow_go valid sp cells h6 hg2 hg3, ps_name]
        unfold survivingPairs
        rw [if_pos hs]
        congr 2

theorem scrape_name_fold (valid : Finset Nat) (sid : Str) :
    ∀ (rows : List (List Str)) (sp : List (Str × StudentEntry)),
    nameOf (rows.foldl (processRow valid) sp) sid
      = (nameOf sp sid).or
          ((((rows.map (survivingPairs valid)).flatten).find?
              (fun p => decide (p.1 = sid))).map (fun p => p.2)) := by
  intro rows
  induction rows with
  | nil =>
    intro sp
    show nameOf sp sid = _
    simp
  | cons c t ih =>
    intro sp
    simp only [List.foldl_cons, List.map_cons, List.flatten_cons]
    rw [ih, processRow_name, find?_append', option_map_or, option_or_assoc]

theorem any_key_eq_memberOf (sid : Str) :
    ∀ sp : List (Str × StudentEntry),
    sp.any (fun p => decide (p.1 = sid)) = memberOf sp sid := by
  intro sp
  induction sp with
  | nil => rfl
  | cons p t ih =>
    rcases p with ⟨k, v⟩
    show (decide (k = sid) || t.any (fun p => decide (p.1 = sid)))
      = (if k = sid then some v else alookup sid t).isSome
    by_cases hk : k = sid
    · rw [if_pos hk, decide_eq_true hk]
      rfl
    · rw [if_neg hk, decide_eq_false hk, Bool.false_or]
      exact ih

theorem any_map' {α β : Type} (f : α → β) (p : β → Bool) :
    ∀ l : List α, (l.map f).any p = l.any (fun a => p (f a)) := by
  intro l
  induction l with
  | nil => rfl
  | cons a t ih =>
    simp only [List.map_cons, List.any_cons, ih]

/-- C5: run-level aggregation of `scrape_absence_data`.  The output has
pairwise-distinct student ids; an id appears among the records exactly when
some processed roster row contributes a surviving (course, student) pairing
for it; and each record's period list is the ascending duplicate-free union
of all in-window periods contributed for its id across every row, its name
is taken from the id's first surviving occurrence in roster order, and its
grade is resolved from the id prefix. -/
theorem c5_aggregation (rows : List (List Str)) (ts : Str) :
    ((scrape_absence_data rows ts).map (fun r => r.student_id)).Nodup
    ∧ (∀ sid : Str,
        (scrape_absence_data rows ts).any (fun r => decide (r.student_id = sid))
          = rows.any (fun cells => contributes (validOf ts) cells sid))
    ∧ ∀ r ∈ scrape_absence_data rows ts,
        r.periods = ascElems (totalContribution (validOf ts) rows r.student_id)
        ∧ r.periods.Pairwise (· < ·)
        ∧ some r.name = firstNameFor (validOf ts) rows r.student_id
        ∧ r.grade = actual_grade r.student_id := by
  have hf : scrape_absence_data rows ts
      = (rows.foldl (processRow (validOf ts)) []).map (fun p =>
          ({ student_id := p.1, name := p.2.name, grade := p.2.grade,
             periods := ascElems p.2.periods } : AbsenceRecord)) := rfl
  have hnodup : (((rows.foldl (processRow (validOf ts)) []).map Prod.fst)).Nodup :=
    fold_keys_nodup (validOf ts) rows [] List.nodup_nil
  refine ⟨?_, ?_, ?_⟩
  · rw [hf, List.map_map]
    exact hnodup
  · intro sid
    rw [hf, any_map']
    have hcomp : (fun p : Str × StudentEntry =>
        decide ((({ student_id := p.1, name := p.2.name, grade := p.2.grade,
                    periods := ascElems p.2.periods }
          : AbsenceRecord)).student_id = sid))
        = (fun p : Str × StudentEntry => decide (p.1 = sid)) := rfl
    rw [hcomp, any_key_eq_memberOf, scrape_member_fold]
    show (false || _) = _
    rw [Bool.false_or]
  · intro r hr
    rw [hf] at hr
    rcases List.mem_map.mp hr with ⟨q, hq, hrq⟩
    have halk : alookup q.1 (rows.foldl (processRow (validOf ts)) [])
        = some q.2 := alookup_of_mem_nodup hnodup hq
    refine ⟨?_, ?_, ?_, ?_⟩
    · rw [hrq.symm]
      show ascElems q.2.periods
        = ascElems (totalContribution (validOf ts) rows q.1)
      have hp : periodsOf (rows.foldl (processRow (validOf ts)) []) q.1
          = totalContribution (validOf ts) rows q.1 := by
        rw [scrape_periods_fold]
        show ∅ ∪ _ = _
        rw [Finset.empty_union]
      rw [show q.2.periods
          = periodsOf (rows.foldl (processRow (validOf ts)) []) q.1 from by
        unfold periodsOf
        rw [halk], hp]
    · rw [hrq.symm]
      show (ascElems q.2.periods).Pairwise (· < ·)
      exact ascElems_pairwise _
    · rw [hrq.symm]
      show some q.2.name = firstNameFor (validOf ts) rows q.1
      have hn : nameOf (rows.foldl (processRow (validOf ts)) []) q.1
          = firstNameFor (validOf ts) rows q.1 := by
        rw [scrape_name_fold]
        rfl
      rw [show some q.2.name
          = nameOf (rows.foldl (processRow (validOf ts)) []) q.1 from by
        unfold nameOf
        rw [halk]
        rfl, hn]
    · rw [hrq.symm]
      show q.2.grade = actual_grade q.1
      exact fold_grade_inv (validOf ts) rows [] (by intro q hq; cases hq) q hq

theorem c5_aggregation_witness :
    (⟨"10101".data, "강민준".data, 1, [1, 2, 3, 4]⟩ : AbsenceRecord)
      ∈ scrape_absence_data aggRows morningStr
    ∧ (⟨"10101".data, "강민준".data, 1, [1, 2, 3, 4]⟩ : AbsenceRecord).periods
      = ascElems (totalContribution (validOf morningStr) aggRows
          (⟨"10101".data, "강민준".data, 1, [1, 2, 3, 4]⟩
            : AbsenceRecord).student_id)
    ∧ some (⟨"10101".data, "강민준".data, 1, [1, 2, 3, 4]⟩
          : AbsenceRecord).name
      = firstNameFor (validOf morningStr) aggRows
          (⟨"10101".data, "강민준".data, 1, [1, 2, 3, 4]⟩
            : AbsenceRecord).student_id :=
  ⟨by decide,
   ((c5_aggregation aggRows morningStr).2.2
     ⟨"10101".data, "강민준".data, 1, [1, 2, 3, 4]⟩ (by decide)).1,
   ((c5_aggregation aggRows morningStr).2.2
     ⟨"10101".data, "강민준".data, 1, [1, 2, 3, 4]⟩ (by decide)).2.2.1⟩

theorem build_new_row_length (d : Str) (q : Int) (g1d g2d : List (Str × Str))
    (N1 N2 : List AbsenceRecord) (i : Nat) :
    (build_new_row d q g1d g2d N1 N2 i).length = 10 := by
  rw [build_new_row_eq]
  rfl

theorem digit_not_ws {c : Char} (h : c.isDigit = true) :
    c.isWhitespace = false := by
  unfold Char.isWhitespace
  have hs : c ≠ ' ' := by intro he; subst he; exact absurd h (by decide)
  have ht : c ≠ Char.ofNat 9 := by
    intro he; subst he; exact absurd h (by decide)
  have hr : c ≠ Char.ofNat 13 := by
    intro he; subst he; exact absurd h (by decide)
  have hn : c ≠ Char.ofNat 10 := by
    intro he; subst he; exact absurd h (by decide)
  simp [hs, ht, hr, hn]

theorem strip_no_ws {s : Str} (h : ∀ c ∈ s, c.isWhitespace = false) :
    strip s = s := by
  have h1 : ∀ t : Str, (∀ c ∈ t, c.isWhitespace = false) →
      t.dropWhile Char.isWhitespace = t := by
    intro t ht
    cases t with
    | nil => rfl
    | cons a b =>
      rw [List.dropWhile_cons, ht a (List.mem_cons_self _ _)]
      rfl
  unfold strip
  rw [h1 s h, h1 _ (fun c hc => h c (by
    rw [List.mem_reverse] at hc
    exact hc)), List.reverse_reverse]

theorem headD_mem {s : Str} (h : s ≠ []) : s.headD ' ' ∈ s := by
  cases s with
  | nil => exact absurd rfl h
  | cons a t => exact List.mem_cons_self _ _

theorem parseInt_natDigitChars (n : Nat) :
    parseInt (natDigitChars n) = some (n : Int) := by
  have hall := natDigitChars_all_digit n
  have hne := natDigitChars_ne_nil n
  have hs : strip (natDigitChars n) = natDigitChars n :=
    strip_no_ws (fun c hc => digit_not_ws (hall c hc))
  have hd := hall _ (headD_mem hne)
  unfold parseInt
  simp only [hs]
  rw [if_neg hne,
    if_neg (fun he => absurd (he ▸ hd) (by decide)),
    if_neg (fun he => absurd (he ▸ hd) (by decide)),
    if_pos (List.all_eq_true.mpr (fun c hc => hall c hc)),
    valOfRun_natDigitChars]

theorem parseInt_intToStr {z : Int} (h : 0 ≤ z) :
    parseInt (intToStr z) = some z := by
  unfold intToStr
  rw [if_neg (by omega), parseInt_natDigitChars, Int.toNat_of_nonneg h]

theorem gted_last_bounds (ws : List (List Str)) (d : Str) (h : ws ≠ []) :
    1 ≤ (get_today_existing_data ws d).last_row
    ∧ (get_today_existing_data ws d).last_row ≤ ws.length := by
  have hpos : 1 ≤ ws.length := List.length_pos.mpr h
  rw [gted_last]
  cases hl : lastMatch occRow (ws.drop 1) with
  | none => exact ⟨le_refl 1, hpos⟩
  | some jr =>
    obtain ⟨j, r⟩ := jr
    have hj := (lastMatch_some occRow _ j r hl).1
    have hlen : (ws.drop 1).length = ws.length - 1 := by simp
    constructor
    · show 1 ≤ j + 2
      omega
    · show j + 2 ≤ ws.length
      omega

theorem occ_le_last (ws : List (List Str)) (d : Str) (j : Nat)
    (hj : j < (ws.drop 1).length)
    (hocc : occRow ((ws.drop 1).getD j []) = true) :
    j + 2 ≤ (get_today_existing_data ws d).last_row := by
  rw [gted_last]
  cases hl : lastMatch occRow (ws.drop 1) with
  | none =>
    rw [lastMatch_none_iff] at hl
    have := hl _ (getD_mem_of_lt hj [])
    rw [hocc] at this
    cases this
  | some jr =>
    obtain ⟨j₂, r⟩ := jr
    show j + 2 ≤ j₂ + 2
    by_contra hlt
    push_neg at hlt
    have := lastMatch_after occRow _ j₂ r hl j (by omega) hj
    rw [hocc] at this
    cases this

theorem gted_grade1_row (ws : List (List Str)) (d id : Str) (e : ExistRec)
    (h : alookup id (get_today_existing_data ws d).grade1 = some e) :
    2 ≤ e.row ∧ e.row - 1 < ws.length
    ∧ match1 d id (ws.getD (e.row - 1) []) = true
    ∧ e.periods = (ws.getD (e.row - 1) []).getD 5 [] := by
  rw [gted_grade1] at h
  cases hl : lastMatch (match1 d id) (ws.drop 1) with
  | none => rw [hl] at h; cases h
  | some jr =>
    obtain ⟨j, r⟩ := jr
    rw [hl] at h
    obtain ⟨hj, hget, hp⟩ := lastMatch_some _ _ j r hl
    have he : e = ⟨j + 2, r.getD 5 []⟩ := (Option.some_inj.mp h).symm
    subst he
    have hlen : (ws.drop 1).length = ws.length - 1 := by simp
    have hgd : ws.getD (j + 1) [] = r := by
      rw [show j + 1 = 1 + j by omega, ← getD_drop' [] ws 1 j, hget]
    refine ⟨?_, ?_, ?_, ?_⟩
    · show 2 ≤ j + 2
      omega
    · show j + 2 - 1 < ws.length
      omega
    · show match1 d id (ws.getD (j + 2 - 1) []) = true
      rw [show j + 2 - 1 = j + 1 by omega, hgd]
      exact hp
    · show r.getD 5 [] = (ws.getD (j + 2 - 1) []).getD 5 []
      rw [show j + 2 - 1 = j + 1 by omega, hgd]

theorem gted_grade2_row (ws : List (List Str)) (d id : Str) (e : ExistRec)
    (h : alookup id (get_today_existing_data ws d).grade2 = some e) :
    2 ≤ e.row ∧ e.row - 1 < ws.length
    ∧ match2 d id (ws.getD (e.row - 1) []) = true
    ∧ e.periods = (ws.getD (e.row - 1) []).getD 9 [] := by
  rw [gted_grade2] at h
  cases hl : lastMatch (match2 d id) (ws.drop 1) with
  | none => rw [hl] at h; cases h
  | some jr =>
    obtain ⟨j, r⟩ := jr
    rw [hl] at h
    obtain ⟨hj, hget, hp⟩ := lastMatch_some _ _ j r hl
    have he : e = ⟨j + 2, r.getD 9 []⟩ := (Option.some_inj.mp h).symm
    subst he
    have hlen : (ws.drop 1).length = ws.length - 1 := by simp
    have hgd : ws.getD (j + 1) [] = r := by
      rw [show j + 1 = 1 + j by omega, ← getD_drop' [] ws 1 j, hget]
    refine ⟨?_, ?_, ?_, ?_⟩
    · show 2 ≤ j + 2
      omega
    · show j + 2 - 1 < ws.length
      omega
    · show match2 d id (ws.getD (j + 2 - 1) []) = true
      rw [show j + 2 - 1 = j + 1 by omega, hgd]
      exact hp
    · show r.getD 9 [] = (ws.getD (j + 2 - 1) []).getD 9 []
      rw [show j + 2 - 1 = j + 1 by omega, hgd]

theorem filter_map_nodup {α β : Type} (f : α → β) (p : α → Bool)
    {l : List α} (h : (l.map f).Nodup) : ((l.filter p).map f).Nodup :=
  List.Nodup.sublist ((List.filter_sublist l).map f) h

theorem getD_map_lt {α β : Type} (f : α → β) (dflt : β) {l : List α} {i : Nat}
    (h : i < l.length) : (l.map f).getD i dflt = f (l.get ⟨i, h⟩) := by
  rw [List.getD_eq_getElem _ _ (by simpa using h)]
  simp

theorem nodup_get_inj {α : Type} {l : List α} (h : l.Nodup) {i j : Nat}
    (hi : i < l.length) (hj : j < l.length)
    (he : l.get ⟨i, hi⟩ = l.get ⟨j, hj⟩) : i = j :=
  congrArg Fin.val ((List.Nodup.get_inj_iff h).mp he)

theorem setCell_row_len (ws : List (List Str)) (rn c : Nat) (v : Str)
    (h : c < (ws.getD (rn - 1) []).length) (i : Nat) :
    ((setCell ws rn c v).getD i []).length = (ws.getD i []).length := by
  rw [setCell_getD]
  by_cases hc : i = rn - 1 ∧ rn - 1 < ws.length
  · rw [if_pos hc, setAt_length h, hc.1]
  · rw [if_neg hc]

theorem applyUpdates_row_len (idx : List (Str × ExistRec)) (col : Nat) :
    ∀ (l : List AbsenceRecord) (ws : List (List Str)),
    (∀ id e, alookup id idx = some e →
      col < (ws.getD (e.row - 1) []).length) →
    ∀ i, ((applyUpdates idx col l ws).getD i []).length
      = (ws.getD i []).length := by
  intro l
  induction l with
  | nil => intro ws _ i; rfl
  | cons r t ih =>
    intro ws hb i
    rw [applyUpdates_cons]
    cases h : alookup r.student_id idx with
    | none => exact ih ws hb i
    | some e =>
      rw [ih _ (fun id₂ e₂ he₂ => by
          rw [setCell_row_len ws e.row col _ (hb _ _ h)]
          exact hb id₂ e₂ he₂) i,
        setCell_row_len ws e.row col _ (hb _ _ h)]

theorem ws2_facts (ws : List (List Str)) (d : Str)
    (U1 U2 : List AbsenceRecord) (L : LedgerInv ws) :
    (applyUpdates (get_today_existing_data ws d).grade2 9 U2
      (applyUpdates (get_today_existing_data ws d).grade1 5 U1 ws)).length
      = ws.length
    ∧ (∀ i, ((applyUpdates (get_today_existing_data ws d).grade2 9 U2
        (applyUpdates (get_today_existing_data ws d).grade1 5 U1 ws)).getD
          i []).length = (ws.getD i []).length)
    ∧ (∀ i c, c ≠ 5 → c ≠ 9 →
        cellAt (applyUpdates (get_today_existing_data ws d).grade2 9 U2
          (applyUpdates (get_today_existing_data ws d).grade1 5 U1 ws)) i c
          = cellAt ws i c) := by
  have hw : ∀ row ∈ ws, row.length = 10 := L.width
  have hb1 : ∀ id e, alookup id (get_today_existing_data ws d).grade1 = some e →
      5 < (ws.getD (e.row - 1) []).length := by
    intro id e he
    obtain ⟨_, hlt, _, _⟩ := gted_grade1_row ws d id e he
    rw [hw _ (getD_mem_of_lt hlt [])]
    omega
  have hb2 : ∀ id e, alookup id (get_today_existing_data ws d).grade2 = some e →
      9 < ((applyUpdates (get_today_existing_data ws d).grade1 5 U1 ws).getD
        (e.row - 1) []).length := by
    intro id e he
    obtain ⟨_, hlt, _, _⟩ := gted_grade2_row ws d id e he
    rw [applyUpdates_row_len _ _ U1 ws hb1, hw _ (getD_mem_of_lt hlt [])]
    omega
  refine ⟨?_, ?_, ?_⟩
  · rw [applyUpdates_length, applyUpdates_length]
  · intro i
    rw [applyUpdates_row_len _ _ U2 _ hb2 i,
      applyUpdates_row_len _ _ U1 ws hb1 i]
  · intro i c h5 h9
    rw [applyUpdates_frame_col _ _ U2 _ i c h9,
      applyUpdates_frame_col _ _ U1 ws i c h5]

theorem mem_drop1_index {ws : List (List Str)} {row : List Str}
    (h : row ∈ ws.drop 1) :
    ∃ j, j + 1 < ws.length ∧ ws.getD (j + 1) [] = row := by
  obtain ⟨i, hi, he⟩ := List.mem_iff_getElem.mp h
  refine ⟨i, ?_, ?_⟩
  · rw [List.length_drop] at hi
    omega
  · rw [show i + 1 = 1 + i by omega, ← getD_drop' [] ws 1 i,
      List.getD_eq_getElem _ _ hi]
    exact he

theorem index_mem_drop1 {ws : List (List Str)} {j : Nat}
    (h : j + 1 < ws.length) : ws.getD (j + 1) [] ∈ ws.drop 1 := by
  rw [show j + 1 = 1 + j by omega, ← getD_drop' [] ws 1 j]
  apply getD_mem_of_lt
  rw [List.length_drop]
  omega

theorem drop1_getD (l : List (List Str)) (j : Nat) :
    (l.drop 1).getD j [] = l.getD (j + 1) [] := by
  rw [getD_drop' [] l 1 j, show 1 + j = j + 1 by omega]

theorem ledgerInv_of_cells (ws ws' : List (List Str)) (d : Str)
    (N1 N2 : List AbsenceRecord) (g1d g2d : List (Str × Str)) (ms : Int)
    (lr kmax : Nat) (L : LedgerInv ws)
    (hms : ms = msFold d 0 (ws.drop 1)) (hmsnn : 0 ≤ ms)
    (hlr1 : 1 ≤ lr) (hlrW : lr ≤ ws.length)
    (hocc : ∀ j, j < (ws.drop 1).length →
      occRow ((ws.drop 1).getD j []) = true → j + 2 ≤ lr)
    (hN1id : ∀ r ∈ N1, r.student_id ≠ [] → ∀ row ∈ ws.drop 1,
      ¬(row.getD 0 [] = d ∧ row.getD 2 [] = r.student_id))
    (hN2id : ∀ r ∈ N2, r.student_id ≠ [] → ∀ row ∈ ws.drop 1,
      ¬(row.getD 0 [] = d ∧ row.getD 6 [] = r.student_id))
    (hN1nd : (N1.map (fun r => r.student_id)).Nodup)
    (hN2nd : (N2.map (fun r => r.student_id)).Nodup)
    (hlen' : ws'.length = max ws.length (lr + kmax))
    (hrowlen : ∀ i, i < lr ∨ lr + kmax ≤ i →
      (ws'.getD i []).length = (ws.getD i []).length)
    (hframe : ∀ i c, (i < lr ∨ lr + kmax ≤ i) → c ≠ 5 → c ≠ 9 →
      (ws'.getD i []).getD c [] = (ws.getD i []).getD c [])
    (hblk : ∀ i, i < kmax → ws'.getD (lr + i) []
      = [d, intToStr (ms + 1 + i),
         (N1.map (fun r => r.student_id)).getD i [],
         (N1.map (fun r => r.name)).getD i [],
         (N1.map (fun r => lookupType g1d r.student_id)).getD i [],
         (N1.map (fun r => format_periods r.periods)).getD i [],
         (N2.map (fun r => r.student_id)).getD i [],
         (N2.map (fun r => r.name)).getD i [],
         (N2.map (fun r => lookupType g2d r.student_id)).getD i [],
         (N2.map (fun r => format_periods r.periods)).getD i []]) :
    LedgerInv ws' := by
  have hwlen : 1 ≤ ws.length := List.length_pos.mpr L.header
  have hblk0 : ∀ i, i < kmax → (ws'.getD (lr + i) []).getD 0 [] = d := by
    intro i h
    rw [hblk i h]
    rfl
  have hblk1 : ∀ i, i < kmax →
      (ws'.getD (lr + i) []).getD 1 [] = intToStr (ms + 1 + i) := by
    intro i h
    rw [hblk i h]
    rfl
  have hblk2 : ∀ i, i < kmax → (ws'.getD (lr + i) []).getD 2 []
      = (N1.map (fun r => r.student_id)).getD i [] := by
    intro i h
    rw [hblk i h]
    rfl
  have hblk6 : ∀ i, i < kmax → (ws'.getD (lr + i) []).getD 6 []
      = (N2.map (fun r => r.student_id)).getD i [] := by
    intro i h
    rw [hblk i h]
    rfl
  have hblklen : ∀ i, i < kmax → (ws'.getD (lr + i) []).length = 10 := by
    intro i h
    rw [hblk i h]
    rfl
  have hblkseq : ∀ i, i < kmax →
      parseInt ((ws'.getD (lr + i) []).getD 1 []) = some (ms + 1 + i) := by
    intro i h
    rw [hblk1 i h]
    exact parseInt_intToStr (by omega)
  -- an old row index (either side of the block) is a genuine row of ws
  have holdlt : ∀ i, i < ws'.length → (i < lr ∨ lr + kmax ≤ i) →
      i < ws.length := by
    intro i hi hc
    rcases hc with h | h
    · omega
    · rw [hlen'] at hi
      omega
  -- a data row of ws sits strictly before the block
  have hdata_lt : ∀ j, j + 1 < ws.length →
      (ws.getD (j + 1) []).getD 0 [] ≠ [] → j + 1 < lr := by
    intro j hj hc
    have hoccj : occRow ((ws.drop 1).getD j []) = true := by
      rw [drop1_getD]
      unfold occRow
      refine decide_eq_true ⟨?_, hc⟩
      have := L.width _ (getD_mem_of_lt hj ([] : List Str))
      omega
    have := hocc j (by rw [List.length_drop]; omega) hoccj
    omega
  -- seq-1 witness transfer: an old data row yields a seq-1 row still in ws'
  have hseq1 : ∀ row₀ ∈ ws.drop 1, row₀.getD 0 [] ≠ [] →
      ∃ row₂ ∈ ws'.drop 1, row₂.getD 0 [] = row₀.getD 0 []
        ∧ parseInt (row₂.getD 1 []) = some 1 := by
    intro row₀ hmem hc0
    obtain ⟨row₂, hmem₂, hc₂, hp₂⟩ := L.seqOne row₀ hmem hc0
    obtain ⟨j₂, hj₂, hg₂⟩ := mem_drop1_index hmem₂
    have hc₂ne : row₂.getD 0 [] ≠ [] := by
      rw [hc₂]
      exact hc0
    have hlt₂ : j₂ + 1 < lr := hdata_lt j₂ hj₂ (by rw [hg₂]; exact hc₂ne)
    have hj₂w : j₂ + 1 < ws'.length := by
      rw [hlen']
      omega
    refine ⟨ws'.getD (j₂ + 1) [], index_mem_drop1 hj₂w, ?_, ?_⟩
    · rw [hframe (j₂ + 1) 0 (Or.inl hlt₂) (by omega) (by omega), hg₂, hc₂]
    · rw [hframe (j₂ + 1) 1 (Or.inl hlt₂) (by omega) (by omega), hg₂]
      exact hp₂
  refine ⟨?_, ?_, ?_, ?_, ?_, ?_, ?_⟩
  · -- header
    intro habs
    have : ws'.length = 0 := by rw [habs]; rfl
    rw [hlen'] at this
    omega
  · -- width
    intro row hrow
    obtain ⟨i, hi, he⟩ := List.mem_iff_getElem.mp hrow
    have hgd : ws'.getD i [] = row := by
      rw [List.getD_eq_getElem _ _ hi]
      exact he
    by_cases hc : i < lr ∨ lr + kmax ≤ i
    · rw [← hgd, hrowlen i hc]
      exact L.width _ (getD_mem_of_lt (holdlt i hi hc) [])
    · push_neg at hc
      rw [← hgd, show i = lr + (i - lr) by omega]
      exact hblklen (i - lr) (by omega)
  · -- seqPos
    intro row hrow hc0
    obtain ⟨j, hj, hgd⟩ := mem_drop1_index hrow
    rw [← hgd] at hc0 ⊢
    by_cases hc : j + 1 < lr ∨ lr + kmax ≤ j + 1
    · have hjw : j + 1 < ws.length := holdlt (j + 1) hj hc
      have h0 := hframe (j + 1) 0 hc (by omega) (by omega)
      have h1 := hframe (j + 1) 1 hc (by omega) (by omega)
      rw [h0] at hc0
      obtain ⟨n, hn1, hpn⟩ := L.seqPos _ (index_mem_drop1 hjw) hc0
      exact ⟨n, hn1, by rw [h1]; exact hpn⟩
    · push_neg at hc
      have hi' : j + 1 - lr < kmax := by omega
      have heq : j + 1 = lr + (j + 1 - lr) := by omega
      refine ⟨(ms + 1 + ((j + 1 - lr : Nat) : Int)).toNat, by omega, ?_⟩
      rw [heq, hblkseq _ hi', Int.toNat_of_nonneg (by omega),
        show lr + (j + 1 - lr) - lr = j + 1 - lr from by omega]
  · -- seqUnique
    intro i j hi hj hne hc0i hc0eq a b hpa hpb
    rw [List.length_drop] at hi hj
    rw [drop1_getD (ws') i] at hc0i hc0eq hpa
    rw [drop1_getD (ws') j] at hc0eq hpb
    have hiw : i + 1 < ws'.length := by omega
    have hjw : j + 1 < ws'.length := by omega
    by_cases hci : i + 1 < lr ∨ lr + kmax ≤ i + 1 <;>
      by_cases hcj : j + 1 < lr ∨ lr + kmax ≤ j + 1
    · -- both old
      have hiW : i + 1 < ws.length := holdlt (i + 1) hiw hci
      have hjW : j + 1 < ws.length := holdlt (j + 1) hjw hcj
      refine L.seqUnique i j (by rw [List.length_drop]; omega)
        (by rw [List.length_drop]; omega) hne ?_ ?_ a b ?_ ?_ <;>
        rw [drop1_getD]
      · rw [← hframe (i + 1) 0 hci (by omega) (by omega)]
        exact hc0i
      · rw [drop1_getD, ← hframe (i + 1) 0 hci (by omega) (by omega),
          ← hframe (j + 1) 0 hcj (by omega) (by omega)]
        exact hc0eq
      · rw [← hframe (i + 1) 1 hci (by omega) (by omega)]
        exact hpa
      · rw [← hframe (j + 1) 1 hcj (by omega) (by omega)]
        exact hpb
    · -- i old, j new
      push_neg at hcj
      have hiW : i + 1 < ws.length := holdlt (i + 1) hiw hci
      have hj' : j + 1 - lr < kmax := by omega
      have hjeq : j + 1 = lr + (j + 1 - lr) := by omega
      have hd0 : (ws.getD (i + 1) []).getD 0 [] = d := by
        rw [← hframe (i + 1) 0 hci (by omega) (by omega), hc0eq, hjeq,
          hblk0 _ hj']
      have hpa' : parseInt ((ws.getD (i + 1) []).getD 1 []) = some a := by
        rw [← hframe (i + 1) 1 hci (by omega) (by omega)]
        exact hpa
      have hale : a ≤ ms := by
        rw [hms]
        refine msFold_mem d (ws.drop 1) 0 _ a
          (index_mem_drop1 hiW) ?_ ?_ ?_
        · have := L.width _ (getD_mem_of_lt hiW ([] : List Str))
          omega
        · exact hd0
        · exact hpa'
      have hbv : b = ms + 1 + ((j + 1 - lr : Nat) : Int) := by
        have := hblkseq _ hj'
        rw [← hjeq] at this
        rw [this] at hpb
        exact (Option.some_inj.mp hpb).symm
      omega
    · -- i new, j old
      push_neg at hci
      have hjW : j + 1 < ws.length := holdlt (j + 1) hjw hcj
      have hi' : i + 1 - lr < kmax := by omega
      have hieq : i + 1 = lr + (i + 1 - lr) := by omega
      have hd0 : (ws.getD (j + 1) []).getD 0 [] = d := by
        rw [← hframe (j + 1) 0 hcj (by omega) (by omega), ← hc0eq, hieq,
          hblk0 _ hi']
      have hpb' : parseInt ((ws.getD (j + 1) []).getD 1 []) = some b := by
        rw [← hframe (j + 1) 1 hcj (by omega) (by omega)]
        exact hpb
      have hble : b ≤ ms := by
        rw [hms]
        refine msFold_mem d (ws.drop 1) 0 _ b
          (index_mem_drop1 hjW) ?_ ?_ ?_
        · have := L.width _ (getD_mem_of_lt hjW ([] : List Str))
          omega
        · exact hd0
        · exact hpb'
      have hav : a = ms + 1 + ((i + 1 - lr : Nat) : Int) := by
        have := hblkseq _ hi'
        rw [← hieq] at this
        rw [this] at hpa
        exact (Option.some_inj.mp hpa).symm
      omega
    · -- both new
      push_neg at hci hcj
      have hi' : i + 1 - lr < kmax := by omega
      have hj' : j + 1 - lr < kmax := by omega
      have hieq : i + 1 = lr + (i + 1 - lr) := by omega
      have hjeq : j + 1 = lr + (j + 1 - lr) := by omega
      have hav : a = ms + 1 + ((i + 1 - lr : Nat) : Int) := by
        have := hblkseq _ hi'
        rw [← hieq] at this
        rw [this] at hpa
        exact (Option.some_inj.mp hpa).symm
      have hbv : b = ms + 1 + ((j + 1 - lr : Nat) : Int) := by
        have := hblkseq _ hj'
        rw [← hjeq] at this
        rw [this] at hpb
        exact (Option.some_inj.mp hpb).symm
      have : i + 1 - lr ≠ j + 1 - lr := by omega
      omega
  · -- seqOne
    intro row hrow hc0
    obtain ⟨j, hj, hgd⟩ := mem_drop1_index hrow
    rw [← hgd] at hc0 ⊢
    by_cases hc : j + 1 < lr ∨ lr + kmax ≤ j + 1
    · have hjW : j + 1 < ws.length := holdlt (j + 1) hj hc
      have h0 := hframe (j + 1) 0 hc (by omega) (by omega)
      rw [h0] at hc0 ⊢
      exact hseq1 _ (index_mem_drop1 hjW) hc0
    · push_neg at hc
      have hj' : j + 1 - lr < kmax := by omega
      have hjeq : j + 1 = lr + (j + 1 - lr) := by omega
      have hd0 : (ws'.getD (j + 1) []).getD 0 [] = d := by
        rw [hjeq, hblk0 _ hj']
      rw [hd0] at hc0 ⊢
      by_cases hex : ∃ j₀, j₀ + 1 < ws.length
          ∧ (ws.getD (j₀ + 1) []).getD 0 [] = d
      · obtain ⟨j₀, hj₀, hg₀⟩ := hex
        have := hseq1 _ (index_mem_drop1 hj₀) (by rw [hg₀]; exact hc0)
        rw [hg₀] at this
        exact this
      · push_neg at hex
        have hms0 : ms = 0 := by
          rw [hms]
          apply msFold_absent
          intro row₀ hmem₀ habs
          obtain ⟨j₀, hj₀, hg₀⟩ := mem_drop1_index hmem₀
          exact hex j₀ hj₀ (by rw [hg₀]; exact habs.2)
        have hk0 : 0 < kmax := by omega
        have hlrw' : (lr - 1) + 1 < ws'.length := by
          rw [hlen']
          omega
        refine ⟨ws'.getD ((lr - 1) + 1) [], index_mem_drop1 hlrw', ?_, ?_⟩
        · rw [show (lr - 1) + 1 = lr + 0 by omega, hblk0 0 hk0]
        · rw [show (lr - 1) + 1 = lr + 0 by omega, hblkseq 0 hk0, hms0]
          rfl
  · -- idUnique1
    intro i j hi hj hne hc0i hc0eq hceq
    rw [List.length_drop] at hi hj
    rw [drop1_getD (ws') i] at hc0i hc0eq hceq
    rw [drop1_getD (ws') j] at hc0eq hceq
    rw [drop1_getD (ws') i]
    have hiw : i + 1 < ws'.length := by omega
    have hjw : j + 1 < ws'.length := by omega
    by_cases hci : i + 1 < lr ∨ lr + kmax ≤ i + 1 <;>
      by_cases hcj : j + 1 < lr ∨ lr + kmax ≤ j + 1
    · -- both old
      have hres := L.idUnique1 i j
        (by rw [List.length_drop]; omega)
        (by rw [List.length_drop]; omega) hne
        (by rw [drop1_getD, ← hframe (i + 1) 0 hci (by omega) (by omega)]
            exact hc0i)
        (by rw [drop1_getD, drop1_getD,
              ← hframe (i + 1) 0 hci (by omega) (by omega),
              ← hframe (j + 1) 0 hcj (by omega) (by omega)]
            exact hc0eq)
        (by rw [drop1_getD, drop1_getD,
              ← hframe (i + 1) 2 hci (by omega) (by omega),
              ← hframe (j + 1) 2 hcj (by omega) (by omega)]
            exact hceq)
      rw [drop1_getD] at hres
      rw [hframe (i + 1) 2 hci (by omega) (by omega)]
      exact hres
    · -- i old, j new
      push_neg at hcj
      have hiW : i + 1 < ws.length := holdlt (i + 1) hiw hci
      have hj2 : j + 1 - lr < kmax := by omega
      have hjeq : j + 1 = lr + (j + 1 - lr) := by omega
      have hbcj : (ws'.getD (j + 1) []).getD 2 []
          = (N1.map (fun r => r.student_id)).getD (j + 1 - lr) [] := by
        have := hblk2 (j + 1 - lr) hj2
        rw [← hjeq] at this
        exact this
      have hb0j : (ws'.getD (j + 1) []).getD 0 [] = d := by
        have := hblk0 (j + 1 - lr) hj2
        rw [← hjeq] at this
        exact this
      by_cases hb : (N1.map (fun r => r.student_id)).getD (j + 1 - lr) [] = []
      · rw [hceq, hbcj]
        exact hb
      · have hblt : j + 1 - lr < N1.length := by
          by_contra hge
          push_neg at hge
          exact hb (getD_big [] _ _ (by rw [List.length_map]; omega))
        have hrv : (N1.map (fun r => r.student_id)).getD (j + 1 - lr) []
            = (N1.get ⟨j + 1 - lr, hblt⟩).student_id :=
          getD_map_lt _ _ hblt
        exfalso
        refine hN1id _ (List.get_mem _ _ _) (by rw [← hrv]; exact hb)
          _ (index_mem_drop1 hiW) ⟨?_, ?_⟩
        · rw [← hframe (i + 1) 0 hci (by omega) (by omega), hc0eq]
          exact hb0j
        · rw [← hframe (i + 1) 2 hci (by omega) (by omega), hceq, hbcj]
          exact hrv
    · -- i new, j old
      push_neg at hci
      have hjW : j + 1 < ws.length := holdlt (j + 1) hjw hcj
      have hi2 : i + 1 - lr < kmax := by omega
      have hieq : i + 1 = lr + (i + 1 - lr) := by omega
      have hbci : (ws'.getD (i + 1) []).getD 2 []
          = (N1.map (fun r => r.student_id)).getD (i + 1 - lr) [] := by
        have := hblk2 (i + 1 - lr) hi2
        rw [← hieq] at this
        exact this
      have hb0i : (ws'.getD (i + 1) []).getD 0 [] = d := by
        have := hblk0 (i + 1 - lr) hi2
        rw [← hieq] at this
        exact this
      by_cases hb : (N1.map (fun r => r.student_id)).getD (i + 1 - lr) [] = []
      · rw [hbci]
        exact hb
      · have hblt : i + 1 - lr < N1.length := by
          by_contra hge
          push_neg at hge
          exact hb (getD_big [] _ _ (by rw [List.length_map]; omega))
        have hrv : (N1.map (fun r => r.student_id)).getD (i + 1 - lr) []
            = (N1.get ⟨i + 1 - lr, hblt⟩).student_id :=
          getD_map_lt _ _ hblt
        exfalso
        refine hN1id _ (List.get_mem _ _ _) (by rw [← hrv]; exact hb)
          _ (index_mem_drop1 hjW) ⟨?_, ?_⟩
        · rw [← hframe (j + 1) 0 hcj (by omega) (by omega), ← hc0eq]
          exact hb0i
        · rw [← hframe (j + 1) 2 hcj (by omega) (by omega), ← hceq, hbci]
          exact hrv
    · -- both new
      push_neg at hci hcj
      have hi2 : i + 1 - lr < kmax := by omega
      have hj2 : j + 1 - lr < kmax := by omega
      have hieq : i + 1 = lr + (i + 1 - lr) := by omega
      have hjeq : j + 1 = lr + (j + 1 - lr) := by omega
      have hbci : (ws'.getD (i + 1) []).getD 2 []
          = (N1.map (fun r => r.student_id)).getD (i + 1 - lr) [] := by
        have := hblk2 (i + 1 - lr) hi2
        rw [← hieq] at this
        exact this
      have hbcj : (ws'.getD (j + 1) []).getD 2 []
          = (N1.map (fun r => r.student_id)).getD (j + 1 - lr) [] := by
        have := hblk2 (j + 1 - lr) hj2
        rw [← hjeq] at this
        exact this
      have hvij : (N1.map (fun r => r.student_id)).getD (i + 1 - lr) []
          = (N1.map (fun r => r.student_id)).getD (j + 1 - lr) [] := by
        rw [← hbci, ← hbcj]
        exact hceq
      by_cases hb : (N1.map (fun r => r.student_id)).getD (i + 1 - lr) [] = []
      · rw [hbci]
        exact hb
      · have hblti : i + 1 - lr < N1.length := by
          by_contra hge
          push_neg at hge
          exact hb (getD_big [] _ _ (by rw [List.length_map]; omega))
        have hbltj : j + 1 - lr < N1.length := by
          by_contra hge
          push_neg at hge
          rw [hvij, getD_big [] _ _ (by rw [List.length_map]; omega)] at hb
          exact hb rfl
        have hmi : i + 1 - lr < (N1.map (fun r => r.student_id)).length := by
          rw [List.length_map]
          omega
        have hmj : j + 1 - lr < (N1.map (fun r => r.student_id)).length := by
          rw [List.length_map]
          omega
        have hgi : (N1.map (fun r => r.student_id)).get ⟨i + 1 - lr, hmi⟩
            = (N1.map (fun r => r.student_id)).getD (i + 1 - lr) [] := by
          rw [List.getD_eq_getElem _ _ hmi]
          rfl
        have hgj : (N1.map (fun r => r.student_id)).get ⟨j + 1 - lr, hmj⟩
            = (N1.map (fun r => r.student_id)).getD (j + 1 - lr) [] := by
          rw [List.getD_eq_getElem _ _ hmj]
          rfl
        have heqv := nodup_get_inj hN1nd hmi hmj (by rw [hgi, hgj]; exact hvij)
        omega
  · -- idUnique2
    intro i j hi hj hne hc0i hc0eq hceq
    rw [List.length_drop] at hi hj
    rw [drop1_getD (ws') i] at hc0i hc0eq hceq
    rw [drop1_getD (ws') j] at hc0eq hceq
    rw [drop1_getD (ws') i]
    have hiw : i + 1 < ws'.length := by omega
    have hjw : j + 1 < ws'.length := by omega
    by_cases hci : i + 1 < lr ∨ lr + kmax ≤ i + 1 <;>
      by_cases hcj : j + 1 < lr ∨ lr + kmax ≤ j + 1
    · -- both old
      have hres := L.idUnique2 i j
        (by rw [List.length_drop]; omega)
        (by rw [List.length_drop]; omega) hne
        (by rw [drop1_getD, ← hframe (i + 1) 0 hci (by omega) (by omega)]
            exact hc0i)
        (by rw [drop1_getD, drop1_getD,
              ← hframe (i + 1) 0 hci (by omega) (by omega),
              ← hframe (j + 1) 0 hcj (by omega) (by omega)]
            exact hc0eq)
        (by rw [drop1_getD, drop1_getD,
              ← hframe (i + 1) 6 hci (by omega) (by omega),
              ← hframe (j + 1) 6 hcj (by omega) (by omega)]
            exact hceq)
      rw [drop1_getD] at hres
      rw [hframe (i + 1) 6 hci (by omega) (by omega)]
      exact hres
    · -- i old, j new
      push_neg at hcj
      have hiW : i + 1 < ws.length := holdlt (i + 1) hiw hci
      have hj2 : j + 1 - lr < kmax := by omega
      have hjeq : j + 1 = lr + (j + 1 - lr) := by omega
      have hbcj : (ws'.getD (j + 1) []).getD 6 []
          = (N2.map (fun r => r.student_id)).getD (j + 1 - lr) [] := by
        have := hblk6 (j + 1 - lr) hj2
        rw [← hjeq] at this
        exact this
      have hb0j : (ws'.getD (j + 1) []).getD 0 [] = d := by
        have := hblk0 (j + 1 - lr) hj2
        rw [← hjeq] at this
        exact this
      by_cases hb : (N2.map (fun r => r.student_id)).getD (j + 1 - lr) [] = []
      · rw [hceq, hbcj]
        exact hb
      · have hblt : j + 1 - lr < N2.length := by
          by_contra hge
          push_neg at hge
          exact hb (getD_big [] _ _ (by rw [List.length_map]; omega))
        have hrv : (N2.map (fun r => r.student_id)).getD (j + 1 - lr) []
            = (N2.get ⟨j + 1 - lr, hblt⟩).student_id :=
          getD_map_lt _ _ hblt
        exfalso
        refine hN2id _ (List.get_mem _ _ _) (by rw [← hrv]; exact hb)
          _ (index_mem_drop1 hiW) ⟨?_, ?_⟩
        · rw [← hframe (i + 1) 0 hci (by omega) (by omega), hc0eq]
          exact hb0j
        · rw [← hframe (i + 1) 6 hci (by omega) (by omega), hceq, hbcj]
          exact hrv
    · -- i new, j old
      push_neg at hci
      have hjW : j + 1 < ws.length := holdlt (j + 1) hjw hcj
      have hi2 : i + 1 - lr < kmax := by omega
      have hieq : i + 1 = lr + (i + 1 - lr) := by omega
      have hbci : (ws'.getD (i + 1) []).getD 6 []
          = (N2.map (fun r => r.student_id)).getD (i + 1 - lr) [] := by
        have := hblk6 (i + 1 - lr) hi2
        rw [← hieq] at this
        exact this
      have hb0i : (ws'.getD (i + 1) []).getD 0 [] = d := by
        have := hblk0 (i + 1 - lr) hi2
        rw [← hieq] at this
        exact this
      by_cases hb : (N2.map (fun r => r.student_id)).getD (i + 1 - lr) [] = []
      · rw [hbci]
        exact hb
      · have hblt : i + 1 - lr < N2.length := by
          by_contra hge
          push_neg at hge
          exact hb (getD_big [] _ _ (by rw [List.length_map]; omega))
        have hrv : (N2.map (fun r => r.student_id)).getD (i + 1 - lr) []
            = (N2.get ⟨i + 1 - lr, hblt⟩).student_id :=
          getD_map_lt _ _ hblt
        exfalso
        refine hN2id _ (List.get_mem _ _ _) (by rw [← hrv]; exact hb)
          _ (index_mem_drop1 hjW) ⟨?_, ?_⟩
        · rw [← hframe (j + 1) 0 hcj (by omega) (by omega), ← hc0eq]
          exact hb0i
        · rw [← hframe (j + 1) 6 hcj (by omega) (by omega), ← hceq, hbci]
          exact hrv
    · -- both new
      push_neg at hci hcj
      have hi2 : i + 1 - lr < kmax := by omega
      have hj2 : j + 1 - lr < kmax := by omega
      have hieq : i + 1 = lr + (i + 1 - lr) := by omega
      have hjeq : j + 1 = lr + (j + 1 - lr) := by omega
      have hbci : (ws'.getD (i + 1) []).getD 6 []
          = (N2.map (fun r => r.student_id)).getD (i + 1 - lr) [] := by
        have := hblk6 (i + 1 - lr) hi2
        rw [← hieq] at this
        exact this
      have hbcj : (ws'.getD (j + 1) []).getD 6 []
          = (N2.map (fun r => r.student_id)).getD (j + 1 - lr) [] := by
        have := hblk6 (j + 1 - lr) hj2
        rw [← hjeq] at this
        exact this
      have hvij : (N2.map (fun r => r.student_id)).getD (i + 1 - lr) []
          = (N2.map (fun r => r.student_id)).getD (j + 1 - lr) [] := by
        rw [← hbci, ← hbcj]
        exact hceq
      by_cases hb : (N2.map (fun r => r.student_id)).getD (i + 1 - lr) [] = []
      · rw [hbci]
        exact hb
      · have hblti : i + 1 - lr < N2.length := by
          by_contra hge
          push_neg at hge
          exact hb (getD_big [] _ _ (by rw [List.length_map]; omega))
        have hbltj : j + 1 - lr < N2.length := by
          by_contra hge
          push_neg at hge
          rw [hvij, getD_big [] _ _ (by rw [List.length_map]; omega)] at hb
          exact hb rfl
        have hmi : i + 1 - lr < (N2.map (fun r => r.student_id)).length := by
          rw [List.length_map]
          omega
        have hmj : j + 1 - lr < (N2.map (fun r => r.student_id)).length := by
          rw [List.length_map]
          omega
        have hgi : (N2.map (fun r => r.student_id)).get ⟨i + 1 - lr, hmi⟩
            = (N2.map (fun r => r.student_id)).getD (i + 1 - lr) [] := by
          rw [List.getD_eq_getElem _ _ hmi]
          rfl
        have hgj : (N2.map (fun r => r.student_id)).get ⟨j + 1 - lr, hmj⟩
            = (N2.map (fun r => r.student_id)).getD (j + 1 - lr) [] := by
          rw [List.getD_eq_getElem _ _ hmj]
          rfl
        have heqv := nodup_get_inj hN2nd hmi hmj (by rw [hgi, hgj]; exact hvij)
        omega

/-- C3: ledger invariant preservation.  If the snapshot satisfies the
LedgerRow invariants and the run's records carry pairwise-distinct student
ids, then the worksheet left by `write_absence_records` satisfies the
invariants again; moreover the merge phase touches only the period columns
(F and J) of existing data rows, every data row of the target date carries a
sequence number strictly below the next assigned one, and new-bucket records
are exactly those whose id does not yet occur for that (date, track). -/
theorem c3_invariant_preservation (ws : List (List Str))
    (records : List AbsenceRecord) (cc : Except Str (List Str))
    (g1d g2d : List (Str × Str)) (d ts : Str)
    (L : LedgerInv ws)
    (hids : (records.map (fun r => r.student_id)).Nodup) :
    LedgerInv (write_absence_records ws records cc g1d g2d d ts).ws
    ∧ (∀ j c, j < (ws.drop 1).length →
        ((ws.drop 1).getD j []).getD 0 [] ≠ [] → c ≠ 5 → c ≠ 9 →
        ((write_absence_records ws records cc g1d g2d d ts).ws.getD
            (j + 1) []).getD c []
          = (ws.getD (j + 1) []).getD c [])
    ∧ (∀ row ∈ ws.drop 1, 2 ≤ row.length → row.getD 0 [] = d →
        ∀ a : Int, parseInt (row.getD 1 []) = some a →
          a < (get_today_existing_data ws d).max_seq + 1)
    ∧ (∀ r ∈ newBucket (get_today_existing_data ws d).grade1
          ((filteredRecords cc records).filter (fun x => x.grade = 1)),
        r.student_id ≠ [] → ∀ row ∈ ws.drop 1,
        ¬(row.getD 0 [] = d ∧ row.getD 2 [] = r.student_id))
    ∧ (∀ r ∈ newBucket (get_today_existing_data ws d).grade2
          ((filteredRecords cc records).filter (fun x => x.grade = 2)),
        r.student_id ≠ [] → ∀ row ∈ ws.drop 1,
        ¬(row.getD 0 [] = d ∧ row.getD 6 [] = r.student_id)) := by
  have hseqlt : ∀ row ∈ ws.drop 1, 2 ≤ row.length → row.getD 0 [] = d →
      ∀ a : Int, parseInt (row.getD 1 []) = some a →
        a < (get_today_existing_data ws d).max_seq + 1 := by
    intro row hmem h2 hd0 a hpa
    have := msFold_mem d (ws.drop 1) 0 row a hmem h2 hd0 hpa
    rw [gted_max]
    omega
  have hfresh1 : ∀ r ∈ newBucket (get_today_existing_data ws d).grade1
        ((filteredRecords cc records).filter (fun x => x.grade = 1)),
      r.student_id ≠ [] → ∀ row ∈ ws.drop 1,
      ¬(row.getD 0 [] = d ∧ row.getD 2 [] = r.student_id) := by
    intro r hr hid row hmem habs
    have hnone := (List.mem_filter.mp hr).2
    rw [gted_grade1] at hnone
    cases hl : lastMatch (match1 d r.student_id) (ws.drop 1) with
    | some jr =>
      obtain ⟨jj, rr⟩ := jr
      rw [hl] at hnone
      exact Bool.noConfusion hnone
    | none =>
      rw [lastMatch_none_iff] at hl
      have hm1 := hl row hmem
      unfold match1 at hm1
      rw [decide_eq_false_iff_not] at hm1
      apply hm1
      have hw := L.width row ((List.drop_sublist 1 ws).subset hmem)
      exact ⟨by omega, habs.1, by omega, habs.2, hid⟩
  have hfresh2 : ∀ r ∈ newBucket (get_today_existing_data ws d).grade2
        ((filteredRecords cc records).filter (fun x => x.grade = 2)),
      r.student_id ≠ [] → ∀ row ∈ ws.drop 1,
      ¬(row.getD 0 [] = d ∧ row.getD 6 [] = r.student_id) := by
    intro r hr hid row hmem habs
    have hnone := (List.mem_filter.mp hr).2
    rw [gted_grade2] at hnone
    cases hl : lastMatch (match2 d r.student_id) (ws.drop 1) with
    | some jr =>
      obtain ⟨jj, rr⟩ := jr
      rw [hl] at hnone
      exact Bool.noConfusion hnone
    | none =>
      rw [lastMatch_none_iff] at hl
      have hm2 := hl row hmem
      unfold match2 at hm2
      rw [decide_eq_false_iff_not] at hm2
      apply hm2
      have hw := L.width row ((List.drop_sublist 1 ws).subset hmem)
      exact ⟨by omega, habs.1, by omega, habs.2, hid⟩
  by_cases hr0 : records = []
  · have hws : write_absence_records ws records cc g1d g2d d ts
        = ⟨ws, 0, 0, none, 0⟩ := by
      unfold write_absence_records
      rw [if_pos hr0]
    rw [hws]
    exact ⟨L, fun j c _ _ _ _ => rfl, hseqlt, hfresh1, hfresh2⟩
  by_cases hf0 : filteredRecords cc records = []
  · have hws : write_absence_records ws records cc g1d g2d d ts
        = ⟨ws, 0, 0, none, 0⟩ := by
      unfold write_absence_records
      rw [if_neg hr0, if_pos hf0]
    rw [hws]
    exact ⟨L, fun j c _ _ _ _ => rfl, hseqlt, hfresh1, hfresh2⟩
  · have hws : (write_absence_records ws records cc g1d g2d d ts).ws
        = (if (max (newBucket (get_today_existing_data ws d).grade1
              ((filteredRecords cc records).filter (fun r => r.grade = 1))).length
            (newBucket (get_today_existing_data ws d).grade2
              ((filteredRecords cc records).filter (fun r => r.grade = 2))).length)
            = 0 then
          applyUpdates (get_today_existing_data ws d).grade2 9
            (updateBucket (get_today_existing_data ws d).grade2
              ((filteredRecords cc records).filter (fun r => r.grade = 2)))
            (applyUpdates (get_today_existing_data ws d).grade1 5
              (updateBucket (get_today_existing_data ws d).grade1
                ((filteredRecords cc records).filter (fun r => r.grade = 1))) ws)
        else writeBlock
          (applyUpdates (get_today_existing_data ws d).grade2 9
            (updateBucket (get_today_existing_data ws d).grade2
              ((filteredRecords cc records).filter (fun r => r.grade = 2)))
            (applyUpdates (get_today_existing_data ws d).grade1 5
              (updateBucket (get_today_existing_data ws d).grade1
                ((filteredRecords cc records).filter (fun r => r.grade = 1))) ws))
          ((get_today_existing_data ws d).last_row + 1)
          ((List.range (max (newBucket (get_today_existing_data ws d).grade1
              ((filteredRecords cc records).filter (fun r => r.grade = 1))).length
            (newBucket (get_today_existing_data ws d).grade2
              ((filteredRecords cc records).filter (fun r => r.grade = 2))).length)).map
            (build_new_row d ((get_today_existing_data ws d).max_seq + 1) g1d g2d
              (newBucket (get_today_existing_data ws d).grade1
                ((filteredRecords cc records).filter (fun r => r.grade = 1)))
              (newBucket (get_today_existing_data ws d).grade2
                ((filteredRecords cc records).filter (fun r => r.grade = 2)))))) := by
      rw [run_unfold ws records cc g1d g2d d ts (get_today_existing_data ws d)
        _ _ _ _ _ _ _ _ hr0 hf0 rfl rfl rfl rfl rfl rfl rfl rfl rfl]
    rw [hws]
    obtain ⟨hlen2, hrow2, hfr2⟩ := ws2_facts ws d
      (updateBucket (get_today_existing_data ws d).grade1
        ((filteredRecords cc records).filter (fun r => r.grade = 1)))
      (updateBucket (get_today_existing_data ws d).grade2
        ((filteredRecords cc records).filter (fun r => r.grade = 2))) L
    have hN1nd : ((newBucket (get_today_existing_data ws d).grade1
        ((filteredRecords cc records).filter (fun r => r.grade = 1))).map
          (fun r => r.student_id)).Nodup := by
      unfold newBucket filteredRecords
      exact filter_map_nodup _ _ (filter_map_nodup _ _ (filter_map_nodup _ _ hids))
    have hN2nd : ((newBucket (get_today_existing_data ws d).grade2
        ((filteredRecords cc records).filter (fun r => r.grade = 2))).map
          (fun r => r.student_id)).Nodup := by
      unfold newBucket filteredRecords
      exact filter_map_nodup _ _ (filter_map_nodup _ _ (filter_map_nodup _ _ hids))
    have hmsnn : 0 ≤ (get_today_existing_data ws d).max_seq := by
      rw [gted_max]
      exact msFold_le_base d (ws.drop 1) 0
    obtain ⟨hlr1, hlrW⟩ := gted_last_bounds ws d L.header
    refine ⟨?_, ?_, hseqlt, hfresh1, hfresh2⟩
    · split_ifs with hk0
      · refine ledgerInv_of_cells ws _ d _ _ g1d g2d
          ((get_today_existing_data ws d).max_seq)
          ((get_today_existing_data ws d).last_row) 0 L
          (gted_max ws d) hmsnn hlr1 hlrW (occ_le_last ws d) hfresh1 hfresh2
          hN1nd hN2nd ?_ ?_ ?_ ?_
        · rw [hlen2]
          omega
        · intro i _
          exact hrow2 i
        · intro i c _ h5 h9
          exact hfr2 i c h5 h9
        · intro i hi
          exact absurd hi (by omega)
      · refine ledgerInv_of_cells ws _ d _ _ g1d g2d
          ((get_today_existing_data ws d).max_seq)
          ((get_today_existing_data ws d).last_row)
          (max (newBucket (get_today_existing_data ws d).grade1
              ((filteredRecords cc records).filter
                (fun r => r.grade = 1))).length
            (newBucket (get_today_existing_data ws d).grade2
              ((filteredRecords cc records).filter
                (fun r => r.grade = 2))).length) L
          (gted_max ws d) hmsnn hlr1 hlrW (occ_le_last ws d) hfresh1 hfresh2
          hN1nd hN2nd ?_ ?_ ?_ ?_
        · rw [writeBlock_length, hlen2, List.length_map, List.length_range]
          omega
        · intro i hc
          rcases hc with h | h
          · rw [writeBlock_getD_before _ _ _ i (by omega)]
            exact hrow2 i
          · rw [writeBlock_getD_after _ _ _ i
              (by rw [List.length_map, List.length_range]; omega)]
            exact hrow2 i
        · intro i c hc h5 h9
          rcases hc with h | h
          · rw [writeBlock_getD_before _ _ _ i (by omega)]
            exact hfr2 i c h5 h9
          · rw [writeBlock_getD_after _ _ _ i
              (by rw [List.length_map, List.length_range]; omega)]
            exact hfr2 i c h5 h9
        · intro i hik
          have hlenB : i < ((List.range (max
              (newBucket (get_today_existing_data ws d).grade1
                ((filteredRecords cc records).filter (fun r => r.grade = 1))).length
              (newBucket (get_today_existing_data ws d).grade2
                ((filteredRecords cc records).filter
                  (fun r => r.grade = 2))).length)).map
              (build_new_row d ((get_today_existing_data ws d).max_seq + 1)
                g1d g2d
                (newBucket (get_today_existing_data ws d).grade1
                  ((filteredRecords cc records).filter (fun r => r.grade = 1)))
                (newBucket (get_today_existing_data ws d).grade2
                  ((filteredRecords cc records).filter
                    (fun r => r.grade = 2))))).length := by
            rw [List.length_map, List.length_range]
            omega
          rw [show (get_today_existing_data ws d).last_row + i
              = ((get_today_existing_data ws d).last_row + 1) - 1 + i
              from by omega]
          rw [writeBlock_getD_block _ _ _ i hlenB,
            List.getD_eq_getElem _ _ hlenB, List.getElem_map,
            List.getElem_range]
          exact build_new_row_eq d _ g1d g2d _ _ i
    · intro j c hj hdat h5 h9
      have hjW : j + 1 < ws.length := by
        rw [List.length_drop] at hj
        omega
      have hoccj : occRow ((ws.drop 1).getD j []) = true := by
        unfold occRow
        refine decide_eq_true ⟨?_, hdat⟩
        rw [drop1_getD]
        have := L.width _ (getD_mem_of_lt hjW ([] : List Str))
        omega
      have hlt := occ_le_last ws d j hj hoccj
      split_ifs with hk0
      · exact hfr2 (j + 1) c h5 h9
      · rw [writeBlock_getD_before _ _ _ _ (by omega)]
        exact hfr2 (j + 1) c h5 h9

theorem c3_invariant_preservation_witness :
    LedgerInv (write_absence_records sampleWs sampleRecs (Except.ok []) [] []
      sampleDate morningStr).ws := by
  have hd0 : sampleWs.drop 1 = [] := rfl
  have L : LedgerInv sampleWs := by
    refine ⟨by decide, by decide, ?_, ?_, ?_, ?_, ?_⟩
    · intro row hmem
      rw [hd0] at hmem
      cases hmem
    · intro i j hi
      rw [hd0] at hi
      cases hi
    · intro row hmem
      rw [hd0] at hmem
      cases hmem
    · intro i j hi
      rw [hd0] at hi
      cases hi
    · intro i j hi
      rw [hd0] at hi
      cases hi
  exact (c3_invariant_preservation sampleWs sampleRecs (Except.ok []) [] []
    sampleDate morningStr L (by decide)).1

theorem match1_congr {d id : Str} {r₁ r₀ : List Str}
    (hlen : r₁.length = r₀.length) (h0 : r₁.getD 0 [] = r₀.getD 0 [])
    (h2 : r₁.getD 2 [] = r₀.getD 2 []) : match1 d id r₁ = match1 d id r₀ := by
  unfold match1
  rw [hlen, h0, h2]

theorem match2_congr {d id : Str} {r₁ r₀ : List Str}
    (hlen : r₁.length = r₀.length) (h0 : r₁.getD 0 [] = r₀.getD 0 [])
    (h6 : r₁.getD 6 [] = r₀.getD 6 []) : match2 d id r₁ = match2 d id r₀ := by
  unfold match2
  rw [hlen, h0, h6]

theorem gted_grade1_det (ws₁ : List (List Str)) (d id : Str) (j : Nat)
    (hj : j < (ws₁.drop 1).length)
    (hm : match1 d id ((ws₁.drop 1).getD j []) = true)
    (hafter : ∀ i, j < i → i < (ws₁.drop 1).length →
      match1 d id ((ws₁.drop 1).getD i []) = false) :
    alookup id (get_today_existing_data ws₁ d).grade1
      = some ⟨j + 2, ((ws₁.drop 1).getD j []).getD 5 []⟩ := by
  rw [gted_grade1, lastMatch_determined (match1 d id) _ j hj hm hafter]

theorem gted_grade2_det (ws₁ : List (List Str)) (d id : Str) (j : Nat)
    (hj : j < (ws₁.drop 1).length)
    (hm : match2 d id ((ws₁.drop 1).getD j []) = true)
    (hafter : ∀ i, j < i → i < (ws₁.drop 1).length →
      match2 d id ((ws₁.drop 1).getD i []) = false) :
    alookup id (get_today_existing_data ws₁ d).grade2
      = some ⟨j + 2, ((ws₁.drop 1).getD j []).getD 9 []⟩ := by
  rw [gted_grade2, lastMatch_determined (match2 d id) _ j hj hm hafter]

theorem map_nodup_inj {α β : Type} {f : α → β} {l : List α}
    (h : (l.map f).Nodup) {a b : α} (ha : a ∈ l) (hb : b ∈ l)
    (he : f a = f b) : a = b :=
  List.inj_on_of_nodup_map h ha hb he

theorem merge_stable_format {P : List Nat} (hne : P ≠ [])
    (hsort : P.Pairwise (· < ·)) :
    merge_periods (format_periods P) P = format_periods P := by
  rw [format_eq_fmtFinset hne hsort, merge_absorb (le_refl P.toFinset)]

theorem run2_lookup_grade1 (ws ws₁ : List (List Str)) (d : Str)
    (G1 N1 : List AbsenceRecord) (lr kmax : Nat) (hd : d ≠ [])
    (hN1 : N1 = newBucket (get_today_existing_data ws d).grade1 G1)
    (hlr : lr = (get_today_existing_data ws d).last_row)
    (hlr1 : 1 ≤ lr) (hlrW : lr ≤ ws.length)
    (hocc : ∀ j, j < (ws.drop 1).length →
      occRow ((ws.drop 1).getD j []) = true → j + 2 ≤ lr)
    (hlen₁ : ws.length ≤ ws₁.length) (hlenB : lr + kmax ≤ ws₁.length)
    (hold : ∀ i, (i < lr ∨ lr + kmax ≤ i) →
      (ws₁.getD i []).length = (ws.getD i []).length
      ∧ (ws₁.getD i []).getD 0 [] = (ws.getD i []).getD 0 []
      ∧ (ws₁.getD i []).getD 2 [] = (ws.getD i []).getD 2 [])
    (hb0 : ∀ i, i < kmax → (ws₁.getD (lr + i) []).getD 0 [] = d)
    (hb2 : ∀ i, i < kmax → (ws₁.getD (lr + i) []).getD 2 []
      = (N1.map (fun r => r.student_id)).getD i [])
    (hblen : ∀ i, i < kmax → (ws₁.getD (lr + i) []).length = 10)
    (hb5 : ∀ i, i < kmax → (ws₁.getD (lr + i) []).getD 5 []
      = (N1.map (fun r => format_periods r.periods)).getD i [])
    (hupd : ∀ r ∈ G1, ∀ e,
      alookup r.student_id (get_today_existing_data ws d).grade1 = some e →
      (ws₁.getD (e.row - 1) []).getD 5 []
        = merge_periods e.periods r.periods)
    (hNlen : N1.length ≤ kmax)
    (hN1nd : (N1.map (fun r => r.student_id)).Nodup)
    (r : AbsenceRecord) (hr : r ∈ G1) (hid : r.student_id ≠ [])
    (hpne : r.periods ≠ []) (hps : r.periods.Pairwise (· < ·)) :
    ∃ e', alookup r.student_id (get_today_existing_data ws₁ d).grade1 = some e'
      ∧ merge_periods e'.periods r.periods = e'.periods := by
  have hd1len : (ws₁.drop 1).length = ws₁.length - 1 := by
    rw [List.length_drop]
  have hd0len : (ws.drop 1).length = ws.length - 1 := by
    rw [List.length_drop]
  have hN1none : ∀ x ∈ N1, (alookup x.student_id
      (get_today_existing_data ws d).grade1).isNone = true := by
    intro x hx
    rw [hN1] at hx
    exact (List.mem_filter.mp hx).2
  cases hlk : alookup r.student_id (get_today_existing_data ws d).grade1 with
  | some e₁ =>
    -- update case: run 1 merged the indexed row in place
    have hlk₂ := hlk
    rw [gted_grade1] at hlk₂
    cases hl : lastMatch (match1 d r.student_id) (ws.drop 1) with
    | none =>
      rw [hl] at hlk₂
      cases hlk₂
    | some jr =>
      obtain ⟨j, row⟩ := jr
      rw [hl] at hlk₂
      have he₁ : e₁ = ⟨j + 2, row.getD 5 []⟩ := (Option.some_inj.mp hlk₂).symm
      obtain ⟨hjlt, hget, hm⟩ := lastMatch_some _ _ _ _ hl
      have hjlr : j + 2 ≤ lr := by
        refine hocc j hjlt ?_
        rw [occRow_iff, hget]
        obtain ⟨h2, hd0, _, _, _⟩ := match1_iff.mp hm
        exact ⟨by omega, by rw [hd0]; exact hd⟩
      have hmW : match1 d r.student_id ((ws₁.drop 1).getD j []) = true := by
        obtain ⟨hl1, he0, he2⟩ := hold (j + 1) (Or.inl (by omega))
        rw [drop1_getD, match1_congr hl1 he0 he2, ← drop1_getD, hget]
        exact hm
      have hafter : ∀ i, j < i → i < (ws₁.drop 1).length →
          match1 d r.student_id ((ws₁.drop 1).getD i []) = false := by
        intro i hji hilt
        by_cases hreg : i + 1 < lr ∨ lr + kmax ≤ i + 1
        · obtain ⟨hl1, he0, he2⟩ := hold (i + 1) hreg
          rw [drop1_getD, match1_congr hl1 he0 he2]
          by_cases hiw : i + 1 < ws.length
          · rw [← drop1_getD]
            rcases hreg with hreg | hreg
            · exact lastMatch_after _ _ _ _ hl i hji (by omega)
            · rw [← Bool.not_eq_true]
              intro hmt
              have h2 : i + 2 ≤ lr := by
                refine hocc i (by omega) ?_
                rw [occRow_iff]
                obtain ⟨h2, hd0, _, _, _⟩ := match1_iff.mp hmt
                exact ⟨by omega, by rw [hd0]; exact hd⟩
              omega
          · rw [getD_big [] ws (i + 1) (by omega)]
            rw [← Bool.not_eq_true]
            intro hmt
            obtain ⟨h2, _⟩ := match1_iff.mp hmt
            simp at h2
        · push_neg at hreg
          rw [← Bool.not_eq_true]
          intro hmt
          obtain ⟨_, _, _, hc2, _⟩ := match1_iff.mp hmt
          have hieq : i + 1 = lr + (i + 1 - lr) := by omega
          have hb2i : (ws₁.getD (i + 1) []).getD 2 []
              = (N1.map (fun q => q.student_id)).getD (i + 1 - lr) [] := by
            have hh := hb2 (i + 1 - lr) (by omega)
            rw [← hieq] at hh
            exact hh
          rw [drop1_getD, hb2i] at hc2
          by_cases hblt : i + 1 - lr < N1.length
          · rw [getD_map_lt _ _ hblt] at hc2
            have hnone := hN1none (N1.get ⟨i + 1 - lr, hblt⟩)
              (List.get_mem _ _ _)
            have h3 : (alookup r.student_id
                (get_today_existing_data ws d).grade1).isNone = true := by
              rw [← hc2]
              exact hnone
            rw [hlk] at h3
            cases h3
          · rw [getD_big [] _ _ (by rw [List.length_map]; omega)] at hc2
            exact hid hc2.symm
      subst he₁
      refine ⟨⟨j + 2, ((ws₁.drop 1).getD j []).getD 5 []⟩,
        gted_grade1_det ws₁ d r.student_id j (by omega) hmW hafter, ?_⟩
      show merge_periods (((ws₁.drop 1).getD j []).getD 5 []) r.periods = _
      have hcell : ((ws₁.drop 1).getD j []).getD 5 []
          = merge_periods (row.getD 5 []) r.periods := by
        have hu := hupd r hr ⟨j + 2, row.getD 5 []⟩ hlk
        rw [drop1_getD]
        exact hu
      rw [hcell, merge_periods_idem]
  | none =>
    -- new case: run 1 appended a block row carrying this record
    have hnr : r ∈ N1 := by
      rw [hN1]
      refine List.mem_filter.mpr ⟨hr, ?_⟩
      rw [hlk]
      rfl
    obtain ⟨⟨ir, hir⟩, hget⟩ := List.mem_iff_get.mp hnr
    have hirk : ir < kmax := by omega
    have hmir : ir < (N1.map (fun q => q.student_id)).length := by
      rw [List.length_map]
      omega
    have hmW : match1 d r.student_id
        ((ws₁.drop 1).getD (lr - 1 + ir) []) = true := by
      rw [drop1_getD, show lr - 1 + ir + 1 = lr + ir from by omega]
      rw [match1_iff]
      refine ⟨?_, hb0 ir hirk, ?_, ?_, hid⟩
      · rw [hblen ir hirk]
        omega
      · rw [hblen ir hirk]
        omega
      · rw [hb2 ir hirk, getD_map_lt _ _ hir]
        exact congrArg (fun q => q.student_id) hget
    have hN1nodup : N1.Nodup := List.Nodup.of_map _ hN1nd
    have hafter : ∀ i, lr - 1 + ir < i → i < (ws₁.drop 1).length →
        match1 d r.student_id ((ws₁.drop 1).getD i []) = false := by
      intro i hji hilt
      rw [← Bool.not_eq_true]
      intro hmt
      by_cases hreg : i + 1 < lr + kmax
      · obtain ⟨_, _, _, hc2, _⟩ := match1_iff.mp hmt
        have hieq : i + 1 = lr + (i + 1 - lr) := by omega
        have hb2i : (ws₁.getD (i + 1) []).getD 2 []
            = (N1.map (fun q => q.student_id)).getD (i + 1 - lr) [] := by
          have hh := hb2 (i + 1 - lr) (by omega)
          rw [← hieq] at hh
          exact hh
        rw [drop1_getD, hb2i] at hc2
        by_cases hblt : i + 1 - lr < N1.length
        · rw [getD_map_lt _ _ hblt] at hc2
          have hgr := map_nodup_inj hN1nd (List.get_mem _ _ _) hnr hc2
          have := nodup_get_inj hN1nodup hblt hir (hgr.trans hget.symm)
          omega
        · rw [getD_big [] _ _ (by rw [List.length_map]; omega)] at hc2
          exact hid hc2.symm
      · obtain ⟨hl1, he0, he2⟩ := hold (i + 1) (Or.inr (by omega))
        rw [drop1_getD, match1_congr hl1 he0 he2] at hmt
        by_cases hiw : i + 1 < ws.length
        · have hlk₂ := hlk
          rw [gted_grade1] at hlk₂
          cases hl : lastMatch (match1 d r.student_id) (ws.drop 1) with
          | some jr =>
            obtain ⟨jj, rr⟩ := jr
            rw [hl] at hlk₂
            cases hlk₂
          | none =>
            rw [lastMatch_none_iff] at hl
            have hfalse := hl _ (index_mem_drop1 hiw)
            rw [hmt] at hfalse
            cases hfalse
        · rw [getD_big [] ws (i + 1) (by omega)] at hmt
          obtain ⟨h2, _⟩ := match1_iff.mp hmt
          simp at h2
    refine ⟨⟨lr - 1 + ir + 2, ((ws₁.drop 1).getD (lr - 1 + ir) []).getD 5 []⟩,
      gted_grade1_det ws₁ d r.student_id (lr - 1 + ir) (by omega) hmW hafter,
      ?_⟩
    show merge_periods (((ws₁.drop 1).getD (lr - 1 + ir) []).getD 5 [])
        r.periods = _
    have hcell : ((ws₁.drop 1).getD (lr - 1 + ir) []).getD 5 []
        = format_periods r.periods := by
      rw [drop1_getD, show lr - 1 + ir + 1 = lr + ir from by omega,
        hb5 ir hirk, getD_map_lt _ _ hir, hget]
    rw [hcell, merge_stable_format hpne hps]

theorem run2_lookup_grade2 (ws ws₁ : List (List Str)) (d : Str)
    (G2 N2 : List AbsenceRecord) (lr kmax : Nat) (hd : d ≠ [])
    (hN2 : N2 = newBucket (get_today_existing_data ws d).grade2 G2)
    (hlr : lr = (get_today_existing_data ws d).last_row)
    (hlr1 : 1 ≤ lr) (hlrW : lr ≤ ws.length)
    (hocc : ∀ j, j < (ws.drop 1).length →
      occRow ((ws.drop 1).getD j []) = true → j + 2 ≤ lr)
    (hlen₁ : ws.length ≤ ws₁.length) (hlenB : lr + kmax ≤ ws₁.length)
    (hold : ∀ i, (i < lr ∨ lr + kmax ≤ i) →
      (ws₁.getD i []).length = (ws.getD i []).length
      ∧ (ws₁.getD i []).getD 0 [] = (ws.getD i []).getD 0 []
      ∧ (ws₁.getD i []).getD 6 [] = (ws.getD i []).getD 6 [])
    (hbz : ∀ i, i < kmax → (ws₁.getD (lr + i) []).getD 0 [] = d)
    (hb6 : ∀ i, i < kmax → (ws₁.getD (lr + i) []).getD 6 []
      = (N2.map (fun r => r.student_id)).getD i [])
    (hblen : ∀ i, i < kmax → (ws₁.getD (lr + i) []).length = 10)
    (hb9 : ∀ i, i < kmax → (ws₁.getD (lr + i) []).getD 9 []
      = (N2.map (fun r => format_periods r.periods)).getD i [])
    (hupd : ∀ r ∈ G2, ∀ e,
      alookup r.student_id (get_today_existing_data ws d).grade2 = some e →
      (ws₁.getD (e.row - 1) []).getD 9 []
        = merge_periods e.periods r.periods)
    (hNlen : N2.length ≤ kmax)
    (hN2nd : (N2.map (fun r => r.student_id)).Nodup)
    (r : AbsenceRecord) (hr : r ∈ G2) (hid : r.student_id ≠ [])
    (hpne : r.periods ≠ []) (hps : r.periods.Pairwise (· < ·)) :
    ∃ e', alookup r.student_id (get_today_existing_data ws₁ d).grade2 = some e'
      ∧ merge_periods e'.periods r.periods = e'.periods := by
  have hd1len : (ws₁.drop 1).length = ws₁.length - 1 := by
    rw [List.length_drop]
  have hd0len : (ws.drop 1).length = ws.length - 1 := by
    rw [List.length_drop]
  have hN2none : ∀ x ∈ N2, (alookup x.student_id
      (get_today_existing_data ws d).grade2).isNone = true := by
    intro x hx
    rw [hN2] at hx
    exact (List.mem_filter.mp hx).2
  cases hlk : alookup r.student_id (get_today_existing_data ws d).grade2 with
  | some e₁ =>
    -- update case: run 1 merged the indexed row in place
    have hlk₂ := hlk
    rw [gted_grade2] at hlk₂
    cases hl : lastMatch (match2 d r.student_id) (ws.drop 1) with
    | none =>
      rw [hl] at hlk₂
      cases hlk₂
    | some jr =>
      obtain ⟨j, row⟩ := jr
      rw [hl] at hlk₂
      have he₁ : e₁ = ⟨j + 2, row.getD 9 []⟩ := (Option.some_inj.mp hlk₂).symm
      obtain ⟨hjlt, hget, hm⟩ := lastMatch_some _ _ _ _ hl
      have hjlr : j + 2 ≤ lr := by
        refine hocc j hjlt ?_
        rw [occRow_iff, hget]
        obtain ⟨h2, hd0, _, _, _⟩ := match2_iff.mp hm
        exact ⟨by omega, by rw [hd0]; exact hd⟩
      have hmW : match2 d r.student_id ((ws₁.drop 1).getD j []) = true := by
        obtain ⟨hl1, he0, he2⟩ := hold (j + 1) (Or.inl (by omega))
        rw [drop1_getD, match2_congr hl1 he0 he2, ← drop1_getD, hget]
        exact hm
      have hafter : ∀ i, j < i → i < (ws₁.drop 1).length →
          match2 d r.student_id ((ws₁.drop 1).getD i []) = false := by
        intro i hji hilt
        by_cases hreg : i + 1 < lr ∨ lr + kmax ≤ i + 1
        · obtain ⟨hl1, he0, he2⟩ := hold (i + 1) hreg
          rw [drop1_getD, match2_congr hl1 he0 he2]
          by_cases hiw : i + 1 < ws.length
          · rw [← drop1_getD]
            rcases hreg with hreg | hreg
            · exact lastMatch_after _ _ _ _ hl i hji (by omega)
            · rw [← Bool.not_eq_true]
              intro hmt
              have h2 : i + 2 ≤ lr := by
                refine hocc i (by omega) ?_
                rw [occRow_iff]
                obtain ⟨h2, hd0, _, _, _⟩ := match2_iff.mp hmt
                exact ⟨by omega, by rw [hd0]; exact hd⟩
              omega
          · rw [getD_big [] ws (i + 1) (by omega)]
            rw [← Bool.not_eq_true]
            intro hmt
            obtain ⟨h2, _⟩ := match2_iff.mp hmt
            simp at h2
        · push_neg at hreg
          rw [← Bool.not_eq_true]
          intro hmt
          obtain ⟨_, _, _, hc2, _⟩ := match2_iff.mp hmt
          have hieq : i + 1 = lr + (i + 1 - lr) := by omega
          have hb6i : (ws₁.getD (i + 1) []).getD 6 []
              = (N2.map (fun q => q.student_id)).getD (i + 1 - lr) [] := by
            have hh := hb6 (i + 1 - lr) (by omega)
            rw [← hieq] at hh
            exact hh
          rw [drop1_getD, hb6i] at hc2
          by_cases hblt : i + 1 - lr < N2.length
          · rw [getD_map_lt _ _ hblt] at hc2
            have hnone := hN2none (N2.get ⟨i + 1 - lr, hblt⟩)
              (List.get_mem _ _ _)
            have h3 : (alookup r.student_id
                (get_today_existing_data ws d).grade2).isNone = true := by
              rw [← hc2]
              exact hnone
            rw [hlk] at h3
            cases h3
          · rw [getD_big [] _ _ (by rw [List.length_map]; omega)] at hc2
            exact hid hc2.symm
      subst he₁
      refine ⟨⟨j + 2, ((ws₁.drop 1).getD j []).getD 9 []⟩,
        gted_grade2_det ws₁ d r.student_id j (by omega) hmW hafter, ?_⟩
      show merge_periods (((ws₁.drop 1).getD j []).getD 9 []) r.periods = _
      have hcell : ((ws₁.drop 1).getD j []).getD 9 []
          = merge_periods (row.getD 9 []) r.periods := by
        have hu := hupd r hr ⟨j + 2, row.getD 9 []⟩ hlk
        rw [drop1_getD]
        exact hu
      rw [hcell, merge_periods_idem]
  | none =>
    -- new case: run 1 appended a block row carrying this record
    have hnr : r ∈ N2 := by
      rw [hN2]
      refine List.mem_filter.mpr ⟨hr, ?_⟩
      rw [hlk]
      rfl
    obtain ⟨⟨ir, hir⟩, hget⟩ := List.mem_iff_get.mp hnr
    have hirk : ir < kmax := by omega
    have hmir : ir < (N2.map (fun q => q.student_id)).length := by
      rw [List.length_map]
      omega
    have hmW : match2 d r.student_id
        ((ws₁.drop 1).getD (lr - 1 + ir) []) = true := by
      rw [drop1_getD, show lr - 1 + ir + 1 = lr + ir from by omega]
      rw [match2_iff]
      refine ⟨?_, hbz ir hirk, ?_, ?_, hid⟩
      · rw [hblen ir hirk]
        omega
      · rw [hblen ir hirk]
      · rw [hb6 ir hirk, getD_map_lt _ _ hir]
        exact congrArg (fun q => q.student_id) hget
    have hN2nodup : N2.Nodup := List.Nodup.of_map _ hN2nd
    have hafter : ∀ i, lr - 1 + ir < i → i < (ws₁.drop 1).length →
        match2 d r.student_id ((ws₁.drop 1).getD i []) = false := by
      intro i hji hilt
      rw [← Bool.not_eq_true]
      intro hmt
      by_cases hreg : i + 1 < lr + kmax
      · obtain ⟨_, _, _, hc2, _⟩ := match2_iff.mp hmt
        have hieq : i + 1 = lr + (i + 1 - lr) := by omega
        have hb6i : (ws₁.getD (i + 1) []).getD 6 []
            = (N2.map (fun q => q.student_id)).getD (i + 1 - lr) [] := by
          have hh := hb6 (i + 1 - lr) (by omega)
          rw [← hieq] at hh
          exact hh
        rw [drop1_getD, hb6i] at hc2
        by_cases hblt : i + 1 - lr < N2.length
        · rw [getD_map_lt _ _ hblt] at hc2
          have hgr := map_nodup_inj hN2nd (List.get_mem _ _ _) hnr hc2
          have := nodup_get_inj hN2nodup hblt hir (hgr.trans hget.symm)
          omega
        · rw [getD_big [] _ _ (by rw [List.length_map]; omega)] at hc2
          exact hid hc2.symm
      · obtain ⟨hl1, he0, he2⟩ := hold (i + 1) (Or.inr (by omega))
        rw [drop1_getD, match2_congr hl1 he0 he2] at hmt
        by_cases hiw : i + 1 < ws.length
        · have hlk₂ := hlk
          rw [gted_grade2] at hlk₂
          cases hl : lastMatch (match2 d r.student_id) (ws.drop 1) with
          | some jr =>
            obtain ⟨jj, rr⟩ := jr
            rw [hl] at hlk₂
            cases hlk₂
          | none =>
            rw [lastMatch_none_iff] at hl
            have hfalse := hl _ (index_mem_drop1 hiw)
            rw [hmt] at hfalse
            cases hfalse
        · rw [getD_big [] ws (i + 1) (by omega)] at hmt
          obtain ⟨h2, _⟩ := match2_iff.mp hmt
          simp at h2
    refine ⟨⟨lr - 1 + ir + 2, ((ws₁.drop 1).getD (lr - 1 + ir) []).getD 9 []⟩,
      gted_grade2_det ws₁ d r.student_id (lr - 1 + ir) (by omega) hmW hafter,
      ?_⟩
    show merge_periods (((ws₁.drop 1).getD (lr - 1 + ir) []).getD 9 [])
        r.periods = _
    have hcell : ((ws₁.drop 1).getD (lr - 1 + ir) []).getD 9 []
        = format_periods r.periods := by
      rw [drop1_getD, show lr - 1 + ir + 1 = lr + ir from by omega,
        hb9 ir hirk, getD_map_lt _ _ hir, hget]
    rw [hcell, merge_stable_format hpne hps]

theorem run2_noop (ws₁ : List (List Str)) (d : Str)
    (G1 G2 : List AbsenceRecord)
    (h1 : ∀ r ∈ G1, ∃ e', alookup r.student_id
        (get_today_existing_data ws₁ d).grade1 = some e'
      ∧ merge_periods e'.periods r.periods = e'.periods)
    (h2 : ∀ r ∈ G2, ∃ e', alookup r.student_id
        (get_today_existing_data ws₁ d).grade2 = some e'
      ∧ merge_periods e'.periods r.periods = e'.periods) :
    newBucket (get_today_existing_data ws₁ d).grade1 G1 = []
    ∧ newBucket (get_today_existing_data ws₁ d).grade2 G2 = []
    ∧ updateBucket (get_today_existing_data ws₁ d).grade1 G1 = G1
    ∧ updateBucket (get_today_existing_data ws₁ d).grade2 G2 = G2
    ∧ applyUpdates (get_today_existing_data ws₁ d).grade2 9 G2
        (applyUpdates (get_today_existing_data ws₁ d).grade1 5 G1 ws₁)
      = ws₁ := by
  have happ1 : applyUpdates (get_today_existing_data ws₁ d).grade1 5 G1 ws₁
      = ws₁ := by
    apply applyUpdates_id
    intro r hr e he
    obtain ⟨e', he', hst⟩ := h1 r hr
    rw [he] at he'
    have hee : e' = e := Option.some_inj.mp he'.symm
    subst hee
    obtain ⟨h2r, hlt, hm, hper⟩ := gted_grade1_row ws₁ d r.student_id e' he
    obtain ⟨_, _, h6, _, _⟩ := match1_iff.mp hm
    refine ⟨hlt, by omega, ?_⟩
    rw [hst, hper]
    rfl
  have happ2 : applyUpdates (get_today_existing_data ws₁ d).grade2 9 G2 ws₁
      = ws₁ := by
    apply applyUpdates_id
    intro r hr e he
    obtain ⟨e', he', hst⟩ := h2 r hr
    rw [he] at he'
    have hee : e' = e := Option.some_inj.mp he'.symm
    subst hee
    obtain ⟨h2r, hlt, hm, hper⟩ := gted_grade2_row ws₁ d r.student_id e' he
    obtain ⟨_, _, h10, _, _⟩ := match2_iff.mp hm
    refine ⟨hlt, by omega, ?_⟩
    rw [hst, hper]
    rfl
  refine ⟨?_, ?_, ?_, ?_, ?_⟩
  · unfold newBucket
    rw [List.filter_eq_nil_iff]
    intro r hr
    obtain ⟨e', he', _⟩ := h1 r hr
    rw [he']
    simp
  · unfold newBucket
    rw [List.filter_eq_nil_iff]
    intro r hr
    obtain ⟨e', he', _⟩ := h2 r hr
    rw [he']
    simp
  · unfold updateBucket
    rw [List.filter_eq_self]
    intro r hr
    obtain ⟨e', he', _⟩ := h1 r hr
    rw [he']
    rfl
  · unfold updateBucket
    rw [List.filter_eq_self]
    intro r hr
    obtain ⟨e', he', _⟩ := h2 r hr
    rw [he']
    rfl
  · rw [happ1, happ2]

theorem ws2_facts_nf (ws : List (List Str)) (d : Str)
    (U1 U2 : List AbsenceRecord) :
    (applyUpdates (get_today_existing_data ws d).grade2 9 U2
      (applyUpdates (get_today_existing_data ws d).grade1 5 U1 ws)).length
      = ws.length
    ∧ (∀ i, ((applyUpdates (get_today_existing_data ws d).grade2 9 U2
        (applyUpdates (get_today_existing_data ws d).grade1 5 U1 ws)).getD
          i []).length = (ws.getD i []).length)
    ∧ (∀ i c, c ≠ 5 → c ≠ 9 →
        cellAt (applyUpdates (get_today_existing_data ws d).grade2 9 U2
          (applyUpdates (get_today_existing_data ws d).grade1 5 U1 ws)) i c
          = cellAt ws i c) := by
  have hb1 : ∀ id e, alookup id (get_today_existing_data ws d).grade1 = some e →
      5 < (ws.getD (e.row - 1) []).length := by
    intro id e he
    obtain ⟨_, _, hm, _⟩ := gted_grade1_row ws d id e he
    obtain ⟨_, _, h6, _, _⟩ := match1_iff.mp hm
    omega
  have hb2 : ∀ id e, alookup id (get_today_existing_data ws d).grade2 = some e →
      9 < ((applyUpdates (get_today_existing_data ws d).grade1 5 U1 ws).getD
        (e.row - 1) []).length := by
    intro id e he
    obtain ⟨_, _, hm, _⟩ := gted_grade2_row ws d id e he
    obtain ⟨_, _, h10, _, _⟩ := match2_iff.mp hm
    rw [applyUpdates_row_len _ _ U1 ws hb1]
    omega
  refine ⟨?_, ?_, ?_⟩
  · rw [applyUpdates_length, applyUpdates_length]
  · intro i
    rw [applyUpdates_row_len _ _ U2 _ hb2 i,
      applyUpdates_row_len _ _ U1 ws hb1 i]
  · intro i c h5 h9
    rw [applyUpdates_frame_col _ _ U2 _ i c h9,
      applyUpdates_frame_col _ _ U1 ws i c h5]

theorem gted_grade1_row_le (ws : List (List Str)) (d id : Str) (e : ExistRec)
    (hd : d ≠ [])
    (he : alookup id (get_today_existing_data ws d).grade1 = some e) :
    e.row ≤ (get_today_existing_data ws d).last_row := by
  obtain ⟨h2, hlt, hm, _⟩ := gted_grade1_row ws d id e he
  obtain ⟨hl2, h0, h6, _, _⟩ := match1_iff.mp hm
  have hj : e.row - 2 < (ws.drop 1).length := by
    rw [List.length_drop]
    omega
  have hoc : occRow ((ws.drop 1).getD (e.row - 2) []) = true := by
    rw [occRow_iff, drop1_getD, show e.row - 2 + 1 = e.row - 1 from by omega]
    exact ⟨by omega, by rw [h0]; exact hd⟩
  have := occ_le_last ws d (e.row - 2) hj hoc
  omega

theorem gted_grade2_row_le (ws : List (List Str)) (d id : Str) (e : ExistRec)
    (hd : d ≠ [])
    (he : alookup id (get_today_existing_data ws d).grade2 = some e) :
    e.row ≤ (get_today_existing_data ws d).last_row := by
  obtain ⟨h2, hlt, hm, _⟩ := gted_grade2_row ws d id e he
  obtain ⟨hl2, h0, h10, _, _⟩ := match2_iff.mp hm
  have hj : e.row - 2 < (ws.drop 1).length := by
    rw [List.length_drop]
    omega
  have hoc : occRow ((ws.drop 1).getD (e.row - 2) []) = true := by
    rw [occRow_iff, drop1_getD, show e.row - 2 + 1 = e.row - 1 from by omega]
    exact ⟨by omega, by rw [h0]; exact hd⟩
  have := occ_le_last ws d (e.row - 2) hj hoc
  omega

theorem c1_core (ws ws₁ : List (List Str)) (records : List AbsenceRecord)
    (cc : Except Str (List Str)) (g1d g2d : List (Str × Str)) (d ts : Str)
    (hwne : ws ≠ []) (hd : d ≠ [])
    (hids : (records.map (fun r => r.student_id)).Nodup)
    (hrec : ∀ r ∈ records, r.periods ≠ [] ∧ r.periods.Pairwise (· < ·)
      ∧ r.student_id ≠ [])
    (hr0 : records ≠ []) (hf0 : filteredRecords cc records ≠ [])
    (hws1 : ws₁ = (if (max (newBucket (get_today_existing_data ws d).grade1 ((filteredRecords cc records).filter (fun r => r.grade = 1))).length (newBucket (get_today_existing_data ws d).grade2 ((filteredRecords cc records).filter (fun r => r.grade = 2))).length) = 0 then (applyUpdates (get_today_existing_data ws d).grade2 9 (updateBucket (get_today_existing_data ws d).grade2 ((filteredRecords cc records).filter (fun r => r.grade = 2))) (applyUpdates (get_today_existing_data ws d).grade1 5 (updateBucket (get_today_existing_data ws d).grade1 ((filteredRecords cc records).filter (fun r => r.grade = 1))) ws)) else writeBlock (applyUpdates (get_today_existing_data ws d).grade2 9 (updateBucket (get_today_existing_data ws d).grade2 ((filteredRecords cc records).filter (fun r => r.grade = 2))) (applyUpdates (get_today_existing_data ws d).grade1 5 (updateBucket (get_today_existing_data ws d).grade1 ((filteredRecords cc records).filter (fun r => r.grade = 1))) ws)) ((get_today_existing_data ws d).last_row + 1) ((List.range (max (newBucket (get_today_existing_data ws d).grade1 ((filteredRecords cc records).filter (fun r => r.grade = 1))).length (newBucket (get_today_existing_data ws d).grade2 ((filteredRecords cc records).filter (fun r => r.grade = 2))).length)).map (build_new_row d ((get_today_existing_data ws d).max_seq + 1) g1d g2d (newBucket (get_today_existing_data ws d).grade1 ((filteredRecords cc records).filter (fun r => r.grade = 1))) (newBucket (get_today_existing_data ws d).grade2 ((filteredRecords cc records).filter (fun r => r.grade = 2))))))) :
    (write_absence_records ws₁ records cc g1d g2d d ts).new_rows_count = 0
    ∧ (write_absence_records ws₁ records cc g1d g2d d ts).ws = ws₁ := by
  obtain ⟨hlr1, hlrW⟩ := gted_last_bounds ws d hwne
  obtain ⟨hlen2, hrow2, hfr2⟩ := ws2_facts_nf ws d (updateBucket (get_today_existing_data ws d).grade1 ((filteredRecords cc records).filter (fun r => r.grade = 1))) (updateBucket (get_today_existing_data ws d).grade2 ((filteredRecords cc records).filter (fun r => r.grade = 2)))
  have hmem1 : ∀ r ∈ ((filteredRecords cc records).filter (fun r => r.grade = 1)), r ∈ records := by
    intro r hr
    have h1 := (List.mem_filter.mp hr).1
    exact (List.mem_filter.mp h1).1
  have hmem2 : ∀ r ∈ ((filteredRecords cc records).filter (fun r => r.grade = 2)), r ∈ records := by
    intro r hr
    have h1 := (List.mem_filter.mp hr).1
    exact (List.mem_filter.mp h1).1
  have hN1nd : ((newBucket (get_today_existing_data ws d).grade1 ((filteredRecords cc records).filter (fun r => r.grade = 1))).map (fun r => r.student_id)).Nodup := by
    unfold newBucket filteredRecords
    exact filter_map_nodup _ _ (filter_map_nodup _ _ (filter_map_nodup _ _ hids))
  have hN2nd : ((newBucket (get_today_existing_data ws d).grade2 ((filteredRecords cc records).filter (fun r => r.grade = 2))).map (fun r => r.student_id)).Nodup := by
    unfold newBucket filteredRecords
    exact filter_map_nodup _ _ (filter_map_nodup _ _ (filter_map_nodup _ _ hids))
  have hlen₁ : ws.length ≤ ws₁.length := by
    rw [hws1]
    split_ifs with hk0
    · rw [hlen2]
    · rw [writeBlock_length, hlen2]
      omega
  have hlenB : (get_today_existing_data ws d).last_row + (max (newBucket (get_today_existing_data ws d).grade1 ((filteredRecords cc records).filter (fun r => r.grade = 1))).length (newBucket (get_today_existing_data ws d).grade2 ((filteredRecords cc records).filter (fun r => r.grade = 2))).length) ≤ ws₁.length := by
    rw [hws1]
    split_ifs with hk0
    · rw [hlen2]
      omega
    · rw [writeBlock_length, hlen2, List.length_map, List.length_range]
      omega
  have hold1 : ∀ i, (i < (get_today_existing_data ws d).last_row ∨ (get_today_existing_data ws d).last_row + (max (newBucket (get_today_existing_data ws d).grade1 ((filteredRecords cc records).filter (fun r => r.grade = 1))).length (newBucket (get_today_existing_data ws d).grade2 ((filteredRecords cc records).filter (fun r => r.grade = 2))).length) ≤ i) →
      (ws₁.getD i []).length = (ws.getD i []).length
      ∧ (ws₁.getD i []).getD 0 [] = (ws.getD i []).getD 0 []
      ∧ (ws₁.getD i []).getD 2 [] = (ws.getD i []).getD 2 [] := by
    intro i hreg
    have hbase : ws₁.getD i [] = (applyUpdates (get_today_existing_data ws d).grade2 9 (updateBucket (get_today_existing_data ws d).grade2 ((filteredRecords cc records).filter (fun r => r.grade = 2))) (applyUpdates (get_today_existing_data ws d).grade1 5 (updateBucket (get_today_existing_data ws d).grade1 ((filteredRecords cc records).filter (fun r => r.grade = 1))) ws)).getD i [] := by
      rw [hws1]
      split_ifs with hk0
      · rfl
      · rcases hreg with h | h
        · exact writeBlock_getD_before _ _ _ i (by omega)
        · exact writeBlock_getD_after _ _ _ i
            (by rw [List.length_map, List.length_range]; omega)
    rw [hbase]
    exact ⟨hrow2 i, hfr2 i 0 (by omega) (by omega),
      hfr2 i 2 (by omega) (by omega)⟩
  have hold2 : ∀ i, (i < (get_today_existing_data ws d).last_row ∨ (get_today_existing_data ws d).last_row + (max (newBucket (get_today_existing_data ws d).grade1 ((filteredRecords cc records).filter (fun r => r.grade = 1))).length (newBucket (get_today_existing_data ws d).grade2 ((filteredRecords cc records).filter (fun r => r.grade = 2))).length) ≤ i) →
      (ws₁.getD i []).length = (ws.getD i []).length
      ∧ (ws₁.getD i []).getD 0 [] = (ws.getD i []).getD 0 []
      ∧ (ws₁.getD i []).getD 6 [] = (ws.getD i []).getD 6 [] := by
    intro i hreg
    have hbase : ws₁.getD i [] = (applyUpdates (get_today_existing_data ws d).grade2 9 (updateBucket (get_today_existing_data ws d).grade2 ((filteredRecords cc records).filter (fun r => r.grade = 2))) (applyUpdates (get_today_existing_data ws d).grade1 5 (updateBucket (get_today_existing_data ws d).grade1 ((filteredRecords cc records).filter (fun r => r.grade = 1))) ws)).getD i [] := by
      rw [hws1]
      split_ifs with hk0
      · rfl
      · rcases hreg with h | h
        · exact writeBlock_getD_before _ _ _ i (by omega)
        · exact writeBlock_getD_after _ _ _ i
            (by rw [List.length_map, List.length_range]; omega)
    rw [hbase]
    exact ⟨hrow2 i, hfr2 i 0 (by omega) (by omega),
      hfr2 i 6 (by omega) (by omega)⟩
  have hbrow : ∀ i, i < (max (newBucket (get_today_existing_data ws d).grade1 ((filteredRecords cc records).filter (fun r => r.grade = 1))).length (newBucket (get_today_existing_data ws d).grade2 ((filteredRecords cc records).filter (fun r => r.grade = 2))).length) → ws₁.getD ((get_today_existing_data ws d).last_row + i) []
      = [d, intToStr ((get_today_existing_data ws d).max_seq + 1 + i),
         ((newBucket (get_today_existing_data ws d).grade1 ((filteredRecords cc records).filter (fun r => r.grade = 1))).map (fun r => r.student_id)).getD i [],
         ((newBucket (get_today_existing_data ws d).grade1 ((filteredRecords cc records).filter (fun r => r.grade = 1))).map (fun r => r.name)).getD i [],
         ((newBucket (get_today_existing_data ws d).grade1 ((filteredRecords cc records).filter (fun r => r.grade = 1))).map (fun r => lookupType g1d r.student_id)).getD i [],
         ((newBucket (get_today_existing_data ws d).grade1 ((filteredRecords cc records).filter (fun r => r.grade = 1))).map (fun r => format_periods r.periods)).getD i [],
         ((newBucket (get_today_existing_data ws d).grade2 ((filteredRecords cc records).filter (fun r => r.grade = 2))).map (fun r => r.student_id)).getD i [],
         ((newBucket (get_today_existing_data ws d).grade2 ((filteredRecords cc records).filter (fun r => r.grade = 2))).map (fun r => r.name)).getD i [],
         ((newBucket (get_today_existing_data ws d).grade2 ((filteredRecords cc records).filter (fun r => r.grade = 2))).map (fun r => lookupType g2d r.student_id)).getD i [],
         ((newBucket (get_today_existing_data ws d).grade2 ((filteredRecords cc records).filter (fun r => r.grade = 2))).map (fun r => format_periods r.periods)).getD i []] := by
    intro i hik
    have hlenb : i < ((List.range (max (newBucket (get_today_existing_data ws d).grade1 ((filteredRecords cc records).filter (fun r => r.grade = 1))).length (newBucket (get_today_existing_data ws d).grade2 ((filteredRecords cc records).filter (fun r => r.grade = 2))).length)).map (build_new_row d ((get_today_existing_data ws d).max_seq + 1) g1d g2d (newBucket (get_today_existing_data ws d).grade1 ((filteredRecords cc records).filter (fun r => r.grade = 1))) (newBucket (get_today_existing_data ws d).grade2 ((filteredRecords cc records).filter (fun r => r.grade = 2))))).length := by
      rw [List.length_map, List.length_range]
      omega
    rw [hws1, if_neg (by omega),
      show (get_today_existing_data ws d).last_row + i = ((get_today_existing_data ws d).last_row + 1) - 1 + i from by omega,
      writeBlock_getD_block _ _ _ i hlenb,
      List.getD_eq_getElem _ _ hlenb, List.getElem_map, List.getElem_range]
    exact build_new_row_eq d _ g1d g2d _ _ i
  have hb0 : ∀ i, i < (max (newBucket (get_today_existing_data ws d).grade1 ((filteredRecords cc records).filter (fun r => r.grade = 1))).length (newBucket (get_today_existing_data ws d).grade2 ((filteredRecords cc records).filter (fun r => r.grade = 2))).length) →
      (ws₁.getD ((get_today_existing_data ws d).last_row + i) []).getD 0 [] = d := by
    intro i h
    rw [hbrow i h]
    rfl
  have hb2 : ∀ i, i < (max (newBucket (get_today_existing_data ws d).grade1 ((filteredRecords cc records).filter (fun r => r.grade = 1))).length (newBucket (get_today_existing_data ws d).grade2 ((filteredRecords cc records).filter (fun r => r.grade = 2))).length) → (ws₁.getD ((get_today_existing_data ws d).last_row + i) []).getD 2 []
      = ((newBucket (get_today_existing_data ws d).grade1 ((filteredRecords cc records).filter (fun r => r.grade = 1))).map (fun r => r.student_id)).getD i [] := by
    intro i h
    rw [hbrow i h]
    rfl
  have hb6 : ∀ i, i < (max (newBucket (get_today_existing_data ws d).grade1 ((filteredRecords cc records).filter (fun r => r.grade = 1))).length (newBucket (get_today_existing_data ws d).grade2 ((filteredRecords cc records).filter (fun r => r.grade = 2))).length) → (ws₁.getD ((get_today_existing_data ws d).last_row + i) []).getD 6 []
      = ((newBucket (get_today_existing_data ws d).grade2 ((filteredRecords cc records).filter (fun r => r.grade = 2))).map (fun r => r.student_id)).getD i [] := by
    intro i h
    rw [hbrow i h]
    rfl
  have hb5 : ∀ i, i < (max (newBucket (get_today_existing_data ws d).grade1 ((filteredRecords cc records).filter (fun r => r.grade = 1))).length (newBucket (get_today_existing_data ws d).grade2 ((filteredRecords cc records).filter (fun r => r.grade = 2))).length) → (ws₁.getD ((get_today_existing_data ws d).last_row + i) []).getD 5 []
      = ((newBucket (get_today_existing_data ws d).grade1 ((filteredRecords cc records).filter (fun r => r.grade = 1))).map (fun r => format_periods r.periods)).getD i [] := by
    intro i h
    rw [hbrow i h]
    rfl
  have hb9 : ∀ i, i < (max (newBucket (get_today_existing_data ws d).grade1 ((filteredRecords cc records).filter (fun r => r.grade = 1))).length (newBucket (get_today_existing_data ws d).grade2 ((filteredRecords cc records).filter (fun r => r.grade = 2))).length) → (ws₁.getD ((get_today_existing_data ws d).last_row + i) []).getD 9 []
      = ((newBucket (get_today_existing_data ws d).grade2 ((filteredRecords cc records).filter (fun r => r.grade = 2))).map (fun r => format_periods r.periods)).getD i [] := by
    intro i h
    rw [hbrow i h]
    rfl
  have hblen : ∀ i, i < (max (newBucket (get_today_existing_data ws d).grade1 ((filteredRecords cc records).filter (fun r => r.grade = 1))).length (newBucket (get_today_existing_data ws d).grade2 ((filteredRecords cc records).filter (fun r => r.grade = 2))).length) →
      (ws₁.getD ((get_today_existing_data ws d).last_row + i) []).length = 10 := by
    intro i h
    rw [hbrow i h]
    rfl
  have huniq1 : ∀ r ∈ ((filteredRecords cc records).filter (fun r => r.grade = 1)), ∀ (e : ExistRec),
      alookup r.student_id (get_today_existing_data ws d).grade1 = some e →
      ∀ r₂ ∈ (updateBucket (get_today_existing_data ws d).grade1 ((filteredRecords cc records).filter (fun r => r.grade = 1))), ∀ (e₂ : ExistRec),
      alookup r₂.student_id (get_today_existing_data ws d).grade1 = some e₂ →
      e₂.row - 1 = e.row - 1 → r₂ = r := by
    intro r hr e he r₂ hr₂ e₂ he₂ hrow
    obtain ⟨hge2, hlt, hm, _⟩ := gted_grade1_row ws d _ e he
    obtain ⟨hge2b, hltb, hmb, _⟩ := gted_grade1_row ws d _ e₂ he₂
    have hre : e₂.row - 1 = e.row - 1 → e₂.row = e.row := by omega
    rw [hre hrow] at hmb
    obtain ⟨_, _, _, hc2, _⟩ := match1_iff.mp hm
    obtain ⟨_, _, _, hc2b, _⟩ := match1_iff.mp hmb
    exact map_nodup_inj hids (hmem1 r₂ (List.mem_filter.mp hr₂).1)
      (hmem1 r hr) (by rw [← hc2b, hc2])
  have huniq2 : ∀ r ∈ ((filteredRecords cc records).filter (fun r => r.grade = 2)), ∀ (e : ExistRec),
      alookup r.student_id (get_today_existing_data ws d).grade2 = some e →
      ∀ r₂ ∈ (updateBucket (get_today_existing_data ws d).grade2 ((filteredRecords cc records).filter (fun r => r.grade = 2))), ∀ (e₂ : ExistRec),
      alookup r₂.student_id (get_today_existing_data ws d).grade2 = some e₂ →
      e₂.row - 1 = e.row - 1 → r₂ = r := by
    intro r hr e he r₂ hr₂ e₂ he₂ hrow
    obtain ⟨hge2, hlt, hm, _⟩ := gted_grade2_row ws d _ e he
    obtain ⟨hge2b, hltb, hmb, _⟩ := gted_grade2_row ws d _ e₂ he₂
    have hre : e₂.row - 1 = e.row - 1 → e₂.row = e.row := by omega
    rw [hre hrow] at hmb
    obtain ⟨_, _, _, hc6, _⟩ := match2_iff.mp hm
    obtain ⟨_, _, _, hc6b, _⟩ := match2_iff.mp hmb
    exact map_nodup_inj hids (hmem2 r₂ (List.mem_filter.mp hr₂).1)
      (hmem2 r hr) (by rw [← hc6b, hc6])
  have hupd1 : ∀ r ∈ ((filteredRecords cc records).filter (fun r => r.grade = 1)), ∀ (e : ExistRec),
      alookup r.student_id (get_today_existing_data ws d).grade1 = some e →
      (ws₁.getD (e.row - 1) []).getD 5 []
        = merge_periods e.periods r.periods := by
    intro r hr e he
    have hle := gted_grade1_row_le ws d _ e hd he
    obtain ⟨hge2, hlt, _, _⟩ := gted_grade1_row ws d _ e he
    have hcell2 : cellAt (applyUpdates (get_today_existing_data ws d).grade2 9 (updateBucket (get_today_existing_data ws d).grade2 ((filteredRecords cc records).filter (fun r => r.grade = 2))) (applyUpdates (get_today_existing_data ws d).grade1 5 (updateBucket (get_today_existing_data ws d).grade1 ((filteredRecords cc records).filter (fun r => r.grade = 1))) ws)) (e.row - 1) 5
        = merge_periods e.periods r.periods := by
      rw [applyUpdates_frame_col (get_today_existing_data ws d).grade2 9 (updateBucket (get_today_existing_data ws d).grade2 ((filteredRecords cc records).filter (fun r => r.grade = 2))) _ (e.row - 1) 5 (by omega)]
      exact applyUpdates_written (get_today_existing_data ws d).grade1 5 (updateBucket (get_today_existing_data ws d).grade1 ((filteredRecords cc records).filter (fun r => r.grade = 1))) ws r e
        (List.mem_filter.mpr ⟨hr, by rw [he]; rfl⟩) he hlt
        (fun r₂ h₂ e₂ he₂ hr₂ => huniq1 r hr e he r₂ h₂ e₂ he₂ hr₂)
    have hbase : ws₁.getD (e.row - 1) [] = (applyUpdates (get_today_existing_data ws d).grade2 9 (updateBucket (get_today_existing_data ws d).grade2 ((filteredRecords cc records).filter (fun r => r.grade = 2))) (applyUpdates (get_today_existing_data ws d).grade1 5 (updateBucket (get_today_existing_data ws d).grade1 ((filteredRecords cc records).filter (fun r => r.grade = 1))) ws)).getD (e.row - 1) [] := by
      rw [hws1]
      split_ifs with hk0
      · rfl
      · exact writeBlock_getD_before _ _ _ _ (by omega)
    rw [hbase]
    exact hcell2
  have hupd2 : ∀ r ∈ ((filteredRecords cc records).filter (fun r => r.grade = 2)), ∀ (e : ExistRec),
      alookup r.student_id (get_today_existing_data ws d).grade2 = some e →
      (ws₁.getD (e.row - 1) []).getD 9 []
        = merge_periods e.periods r.periods := by
    intro r hr e he
    have hle := gted_grade2_row_le ws d _ e hd he
    obtain ⟨hge2, hlt, _, _⟩ := gted_grade2_row ws d _ e he
    have hcell2 : cellAt (applyUpdates (get_today_existing_data ws d).grade2 9 (updateBucket (get_today_existing_data ws d).grade2 ((filteredRecords cc records).filter (fun r => r.grade = 2))) (applyUpdates (get_today_existing_data ws d).grade1 5 (updateBucket (get_today_existing_data ws d).grade1 ((filteredRecords cc records).filter (fun r => r.grade = 1))) ws)) (e.row - 1) 9
        = merge_periods e.periods r.periods := by
      have hwr := applyUpdates_written (get_today_existing_data ws d).grade2 9 (updateBucket (get_today_existing_data ws d).grade2 ((filteredRecords cc records).filter (fun r => r.grade = 2)))
        (applyUpdates (get_today_existing_data ws d).grade1 5 (updateBucket (get_today_existing_data ws d).grade1 ((filteredRecords cc records).filter (fun r => r.grade = 1))) ws) r e
        (List.mem_filter.mpr ⟨hr, by rw [he]; rfl⟩) he
        (by rw [applyUpdates_length]; exact hlt)
        (fun r₂ h₂ e₂ he₂ hr₂ => huniq2 r hr e he r₂ h₂ e₂ he₂ hr₂)
      exact hwr
    have hbase : ws₁.getD (e.row - 1) [] = (applyUpdates (get_today_existing_data ws d).grade2 9 (updateBucket (get_today_existing_data ws d).grade2 ((filteredRecords cc records).filter (fun r => r.grade = 2))) (applyUpdates (get_today_existing_data ws d).grade1 5 (updateBucket (get_today_existing_data ws d).grade1 ((filteredRecords cc records).filter (fun r => r.grade = 1))) ws)).getD (e.row - 1) [] := by
      rw [hws1]
      split_ifs with hk0
      · rfl
      · exact writeBlock_getD_before _ _ _ _ (by omega)
    rw [hbase]
    exact hcell2
  have htr1 : ∀ r ∈ ((filteredRecords cc records).filter (fun r => r.grade = 1)), ∃ e',
      alookup r.student_id (get_today_existing_data ws₁ d).grade1 = some e'
      ∧ merge_periods e'.periods r.periods = e'.periods := by
    intro r hr
    exact run2_lookup_grade1 ws ws₁ d ((filteredRecords cc records).filter (fun r => r.grade = 1)) (newBucket (get_today_existing_data ws d).grade1 ((filteredRecords cc records).filter (fun r => r.grade = 1))) (get_today_existing_data ws d).last_row (max (newBucket (get_today_existing_data ws d).grade1 ((filteredRecords cc records).filter (fun r => r.grade = 1))).length (newBucket (get_today_existing_data ws d).grade2 ((filteredRecords cc records).filter (fun r => r.grade = 2))).length) hd rfl rfl
      hlr1 hlrW (occ_le_last ws d) hlen₁ hlenB hold1 hb0 hb2 hblen hb5 hupd1
      (le_max_left _ _) hN1nd r hr (hrec r (hmem1 r hr)).2.2
      (hrec r (hmem1 r hr)).1 (hrec r (hmem1 r hr)).2.1
  have htr2 : ∀ r ∈ ((filteredRecords cc records).filter (fun r => r.grade = 2)), ∃ e',
      alookup r.student_id (get_today_existing_data ws₁ d).grade2 = some e'
      ∧ merge_periods e'.periods r.periods = e'.periods := by
    intro r hr
    exact run2_lookup_grade2 ws ws₁ d ((filteredRecords cc records).filter (fun r => r.grade = 2)) (newBucket (get_today_existing_data ws d).grade2 ((filteredRecords cc records).filter (fun r => r.grade = 2))) (get_today_existing_data ws d).last_row (max (newBucket (get_today_existing_data ws d).grade1 ((filteredRecords cc records).filter (fun r => r.grade = 1))).length (newBucket (get_today_existing_data ws d).grade2 ((filteredRecords cc records).filter (fun r => r.grade = 2))).length) hd rfl rfl
      hlr1 hlrW (occ_le_last ws d) hlen₁ hlenB hold2 hb0 hb6 hblen hb9 hupd2
      (le_max_right _ _) hN2nd r hr (hrec r (hmem2 r hr)).2.2
      (hrec r (hmem2 r hr)).1 (hrec r (hmem2 r hr)).2.1
  obtain ⟨hn1, hn2, hu1, hu2, happ⟩ := run2_noop ws₁ d ((filteredRecords cc records).filter (fun r => r.grade = 1)) ((filteredRecords cc records).filter (fun r => r.grade = 2)) htr1 htr2
  have hrun2 := run_unfold ws₁ records cc g1d g2d d ts
    (get_today_existing_data ws₁ d) _ _ _ _ _ _ _ _ hr0 hf0
    rfl rfl rfl rfl rfl rfl rfl rfl rfl
  constructor
  · rw [hrun2]
    show (if (max (newBucket (get_today_existing_data ws₁ d).grade1
          ((filteredRecords cc records).filter (fun r => r.grade = 1))).length
        (newBucket (get_today_existing_data ws₁ d).grade2
          ((filteredRecords cc records).filter
            (fun r => r.grade = 2))).length) = 0 then 0
      else _) = 0
    have hc : max ([] : List AbsenceRecord).length
        ([] : List AbsenceRecord).length = 0 := rfl
    rw [hn1, hn2, if_pos hc]
  · rw [hrun2]
    show (if (max (newBucket (get_today_existing_data ws₁ d).grade1
          ((filteredRecords cc records).filter (fun r => r.grade = 1))).length
        (newBucket (get_today_existing_data ws₁ d).grade2
          ((filteredRecords cc records).filter
            (fun r => r.grade = 2))).length) = 0 then
        applyUpdates (get_today_existing_data ws₁ d).grade2 9
          (updateBucket (get_today_existing_data ws₁ d).grade2
            ((filteredRecords cc records).filter (fun r => r.grade = 2)))
          (applyUpdates (get_today_existing_data ws₁ d).grade1 5
            (updateBucket (get_today_existing_data ws₁ d).grade1
              ((filteredRecords cc records).filter (fun r => r.grade = 1)))
            ws₁)
      else _) = ws₁
    have hc : max ([] : List AbsenceRecord).length
        ([] : List AbsenceRecord).length = 0 := rfl
    rw [hn1, hn2, if_pos hc, hu1, hu2, happ]

/-- C1 (counterexample): the unqualified idempotence claim is false: with a
record whose period list is not sorted ascending ([2, 1]), the first run
renders the cell as "2,1교시" while the second run's merge rewrites it to the
canonical "1,2교시", so the second run does change the ledger. -/
theorem c1_counterexample :
    ¬ (∀ (ws : List (List Str)) (records : List AbsenceRecord)
        (cc : Except Str (List Str)) (g1d g2d : List (Str × Str)) (d ts : Str),
        (write_absence_records
            (write_absence_records ws records cc g1d g2d d ts).ws
            records cc g1d g2d d ts).new_rows_count = 0
        ∧ (write_absence_records
            (write_absence_records ws records cc g1d g2d d ts).ws
            records cc g1d g2d d ts).ws
          = (write_absence_records ws records cc g1d g2d d ts).ws) := by
  intro h
  have hx := (h sampleWs [⟨"10911".data, "가".data, 1, [2, 1]⟩]
    (Except.ok []) [] [] sampleDate morningStr).2
  exact absurd hx (by decide)

/-- C1: reconciliation is idempotent for well-formed inputs: if the snapshot
and the target date are non-empty, the records carry pairwise-distinct
non-empty student ids, and each record's period list is non-empty and strictly
ascending, then running write_absence_records a second time with the same
records against the worksheet produced by the first run appends zero new rows
and returns the worksheet unchanged; and unconditionally, for every existing
periods text t and every incoming period list P,
merge_periods (merge_periods t P) P = merge_periods t P. -/
theorem c1_idempotent (ws : List (List Str)) (records : List AbsenceRecord)
    (cc : Except Str (List Str)) (g1d g2d : List (Str × Str)) (d ts : Str)
    (hwne : ws ≠ []) (hd : d ≠ [])
    (hids : (records.map (fun r => r.student_id)).Nodup)
    (hrec : ∀ r ∈ records, r.periods ≠ [] ∧ r.periods.Pairwise (· < ·)
      ∧ r.student_id ≠ []) :
    (write_absence_records
        (write_absence_records ws records cc g1d g2d d ts).ws
        records cc g1d g2d d ts).new_rows_count = 0
    ∧ (write_absence_records
        (write_absence_records ws records cc g1d g2d d ts).ws
        records cc g1d g2d d ts).ws
      = (write_absence_records ws records cc g1d g2d d ts).ws
    ∧ ∀ (t : Str) (P : List Nat),
        merge_periods (merge_periods t P) P = merge_periods t P := by
  have hmain : (write_absence_records
        (write_absence_records ws records cc g1d g2d d ts).ws
        records cc g1d g2d d ts).new_rows_count = 0
      ∧ (write_absence_records
        (write_absence_records ws records cc g1d g2d d ts).ws
        records cc g1d g2d d ts).ws
        = (write_absence_records ws records cc g1d g2d d ts).ws := by
    by_cases hr0 : records = []
    · have hws : write_absence_records ws records cc g1d g2d d ts
          = ⟨ws, 0, 0, none, 0⟩ := by
        unfold write_absence_records
        rw [if_pos hr0]
      rw [hws]
      show (write_absence_records ws records cc g1d g2d d ts).new_rows_count = 0
        ∧ (write_absence_records ws records cc g1d g2d d ts).ws = ws
      rw [hws]
      exact ⟨rfl, rfl⟩
    by_cases hf0 : filteredRecords cc records = []
    · have hws : write_absence_records ws records cc g1d g2d d ts
          = ⟨ws, 0, 0, none, 0⟩ := by
        unfold write_absence_records
        rw [if_neg hr0, if_pos hf0]
      rw [hws]
      show (write_absence_records ws records cc g1d g2d d ts).new_rows_count = 0
        ∧ (write_absence_records ws records cc g1d g2d d ts).ws = ws
      rw [hws]
      exact ⟨rfl, rfl⟩
    · have hws1 : (write_absence_records ws records cc g1d g2d d ts).ws
          = (if (max (newBucket (get_today_existing_data ws d).grade1 ((filteredRecords cc records).filter (fun r => r.grade = 1))).length (newBucket (get_today_existing_data ws d).grade2 ((filteredRecords cc records).filter (fun r => r.grade = 2))).length) = 0 then (applyUpdates (get_today_existing_data ws d).grade2 9 (updateBucket (get_today_existing_data ws d).grade2 ((filteredRecords cc records).filter (fun r => r.grade = 2))) (applyUpdates (get_today_existing_data ws d).grade1 5 (updateBucket (get_today_existing_data ws d).grade1 ((filteredRecords cc records).filter (fun r => r.grade = 1))) ws)) else writeBlock (applyUpdates (get_today_existing_data ws d).grade2 9 (updateBucket (get_today_existing_data ws d).grade2 ((filteredRecords cc records).filter (fun r => r.grade = 2))) (applyUpdates (get_today_existing_data ws d).grade1 5 (updateBucket (get_today_existing_data ws d).grade1 ((filteredRecords cc records).filter (fun r => r.grade = 1))) ws)) ((get_today_existing_data ws d).last_row + 1) ((List.range (max (newBucket (get_today_existing_data ws d).grade1 ((filteredRecords cc records).filter (fun r => r.grade = 1))).length (newBucket (get_today_existing_data ws d).grade2 ((filteredRecords cc records).filter (fun r => r.grade = 2))).length)).map (build_new_row d ((get_today_existing_data ws d).max_seq + 1) g1d g2d (newBucket (get_today_existing_data ws d).grade1 ((filteredRecords cc records).filter (fun r => r.grade = 1))) (newBucket (get_today_existing_data ws d).grade2 ((filteredRecords cc records).filter (fun r => r.grade = 2)))))) := by
        rw [run_unfold ws records cc g1d g2d d ts
          (get_today_existing_data ws d) _ _ _ _ _ _ _ _ hr0 hf0
          rfl rfl rfl rfl rfl rfl rfl rfl rfl]
      obtain ⟨hcnt, hwseq⟩ := c1_core ws _ records cc g1d g2d d ts
        hwne hd hids hrec hr0 hf0 rfl
      rw [hws1]
      exact ⟨hcnt, hwseq⟩
  exact ⟨hmain.1, hmain.2, fun t P => merge_periods_idem t P⟩

/-- C1 (witness): the idempotence theorem applied to a concrete run: one
non-empty snapshot row, four well-formed records, a non-empty date. -/
theorem c1_idempotent_witness :
    sampleWs ≠ [] ∧ sampleDate ≠ []
    ∧ (packRecs.map (fun r => r.student_id)).Nodup
    ∧ (∀ r ∈ packRecs, r.periods ≠ [] ∧ r.periods.Pairwise (· < ·)
        ∧ r.student_id ≠ [])
    ∧ ((write_absence_records
          (write_absence_records sampleWs packRecs (Except.ok []) [] []
            sampleDate morningStr).ws
          packRecs (Except.ok []) [] [] sampleDate morningStr).new_rows_count = 0
      ∧ (write_absence_records
          (write_absence_records sampleWs packRecs (Except.ok []) [] []
            sampleDate morningStr).ws
          packRecs (Except.ok []) [] [] sampleDate morningStr).ws
        = (write_absence_records sampleWs packRecs (Except.ok []) [] []
            sampleDate morningStr).ws
      ∧ ∀ (t : Str) (P : List Nat),
          merge_periods (merge_periods t P) P = merge_periods t P) :=
  ⟨by decide, by decide, by decide, by decide,
    c1_idempotent sampleWs packRecs (Except.ok []) [] [] sampleDate morningStr
      (by decide) (by decide) (by decide) (by decide)⟩
